import Mathlib

/-!
Verification of the brain-cli core against its specification.

The JavaScript sources (src/utils.js, src/schemas.js, src/lifecycle.js,
src/search.js, src/validate.js, src/bwt.js, src/boot.js) are shallowly
embedded below.  Files are modelled by a finite map from paths (relative to
the brain root) to typed file contents: documents as raw strings, the three
JSON index artifacts as their parsed values (JSON serialisation is
deterministic and injective, so equality of parsed values models
byte-identity of the serialised files).  SHA-256 is modelled by an
executable stand-in hash function `sha256str`; every property proved below
depends only on the hash being a deterministic function of the content, not
on its cryptographic structure.  JavaScript truthiness on strings is the
`≠ ""` test, `null`/`undefined` are `Option.none`, and string comparison is
lexicographic on characters exactly as in JS (all examples stay in the
basic plane).
-/

namespace Brain

/-! ### Character and string utilities -/

def isWs (c : Char) : Bool :=
  c == ' ' || c == '\t' || c == '\n' || c == '\r'

/-- JS `String.prototype.trim` (ASCII whitespace model). -/
def trimStr (s : String) : String :=
  String.mk (((s.toList.dropWhile isWs).reverse.dropWhile isWs).reverse)

/-- Leftmost-first, non-overlapping split on a nonempty separator,
mirroring JS `String.prototype.split(sep)`.  Structural recursion on a
fuel counter (any fuel ≥ the input length gives the split; callers pass
the length). -/
def splitGoF (s0 : Char) (srest : List Char) : Nat → List Char → List Char → List (List Char)
  | _, [], cur => [cur.reverse]
  | 0, c :: rest, cur => [cur.reverse ++ c :: rest]
  | fuel + 1, c :: rest, cur =>
    if (s0 :: srest).isPrefixOf (c :: rest) then
      cur.reverse :: splitGoF s0 srest fuel (rest.drop srest.length) []
    else
      splitGoF s0 srest fuel rest (c :: cur)

def splitOnStr (sep s : String) : List String :=
  match sep.toList with
  | [] => [s]
  | c :: cs => (splitGoF c cs s.toList.length s.toList []).map String.mk

/-- JS `String.prototype.includes` on lists of characters. -/
def containsL (sub : List Char) : List Char → Bool
  | [] => sub.isEmpty
  | c :: t => sub.isPrefixOf (c :: t) || containsL sub t

def containsStr (s sub : String) : Bool :=
  containsL sub.toList s.toList

def startsWithStr (s pre : String) : Bool :=
  pre.toList.isPrefixOf s.toList

def endsWithStr (s suf : String) : Bool :=
  suf.toList.isSuffixOf s.toList

def dropPrefixStr (s pre : String) : String :=
  String.mk (s.toList.drop pre.toList.length)

def toLowerStr (s : String) : String :=
  String.mk (s.toList.map Char.toLower)

/-- Lexicographic strict order on strings, as JS `<` on strings. -/
def ltL : List Char → List Char → Bool
  | [], [] => false
  | [], _ :: _ => true
  | _ :: _, [] => false
  | a :: as, b :: bs => if a < b then true else if b < a then false else ltL as bs

def strLt (a b : String) : Bool := ltL a.toList b.toList

/-- JS `a >= b` on strings. -/
def strGe (a b : String) : Bool := !(strLt a b)

/-- Whitespace-run tokenizer: the nonempty pieces of JS `s.split(/\s+/)`. -/
def splitWsL : List Char → List Char → List (List Char)
  | [], cur => if cur.isEmpty then [] else [cur.reverse]
  | c :: t, cur =>
    if isWs c then
      (if cur.isEmpty then splitWsL t [] else cur.reverse :: splitWsL t [])
    else splitWsL t (c :: cur)

def splitWs (s : String) : List String :=
  (splitWsL s.toList []).map String.mk

/-- JS `Array.prototype.join(sep)`. -/
def intercalateL (sep : List Char) : List (List Char) → List Char
  | [] => []
  | [x] => x
  | x :: y :: rest => x ++ sep ++ intercalateL sep (y :: rest)

def joinStr (sep : String) (parts : List String) : String :=
  String.mk (intercalateL sep.toList (parts.map String.toList))

/-- Executable stand-in for SHA-256 over a string's bytes (utils.js
`calculateHashFromString`).  Only determinism matters for the claims. -/
def hashNat (s : String) : Nat :=
  s.toList.foldl (fun h c => (h * 31 + c.toNat) % 18446744073709551616) 7

def sha256str (s : String) : String :=
  "sha256:" ++ toString (hashNat s)

def digitsPrefix : List Char → List Char
  | [] => []
  | c :: t => if c.isDigit then c :: digitsPrefix t else []

/-- JS `parseInt` restricted to a leading decimal digit run (`NaN` is `none`). -/
def parseIntLeading (s : String) : Option Nat :=
  match digitsPrefix s.toList with
  | [] => none
  | ds => some (ds.foldl (fun n c => n * 10 + (c.toNat - 48)) 0)

/-- JS `String(n).padStart(4, "0")`. -/
def padLeft4 (n : Nat) : String :=
  let s := toString n
  if s.length ≥ 4 then s else String.mk (List.replicate (4 - s.length) '0') ++ s

/-- `path.dirname` on root-relative slash-separated paths. -/
def dirname (p : String) : String :=
  let parts := splitOnStr "/" p
  if parts.length ≤ 1 then "." else joinStr "/" parts.dropLast

/-! ### Data model (schemas.js) -/

/-- A records.jsonl record: 14 fields, nullable ones are `Option`. -/
structure Record where
  recordId : String
  scopeType : String
  scopeId : String
  type : String
  title : String
  summary : String
  tags : List String
  sourceType : String
  sourceRef : String
  status : String
  replacedBy : Option String
  deprecationReason : Option String
  updatedAt : String
  contentHash : String
deriving DecidableEq, Repr

/-- A partial record as supplied inside an intent: present keys are `some`.
(Keys outside the 14 schema fields are not modelled; the engine would copy
them onto the stored object but no reader consults them.) -/
structure PartialRecord where
  recordId : Option String := none
  scopeType : Option String := none
  scopeId : Option String := none
  type : Option String := none
  title : Option String := none
  summary : Option String := none
  tags : Option (List String) := none
  sourceType : Option String := none
  sourceRef : Option String := none
  status : Option String := none
  replacedBy : Option (Option String) := none
  deprecationReason : Option (Option String) := none
  updatedAt : Option String := none
  contentHash : Option String := none
deriving DecidableEq, Repr

/-- A BWT intent object; absent keys are `none`. -/
structure Intent where
  action : String
  sourceRef : Option String := none
  content : Option String := none
  record : Option PartialRecord := none
  recordId : Option String := none
  replacedBy : Option String := none
  deprecationReason : Option String := none
deriving DecidableEq, Repr

def SCOPE_TYPES : List String := ["project", "agent", "user", "topic"]

def RECORD_TYPES : List String :=
  ["rule", "decision", "profile", "log", "ref", "note", "candidate", "reminder", "project_state"]

def SOURCE_TYPES : List String :=
  ["user_confirmed", "candidate", "chat_log", "external_doc", "inference"]

def STATUS_VALUES : List String := ["active", "deprecated", "archived"]

def scopeAbbrev? (scopeType : String) : Option String :=
  if scopeType == "project" then some "proj"
  else if scopeType == "agent" then some "agent"
  else if scopeType == "user" then some "user"
  else if scopeType == "topic" then some "topic"
  else none

def isLowerSlugChar (c : Char) : Bool :=
  c.isLower || c.isDigit || c == '_' || c == '-'

/-- Decidable matcher for `RECORD_ID_REGEX`
`/^rec_(proj|agent|user|topic)_[a-z0-9_-]+_\d{8}_\d{4}$/`.  Because the
date/sequence portion has fixed length 14, the regex matches exactly when
the suffix-anchored decomposition below succeeds. -/
def recordIdOk (s : String) : Bool :=
  let l := s.toList
  let tryScope : String → Option (List Char) := fun ab =>
    let pre := ("rec_" ++ ab ++ "_").toList
    if pre.isPrefixOf l then some (l.drop pre.length) else none
  let rest? :=
    match tryScope "proj" with
    | some r => some r
    | none =>
      match tryScope "agent" with
      | some r => some r
      | none =>
        match tryScope "user" with
        | some r => some r
        | none => tryScope "topic"
  match rest? with
  | none => false
  | some rest =>
    let n := rest.length
    if n < 15 then false
    else
      let mid := rest.take (n - 14)
      let tl := rest.drop (n - 14)
      (decide (mid.length ≥ 1)) && mid.all isLowerSlugChar &&
      (match tl with
       | '_' :: t1 =>
         let d8 := t1.take 8
         let t2 := t1.drop 8
         (d8.length == 8) && d8.all Char.isDigit &&
         (match t2 with
          | '_' :: d4 => (d4.length == 4) && d4.all Char.isDigit
          | _ => false)
       | _ => false)

def truthy (s : String) : Bool := s != ""

def truthyOpt : Option String → Bool
  | some s => s != ""
  | none => false

/-- schemas.js `validateRecord`: the returned error list (message texts
abbreviated; the mandatory-field presence check is vacuous under typing,
and the `Array.isArray(tags)` check likewise always passes). -/
def validateRecord (r : Record) : List String :=
  (if recordIdOk r.recordId then [] else ["recordId format"]) ++
  (if SCOPE_TYPES.contains r.scopeType then [] else ["scopeType value"]) ++
  (if RECORD_TYPES.contains r.type then [] else ["type value"]) ++
  (if SOURCE_TYPES.contains r.sourceType then [] else ["sourceType value"]) ++
  (if STATUS_VALUES.contains r.status then [] else ["status value"]) ++
  (if r.status == "deprecated" && r.replacedBy == none then
    ["deprecated requires replacedBy"] else []) ++
  (if r.replacedBy == some "obsolete" && !truthyOpt r.deprecationReason then
    ["obsolete requires deprecationReason"] else []) ++
  (if truthy r.contentHash && !startsWithStr r.contentHash "sha256:" then
    ["contentHash format"] else [])

/-- schemas.js `validateIntent`: returned error list. -/
def validateIntent (i : Intent) : List String :=
  if !(["create", "update", "delete", "deprecate"].contains i.action) then
    ["action value"]
  else if i.action == "create" then
    (match i.record with
     | none => ["create requires record"]
     | some _ => []) ++
    (if truthyOpt i.sourceRef then [] else ["create requires sourceRef"]) ++
    (match i.content with
     | none => ["create requires content"]
     | some _ => []) ++
    (match i.record with
     | none => []
     | some pr =>
       (if truthyOpt pr.scopeType then [] else ["record.scopeType required"]) ++
       (if truthyOpt pr.scopeId then [] else ["record.scopeId required"]) ++
       (if truthyOpt pr.type then [] else ["record.type required"]) ++
       (if truthyOpt pr.title then [] else ["record.title required"]) ++
       (if truthyOpt pr.sourceType then [] else ["record.sourceType required"]))
  else if i.action == "update" then
    if truthyOpt i.recordId then [] else ["update requires recordId"]
  else if i.action == "delete" then
    if truthyOpt i.recordId then [] else ["delete requires recordId"]
  else
    (if truthyOpt i.recordId then [] else ["deprecate requires recordId"]) ++
    (match i.replacedBy with
     | none => ["deprecate requires replacedBy"]
     | some _ => [])

/-! ### Lifecycle gates (lifecycle.js) -/

structure DeleteGateOptions where
  userConfirmed : Bool := false
  currentSessionStart : String := ""
deriving DecidableEq, Repr

structure GateResult where
  allowed : Bool
  unmet : List String
deriving DecidableEq, Repr

/-- lifecycle.js `checkDeleteGate`. -/
def checkDeleteGate (record : Record) (options : DeleteGateOptions) : GateResult :=
  if record.status != "deprecated" then
    { allowed := false, unmet := ["record is not deprecated"] }
  else
    let u1 :=
      if truthy options.currentSessionStart && truthy record.updatedAt then
        (if strGe record.updatedAt options.currentSessionStart then
          ["one session: deprecated in current session"] else [])
      else ["one session: no session info"]
    let u2 := if truthyOpt record.replacedBy then [] else ["replacedBy: null"]
    let u3 := if options.userConfirmed then [] else ["user confirmation required"]
    let unmet := u1 ++ u2 ++ u3
    { allowed := unmet.isEmpty, unmet := unmet }

structure AutoCreateResult where
  autoAllowed : Bool
deriving DecidableEq, Repr

/-- lifecycle.js `checkFolderAutoCreate`. -/
def checkFolderAutoCreate (sourceRef : String) : AutoCreateResult :=
  ⟨startsWithStr sourceRef "30_topics/"⟩

/-! ### Search (search.js) -/

structure DigestEntry where
  recordId : String
  title : String
  summary : String
  tags : List String
  status : String
deriving DecidableEq, Repr

structure ScoredEntry where
  recordId : String
  title : String
  summary : String
  tags : List String
  status : String
  score : Nat
deriving DecidableEq, Repr

/-- The per-line body of search.js `_loadDigest`: skip blank and `#` lines,
split on the pipe separator, keep lines with at least five fields. -/
def digestLineStep (acc : List DigestEntry) (line : String) : List DigestEntry :=
  if trimStr line == "" || startsWithStr (trimStr line) "#" then acc
  else
    match splitOnStr " | " line with
    | p0 :: p1 :: p2 :: p3 :: p4 :: _ =>
      acc ++ [{ recordId := trimStr p0, title := trimStr p1, summary := trimStr p2,
                tags := if trimStr p3 != "" then splitOnStr "," (trimStr p3) else [],
                status := trimStr p4 }]
    | _ => acc

/-- search.js `_loadDigest` applied to the file content. -/
def loadDigestContent (content : String) : List DigestEntry :=
  (splitOnStr "\n" content).foldl digestLineStep []

/-- search.js `_scopeAbbrev` (falls back to the input). -/
def scopeAbbrevS (scopeType : String) : String :=
  (scopeAbbrev? scopeType).getD scopeType

/-- search.js `_calculateRelevance`: goal-relevance score of a digest entry.
`goal` arrives already lowercased from `search`. -/
def calculateRelevance (d : DigestEntry) (goal : String) : Nat :=
  if goal == "" then 0
  else
    let goalTokens := (splitWs goal).filter (fun t => t.length > 1)
    let titleLower := toLowerStr d.title
    let s1 := goalTokens.foldl (fun sc t => if containsStr titleLower t then sc + 3 else sc) 0
    let summaryLower := toLowerStr d.summary
    let s2 := goalTokens.foldl (fun sc t => if containsStr summaryLower t then sc + 2 else sc) 0
    let tagsStr := toLowerStr (joinStr " " d.tags)
    let s3 := goalTokens.foldl (fun sc t => if containsStr tagsStr t then sc + 1 else sc) 0
    s1 + s2 + s3

/-! ### The file store

A store is a finite map from root-relative paths to typed file contents,
plus the set of directories that exist.  Index artifacts are stored parsed
(their JSON serialisation is deterministic, so structural equality models
byte-identity); documents and the digest are stored as raw text. -/

structure ManifestEntry where
  path : String
  hash : String
  size : Nat
  updatedAt : String
  category : String
deriving DecidableEq, Repr

structure ManifestSummary where
  totalFiles : Nat
  policy : Nat
  user : Nat
  project : Nat
  agent : Nat
  topic : Nat
  index : Nat
deriving DecidableEq, Repr

structure Manifest where
  version : String
  updatedAt : String := ""
  summary : ManifestSummary := ⟨0, 0, 0, 0, 0, 0, 0⟩
  files : List ManifestEntry
deriving DecidableEq, Repr

inductive FileData where
  | text (s : String)
  | recs (rs : List Record)
  | manifest (m : Manifest)
  | tagsJson (axes : List String)
deriving DecidableEq, Repr

structure Store where
  files : List (String × FileData)
  dirs : List String
deriving DecidableEq, Repr

def lookupF (fs : Store) (p : String) : Option FileData :=
  (fs.files.find? (fun e => e.1 == p)).map (·.2)

def existsF (fs : Store) (p : String) : Bool :=
  (lookupF fs p).isSome

def setFile (fs : Store) (p : String) (d : FileData) : Store :=
  { fs with files := fs.files.filter (fun e => e.1 != p) ++ [(p, d)] }

def eraseFile (fs : Store) (p : String) : Store :=
  { fs with files := fs.files.filter (fun e => e.1 != p) }

def addDir (fs : Store) (d : String) : Store :=
  if fs.dirs.contains d then fs else { fs with dirs := fs.dirs ++ [d] }

/-- Deterministic serialisation used only to feed the hash/size model for
non-document files; documents serialise to their own text. -/
def serializeRecord (r : Record) : String :=
  joinStr "\x1f" [r.recordId, r.scopeType, r.scopeId, r.type, r.title, r.summary,
    joinStr "," r.tags, r.sourceType, r.sourceRef, r.status,
    r.replacedBy.getD "\x00", r.deprecationReason.getD "\x00", r.updatedAt, r.contentHash]

def serializeManifestEntry (e : ManifestEntry) : String :=
  joinStr "\x1f" [e.path, e.hash, toString e.size, e.updatedAt, e.category]

def serializeFile : FileData → String
  | .text s => s
  | .recs rs => "JSONL:" ++ joinStr "\x1e" (rs.map serializeRecord)
  | .manifest m =>
    "MANIFEST:" ++ m.version ++ "\x1e" ++ m.updatedAt ++ "\x1e" ++
      joinStr "\x1e" (m.files.map serializeManifestEntry)
  | .tagsJson axes => "TAGS:" ++ joinStr "," axes

/-- utils.js `calculateHash` (file variant).  Every call site in the source
is guarded by an `existsSync` check, so the missing-file default is dead. -/
def calculateHash (fs : Store) (p : String) : String :=
  match lookupF fs p with
  | some fd => sha256str (serializeFile fd)
  | none => sha256str ""

/-- `fs.statSync(path).size`, modelled as the length of the serialised
content (UTF-8 byte length is modelled as character count). -/
def fileSize (fs : Store) (p : String) : Nat :=
  match lookupF fs p with
  | some fd => (serializeFile fd).length
  | none => 0

/-- utils.js `readJsonl`: missing file gives `[]`; a file that does not
parse as a record sequence raises. -/
def readJsonlE (fs : Store) (p : String) : Except String (List Record) :=
  match lookupF fs p with
  | none => .ok []
  | some (.recs rs) => .ok rs
  | some _ => .error "jsonl parse error"

def safeReadManifest (fs : Store) (p : String) : Option Manifest :=
  match lookupF fs p with
  | some (.manifest m) => some m
  | _ => none

def safeReadTags (fs : Store) (p : String) : Option (List String) :=
  match lookupF fs p with
  | some (.tagsJson a) => some a
  | _ => none

def recordsPath : String := "90_index/records.jsonl"

def manifestPath : String := "90_index/manifest.json"

def digestPath : String := "90_index/records_digest.txt"

def tagsPath : String := "90_index/tags.json"

/-- utils.js `generateRecordId`; the engine clock date is the `today`
argument (format `YYYYMMDD`). -/
def generateRecordId (scopeType scopeId : String) (existing : List Record)
    (today : String) : Except String String :=
  match scopeAbbrev? scopeType with
  | none => .error "unknown scopeType"
  | some abrv =>
    let pre := "rec_" ++ abrv ++ "_" ++ scopeId ++ "_" ++ today ++ "_"
    let maxSeq := existing.foldl (fun m r =>
      if startsWithStr r.recordId pre then
        match parseIntLeading (dropPrefixStr r.recordId pre) with
        | some n => if n > m then n else m
        | none => m
      else m) 0
    .ok (pre ++ padLeft4 (maxSeq + 1))

/-- utils.js `generateDigestLine`. -/
def generateDigestLine (r : Record) : String :=
  r.recordId ++ " | " ++ r.title ++ " | " ++ r.summary ++ " | " ++
    joinStr "," r.tags ++ " | " ++ r.status

/-! ### Validator (validate.js) -/

structure ValidationResult where
  passed : Bool
  errors : List String
  warnings : List String
deriving DecidableEq, Repr

def requiredFilesList : List String :=
  ["99_policy/brainPolicy.md", "90_index/manifest.json",
   "90_index/tags.json", "90_index/folderRegistry.json"]

/-- Non-first occurrences exist, as in validate.js's
`ids.filter((id, idx) => ids.indexOf(id) !== idx)` being nonempty. -/
def listHasDup : List String → Bool
  | [] => false
  | x :: xs => xs.contains x || listHasDup xs

/-- Direct children of `90_index/` present in the store. -/
def isIndexChild (p : String) : Bool :=
  startsWithStr p "90_index/" && !containsStr (dropPrefixStr p "90_index/") "/"

/-- validate.js `validate` (committed or tmp mode, optional full mode). -/
def validate (fs : Store) (tmpMode full : Bool) : ValidationResult :=
  let e1 := requiredFilesList.filterMap (fun p =>
    if existsF fs p then none else some ("missing file: " ++ p))
  let recsP := if tmpMode then recordsPath ++ ".tmp" else recordsPath
  let e1b := if !tmpMode && !existsF fs recordsPath then
      ["missing file: 90_index/records.jsonl"] else []
  let e1all := e1 ++ e1b
  if e1all.length > 0 && !tmpMode then
    { passed := false, errors := e1all, warnings := [] }
  else
    let ew2 : List String × List String :=
      match readJsonlE fs recsP with
      | .ok records =>
        let errsRec := records.flatMap (fun r =>
          (validateRecord r).map (fun e => "record (" ++ r.recordId ++ "): " ++ e))
        let wCount := if records.length > 100 then ["over 100 records"] else []
        let dupErr := if listHasDup (records.map (·.recordId)) then
            ["duplicate recordId"] else []
        (errsRec ++ dupErr, wCount)
      | .error _ =>
        (if existsF fs recsP then ["records parse failure"] else [], [])
    let e3 :=
      match safeReadTags fs tagsPath with
      | some axes =>
        if axes.length != 2 || !axes.contains "domain" || !axes.contains "intent" then
          ["tags axes invalid"] else []
      | none => []
    let manP := if tmpMode then manifestPath ++ ".tmp" else manifestPath
    let ew4 : List String × List String :=
      match safeReadManifest fs manP with
      | some m =>
        m.files.foldl (fun (acc : List String × List String) (entry : ManifestEntry) =>
          let tmpFilePath := entry.path ++ ".tmp"
          let checkPath := if tmpMode && existsF fs tmpFilePath then tmpFilePath else entry.path
          if !existsF fs checkPath then
            (acc.1 ++ ["manifest file missing: " ++ entry.path], acc.2)
          else if calculateHash fs checkPath != entry.hash then
            if tmpMode then (acc.1 ++ ["hash mismatch: " ++ entry.path], acc.2)
            else (acc.1, acc.2 ++ ["hash mismatch (manual edit?): " ++ entry.path])
          else acc) ([], [])
      | none => ([], [])
    let w5 :=
      if full then
        match readJsonlE fs recordsPath with
        | .ok records =>
          let depIds := (records.filter (fun r => r.status == "deprecated")).map (·.recordId)
          if depIds.isEmpty then []
          else
            (records.filter (fun r => r.status == "active")).flatMap (fun a =>
              depIds.filterMap (fun d =>
                if containsStr (a.sourceRef ++ " " ++ a.summary) d then
                  some ("backref: " ++ a.recordId ++ " references " ++ d)
                else none))
        | .error _ => []
      else []
    let w6 :=
      if !tmpMode &&
          (fs.files.map (·.1)).any (fun p =>
            isIndexChild p && (endsWithStr p ".bak" || endsWithStr p ".tmp")) then
        ["residual files detected"]
      else []
    let errors := e1all ++ ew2.1 ++ e3 ++ ew4.1
    { passed := errors.isEmpty, errors := errors,
      warnings := ew2.2 ++ ew4.2 ++ w5 ++ w6 }

/-- search.js `_loadDigest` reading from the store (missing file: `[]`). -/
def loadDigest (fs : Store) : List DigestEntry :=
  match lookupF fs digestPath with
  | some (.text content) => loadDigestContent content
  | _ => []

structure Query where
  scopeType : String := ""
  scopeId : String := ""
  currentGoal : String := ""
  topK : Nat := 0
deriving DecidableEq, Repr

structure SearchResult where
  candidates : List ScoredEntry
  total : Nat
deriving DecidableEq, Repr

/-- Stable descending insertion by score; JS `Array.prototype.sort` with
comparator `(a, b) => b.score - a.score` is a stable descending sort. -/
def insertDesc (x : ScoredEntry) : List ScoredEntry → List ScoredEntry
  | [] => [x]
  | y :: ys => if y.score ≥ x.score then y :: insertDesc x ys else x :: y :: ys

def sortByScoreDesc (l : List ScoredEntry) : List ScoredEntry :=
  l.foldr insertDesc []

/-- search.js `search` applied to already-parsed digest lines (steps 2-b
through 2-e; step 2-a `_loadDigest` is applied by `searchStore` below). -/
def searchLines (digestLines : List DigestEntry) (q : Query) : SearchResult :=
  let f1 :=
    if truthy q.scopeType then
      let ab := scopeAbbrevS q.scopeType
      let f := digestLines.filter (fun d => containsStr d.recordId ("_" ++ ab ++ "_"))
      if truthy q.scopeId then
        f.filter (fun d => containsStr d.recordId ("_" ++ q.scopeId ++ "_"))
      else f
    else digestLines
  let filtered := f1.filter (fun d => d.status == "active")
  let goal := toLowerStr q.currentGoal
  let scored := filtered.map (fun d =>
    ScoredEntry.mk d.recordId d.title d.summary d.tags d.status (calculateRelevance d goal))
  let sorted := sortByScoreDesc scored
  let topK := if q.topK == 0 then 10 else q.topK
  { candidates := sorted.take topK, total := filtered.length }

/-- search.js `search`: full pipeline over the store. -/
def searchStore (fs : Store) (q : Query) : SearchResult :=
  searchLines (loadDigest fs) q

/-! ### BWT engine (bwt.js) -/

/-- JS truthiness filter on an optional string field. -/
def truthyStrOpt : Option String → Option String
  | some s => if s == "" then none else some s
  | none => none

structure ExecResult where
  success : Bool
  recordId : Option String := none
  step : Option Nat := none
deriving DecidableEq, Repr

/-- Step 0 `_checkResidualTmp`: any `*.tmp` direct child of `90_index/`. -/
def checkResidualTmp (fs : Store) : Bool :=
  (fs.files.map (·.1)).any (fun p => isIndexChild p && endsWithStr p ".tmp")

/-- Step 1 `_parseIntent`: validate the intent and, for `create`, mint the
record id from the committed records (any raised error is tagged step 1). -/
def parseIntentE (fs : Store) (today : String) (intent : Intent) : Except Nat Intent :=
  if !(validateIntent intent).isEmpty then .error 1
  else if intent.action == "create" then
    match readJsonlE fs recordsPath with
    | .error _ => .error 1
    | .ok existing =>
      match intent.record with
      | some pr =>
        match generateRecordId (pr.scopeType.getD "") (pr.scopeId.getD "") existing today with
        | .error _ => .error 1
        | .ok rid => .ok { intent with recordId := some rid }
      | none => .error 1
  else .ok intent

/-- `_getAffectedFiles`, evaluated against the pre-transaction store. -/
def getAffectedFiles (fs : Store) (parsed : Intent) : List String :=
  let base := [recordsPath, manifestPath, digestPath]
  match truthyStrOpt parsed.sourceRef with
  | some s =>
    if (parsed.action == "update" || parsed.action == "delete") && existsF fs s then
      base ++ [s]
    else base
  | none => base

/-- Step 2 `_createBackups`: copy each affected existing file to
`path + ".bak"`, tracking the pairs in order.  As in the source, existence
is checked against the evolving store. -/
def bakStep (st : Store × List (String × String)) (p : String) :
    Store × List (String × String) :=
  match lookupF st.1 p with
  | some d => (setFile st.1 (p ++ ".bak") d, st.2 ++ [(p, p ++ ".bak")])
  | none => st

def createBackups (fs : Store) (parsed : Intent) : Store × List (String × String) :=
  (getAffectedFiles fs parsed).foldl bakStep (fs, [])

/-- Step 3 `_ensureFolders`: for create intents with a sourceRef the parent
directory is created unconditionally (`ensureDir` is recursive `mkdir`;
only membership of the parent matters here). -/
def ensureFoldersStep (fs : Store) (parsed : Intent) : Store :=
  if parsed.action == "create" then
    match truthyStrOpt parsed.sourceRef with
    | some s => addDir fs (dirname s)
    | none => fs
  else fs

/-- Step 4 `_writeDocumentTmp`. -/
def writeDocumentTmp (fs : Store) (parsed : Intent) : Store × List String :=
  if parsed.action == "create" || parsed.action == "update" then
    match parsed.content, truthyStrOpt parsed.sourceRef with
    | some c, some s => (setFile fs (s ++ ".tmp") (.text c), [s ++ ".tmp"])
    | _, _ => (fs, [])
  else (fs, [])

/-- The in-place patch of the update case of `_updateRecordsTmp`: every
present key of the partial record is copied verbatim, then `contentHash`
is recomputed when `content` is truthy, then `updatedAt` is refreshed. -/
def applyPartial (r : Record) (p : PartialRecord) : Record :=
  { recordId := p.recordId.getD r.recordId
    scopeType := p.scopeType.getD r.scopeType
    scopeId := p.scopeId.getD r.scopeId
    type := p.type.getD r.type
    title := p.title.getD r.title
    summary := p.summary.getD r.summary
    tags := p.tags.getD r.tags
    sourceType := p.sourceType.getD r.sourceType
    sourceRef := p.sourceRef.getD r.sourceRef
    status := p.status.getD r.status
    replacedBy := p.replacedBy.getD r.replacedBy
    deprecationReason := p.deprecationReason.getD r.deprecationReason
    updatedAt := p.updatedAt.getD r.updatedAt
    contentHash := p.contentHash.getD r.contentHash }

def applyUpdateMutation (r : Record) (p : Option PartialRecord)
    (content : Option String) (now : String) : Record :=
  let r1 := match p with | some pr => applyPartial r pr | none => r
  let r2 := match content with
    | some c => if c != "" then { r1 with contentHash := sha256str c } else r1
    | none => r1
  { r2 with updatedAt := now }

/-- The create case of `_updateRecordsTmp`: the freshly minted record.
`fs` is the store after step 4, so the staged document tmp is visible. -/
def buildCreateRecord (fs : Store) (parsed : Intent) (pr : PartialRecord)
    (now : String) : Record :=
  let contentHash :=
    match parsed.content with
    | some c =>
      if c != "" then sha256str c
      else
        match truthyStrOpt parsed.sourceRef with
        | some s => if existsF fs (s ++ ".tmp") then calculateHash fs (s ++ ".tmp")
                    else "sha256:empty"
        | none => "sha256:empty"
    | none =>
      match truthyStrOpt parsed.sourceRef with
      | some s => if existsF fs (s ++ ".tmp") then calculateHash fs (s ++ ".tmp")
                  else "sha256:empty"
      | none => "sha256:empty"
  { recordId := parsed.recordId.getD ""
    scopeType := pr.scopeType.getD ""
    scopeId := pr.scopeId.getD ""
    type := pr.type.getD ""
    title := pr.title.getD ""
    summary := (pr.summary.bind (fun s => if s == "" then none else some s)).getD ""
    tags := (pr.tags.bind (fun t => some t)).getD []
    sourceType := pr.sourceType.getD ""
    sourceRef := (truthyStrOpt parsed.sourceRef).getD ""
    status := "active"
    replacedBy := none
    deprecationReason := none
    updatedAt := now
    contentHash := contentHash }

/-- Step 5 `_updateRecordsTmp`: read committed records, apply the intent's
mutation, stage the result at `records.jsonl.tmp`. -/
def updateRecordsTmp (fs : Store) (parsed : Intent) (now : String) :
    Except Nat (Store × String) :=
  match readJsonlE fs recordsPath with
  | .error _ => .error 5
  | .ok records =>
    let staged : Except Nat (List Record) :=
      if parsed.action == "create" then
        match parsed.record with
        | some pr => .ok (records ++ [buildCreateRecord fs parsed pr now])
        | none => .ok records
      else if parsed.action == "update" then
        match records.findIdx? (fun r => r.recordId == parsed.recordId.getD "") with
        | none => .error 5
        | some idx =>
          match records[idx]? with
          | none => .error 5
          | some r =>
            .ok (records.set idx (applyUpdateMutation r parsed.record parsed.content now))
      else if parsed.action == "deprecate" then
        match records.findIdx? (fun r => r.recordId == parsed.recordId.getD "") with
        | none => .error 5
        | some idx =>
          match records[idx]? with
          | none => .error 5
          | some r =>
            .ok (records.set idx
              { r with status := "deprecated", replacedBy := parsed.replacedBy,
                       deprecationReason :=
                         parsed.deprecationReason.bind
                           (fun d => if d == "" then none else some d),
                       updatedAt := now })
      else if parsed.action == "delete" then
        match records.findIdx? (fun r => r.recordId == parsed.recordId.getD "") with
        | none => .error 5
        | some idx => .ok (records.eraseIdx idx)
      else .ok records
    match staged with
    | .error st => .error st
    | .ok rs => .ok (setFile fs (recordsPath ++ ".tmp") (.recs rs), recordsPath ++ ".tmp")

/-- `_categorize`. -/
def categorize (sourceRef : String) : String :=
  if startsWithStr sourceRef "00_user/" then "user"
  else if startsWithStr sourceRef "10_projects/" then "project"
  else if startsWithStr sourceRef "20_agents/" then "agent"
  else if startsWithStr sourceRef "30_topics/" then "topic"
  else if startsWithStr sourceRef "90_index/" then "index"
  else if startsWithStr sourceRef "99_policy/" then "policy"
  else "other"

/-- `_computeSummary`. -/
def computeSummary (files : List ManifestEntry) : ManifestSummary :=
  { totalFiles := files.length
    policy := (files.filter (fun f => f.category == "policy")).length
    user := (files.filter (fun f => f.category == "user")).length
    project := (files.filter (fun f => f.category == "project")).length
    agent := (files.filter (fun f => f.category == "agent")).length
    topic := (files.filter (fun f => f.category == "topic")).length
    index := (files.filter (fun f => f.category == "index")).length }

/-- The update branch of `_updateManifestTmp`: patch the first entry whose
path matches (hash/size from the staged document when present; updatedAt
always refreshed on the matched entry). -/
def updateManifestEntry (fs : Store) (s now : String) :
    List ManifestEntry → List ManifestEntry
  | [] => []
  | e :: rest =>
    if e.path == s then
      (let e1 := if existsF fs (s ++ ".tmp") then
          { e with hash := calculateHash fs (s ++ ".tmp"), size := fileSize fs (s ++ ".tmp") }
        else e
       { e1 with updatedAt := now }) :: rest
    else e :: updateManifestEntry fs s now rest

/-- Step 6 `_updateManifestTmp`. -/
def updateManifestTmp (fs : Store) (parsed : Intent) (now : String) : Store × String :=
  let m0 := (safeReadManifest fs manifestPath).getD { version := "1.0", files := [] }
  let files1 :=
    match truthyStrOpt parsed.sourceRef with
    | some s =>
      if parsed.action == "create" then
        let tmpP := s ++ ".tmp"
        let hash := if existsF fs tmpP then calculateHash fs tmpP
                    else sha256str (parsed.content.getD "")
        let size := if existsF fs tmpP then fileSize fs tmpP
                    else (parsed.content.getD "").length
        m0.files ++ [{ path := s, hash := hash, size := size,
                       updatedAt := now, category := categorize s }]
      else if parsed.action == "update" then
        updateManifestEntry fs s now m0.files
      else if parsed.action == "delete" then
        m0.files.filter (fun f => f.path != s)
      else m0.files
    | none => m0.files
  let m := { m0 with files := files1, updatedAt := now, summary := computeSummary files1 }
  (setFile fs (manifestPath ++ ".tmp") (.manifest m), manifestPath ++ ".tmp")

def digestHeader : String :=
  "# Brain records_digest.txt\n# Format: recordId | title | summary | tags | status\n# Auto-generated by brain-cli BWT. Do not edit manually.\n"

def digestContent (records : List Record) : String :=
  let lines := records.map generateDigestLine
  digestHeader ++ joinStr "\n" lines ++ (if lines.length > 0 then "\n" else "")

/-- Step 7 `_updateDigestTmp`: reproject the staged records. -/
def updateDigestTmp (fs : Store) : Except Nat (Store × String) :=
  match readJsonlE fs (recordsPath ++ ".tmp") with
  | .error _ => .error 7
  | .ok records =>
    .ok (setFile fs (digestPath ++ ".tmp") (.text (digestContent records)),
         digestPath ++ ".tmp")

def stripTmp (p : String) : String :=
  if endsWithStr p ".tmp" then String.mk (p.toList.take (p.toList.length - 4)) else p

/-- `fs.renameSync`: fails when the source is missing. -/
def renameF (fs : Store) (src dst : String) : Except Unit Store :=
  match lookupF fs src with
  | none => .error ()
  | some d => .ok (setFile (eraseFile fs src) dst d)

/-- Best-effort reversal of already-committed renames (the inner recovery
loop of `_commit`). -/
def unrename (fs : Store) : List (String × String) → Store
  | [] => fs
  | (tmp, orig) :: rest =>
    match renameF fs orig tmp with
    | .ok fs1 => unrename fs1 rest
    | .error _ => unrename fs rest

/-- The rename loop of `_commit`; on error the partially committed renames
are reversed and the state is handed to rollback. -/
def commitGo (fs : Store) (committed : List (String × String)) :
    List String → Except Store Store
  | [] => .ok fs
  | t :: rest =>
    match renameF fs t (stripTmp t) with
    | .ok fs1 => commitGo fs1 (committed ++ [(t, stripTmp t)]) rest
    | .error _ => .error (unrename fs committed.reverse)

/-- Step 9a `_commit`: rename every staged tmp, then unlink the backups. -/
def commitFn (fs : Store) (baks : List (String × String)) (tmps : List String) :
    Except Store Store :=
  match commitGo fs [] tmps with
  | .ok fs1 => .ok (baks.foldl (fun f pr => eraseFile f pr.2) fs1)
  | .error fsErr => .error fsErr

/-- The tmp-unlink phase of `_rollback`. -/
def unlinkTmps (fs : Store) (tmps : List String) : Store :=
  tmps.foldl (fun f t => eraseFile f t) fs

/-- One backup restore of `_rollback`: copy the backup over the original
(if the backup still exists) and unlink it. -/
def restoreBak (f : Store) (pr : String × String) : Store :=
  match lookupF f pr.2 with
  | some d => eraseFile (setFile f pr.1 d) pr.2
  | none => f

/-- Step 9b `_rollback`: unlink tracked tmps, then copy each backup over
its original and unlink it. -/
def rollbackFn (fs : Store) (baks : List (String × String)) (tmps : List String) : Store :=
  baks.foldl restoreBak (unlinkTmps fs tmps)

/-- bwt.js `BWTEngine.execute`: the nine-step transaction.  `today` is the
engine clock date (YYYYMMDD) and `now` the engine clock timestamp; every
raised error rolls back with the backups/tmps tracked so far. -/
def execute (fs : Store) (today now : String) (intent : Intent) : ExecResult × Store :=
  if checkResidualTmp fs then
    (⟨false, none, some 0⟩, rollbackFn fs [] [])
  else
    match parseIntentE fs today intent with
    | .error st => (⟨false, none, some st⟩, rollbackFn fs [] [])
    | .ok parsed =>
      let st1 := createBackups fs parsed
      let fs2 := ensureFoldersStep st1.1 parsed
      let st3 := writeDocumentTmp fs2 parsed
      match updateRecordsTmp st3.1 parsed now with
      | .error st => (⟨false, none, some st⟩, rollbackFn st3.1 st1.2 st3.2)
      | .ok (fs4, t2) =>
        let tmps2 := st3.2 ++ [t2]
        let st5 := updateManifestTmp fs4 parsed now
        let tmps3 := tmps2 ++ [st5.2]
        match updateDigestTmp st5.1 with
        | .error st => (⟨false, none, some st⟩, rollbackFn st5.1 st1.2 tmps3)
        | .ok (fs6, t4) =>
          let tmps4 := tmps3 ++ [t4]
          let v := validate fs6 true false
          if !v.passed then
            (⟨false, none, some 8⟩, rollbackFn fs6 st1.2 tmps4)
          else
            match commitFn fs6 st1.2 tmps4 with
            | .ok fs7 => (⟨true, parsed.recordId, none⟩, fs7)
            | .error fsErr => (⟨false, none, some 9⟩, rollbackFn fsErr st1.2 tmps4)

/-! ### Derived definitions used to state the claims -/

/-- The scope- and active-filter stages of `search` (steps 2-b/2-c), named
so the returned total can be stated. -/
def scopeActiveFiltered (digestLines : List DigestEntry) (scopeType scopeId : String) :
    List DigestEntry :=
  let f1 :=
    if truthy scopeType then
      let ab := scopeAbbrevS scopeType
      let f := digestLines.filter (fun d => containsStr d.recordId ("_" ++ ab ++ "_"))
      if truthy scopeId then
        f.filter (fun d => containsStr d.recordId ("_" ++ scopeId ++ "_"))
      else f
    else digestLines
  f1.filter (fun d => d.status == "active")

/-- Number of goal tokens (whitespace-split, length ≤ 1 dropped) occurring
in `field` as substrings. -/
def tokCount (field goal : String) : Nat :=
  ((splitWs goal).filter (fun t => t.length > 1)).countP (fun t => containsStr field t)

/-- The relevance score exactly as claim C8 words it, with the tags
COMMA-joined; written from the spec for refutation against the source's
space-join. -/
def claimScoreC8 (d : DigestEntry) (goal : String) : Nat :=
  if goal == "" then 0
  else
    3 * tokCount (toLowerStr d.title) goal + 2 * tokCount (toLowerStr d.summary) goal +
      tokCount (toLowerStr (joinStr "," d.tags)) goal

/-- The digest projection of a record named by claim C5. -/
def projDigest (r : Record) : DigestEntry :=
  { recordId := r.recordId, title := r.title, summary := r.summary,
    tags := r.tags, status := r.status }

def noPipe (s : String) : Bool := !s.toList.contains '|'

def noNl (s : String) : Bool := !s.toList.contains '\n'

def trimStable (s : String) : Bool := trimStr s == s

/-- Fields that survive the digest line format: no `|` or newline anywhere,
trim-stable scalar fields, a nonempty recordId not opening a comment line,
and comma-free nonempty trim-stable tags. -/
def digestSafe (r : Record) : Bool :=
  noPipe r.recordId && (noPipe r.title && (noPipe r.summary && (noPipe r.status &&
  (noNl r.recordId && (noNl r.title && (noNl r.summary && (noNl r.status &&
  (trimStable r.recordId && (trimStable r.title && (trimStable r.summary &&
  (trimStable r.status && (trimStable (joinStr "," r.tags) &&
  ((r.recordId != "") && ((r.status != "") && ((!startsWithStr r.recordId "#") &&
  r.tags.all (fun t =>
    (!t.toList.contains ',') && (noPipe t && (noNl t && t != ""))))))))))))))))))

/-- The three header lines of the digest file. -/
def headerLines : List String :=
  ["# Brain records_digest.txt",
   "# Format: recordId | title | summary | tags | status",
   "# Auto-generated by brain-cli BWT. Do not edit manually."]

/-- Backup paths of the three index artifacts: the only committed-path
collisions a failing transaction can destroy. -/
def artifactBakPaths : List String :=
  [recordsPath ++ ".bak", manifestPath ++ ".bak", digestPath ++ ".bak"]

/-! ### Concrete test fixtures (used by counterexamples and witnesses) -/

def rec1 : Record :=
  { recordId := "rec_topic_a_20260101_0001", scopeType := "topic", scopeId := "a",
    type := "note", title := "T", summary := "S", tags := ["domain/memory"],
    sourceType := "candidate", sourceRef := "30_topics/a/doc.md", status := "active",
    replacedBy := none, deprecationReason := none,
    updatedAt := "2026-01-01T00:00:00.000Z", contentHash := sha256str "D" }

def man0 : Manifest :=
  { version := "1.0", updatedAt := "t0",
    summary := computeSummary [⟨"30_topics/a/doc.md", sha256str "D", 1, "t0", "topic"⟩],
    files := [⟨"30_topics/a/doc.md", sha256str "D", 1, "t0", "topic"⟩] }

/-- A consistent committed store with one record and its document. -/
def store0 : Store :=
  { files := [("99_policy/brainPolicy.md", .text "p"),
              (recordsPath, .recs [rec1]),
              (manifestPath, .manifest man0),
              (digestPath, .text (digestContent [rec1])),
              (tagsPath, .tagsJson ["domain", "intent"]),
              ("90_index/folderRegistry.json", .text "fr"),
              ("30_topics/a/doc.md", .text "D")],
    dirs := ["00_user", "10_projects", "20_agents", "30_topics", "30_topics/a",
             "90_index", "99_policy"] }

/-- `store0` without tags.json (so step 8 fails) and with a document living
at the backup path of records.jsonl. -/
def store1 : Store :=
  { files := [("99_policy/brainPolicy.md", .text "p"),
              (recordsPath, .recs [rec1]),
              (manifestPath, .manifest man0),
              (digestPath, .text (digestContent [rec1])),
              ("90_index/folderRegistry.json", .text "fr"),
              ("30_topics/a/doc.md", .text "D"),
              ("90_index/records.jsonl.bak", .text "DOC")],
    dirs := ["30_topics", "30_topics/a", "90_index", "99_policy"] }

def deleteIntent : Intent :=
  { action := "delete", recordId := some "rec_topic_a_20260101_0001" }

def updBadIntent : Intent :=
  { action := "update", recordId := some "rec_topic_nonexistent_20260101_9999",
    content := some "x" }

def updNoSrcIntent : Intent :=
  { action := "update", recordId := some "rec_topic_a_20260101_0001",
    content := some "NEW" }

def updGoodIntent : Intent :=
  { action := "update", recordId := some "rec_topic_a_20260101_0001",
    sourceRef := some "30_topics/a/doc.md", content := some "NEW2" }

def createC1Intent : Intent :=
  { action := "create", sourceRef := some "90_index/records.jsonl.bak",
    content := some "x",
    record := some { scopeType := some "topic", scopeId := some "c", type := some "note",
                     title := some "T3", summary := some "S3", tags := some [],
                     sourceType := some "candidate" } }

def createC4Intent : Intent :=
  { action := "create", sourceRef := some "10_projects/p/x.md", content := some "c",
    record := some { scopeType := some "project", scopeId := some "p", type := some "note",
                     title := some "T4", summary := some "S4", tags := some ["domain/x"],
                     sourceType := some "candidate" } }

def createC5Intent : Intent :=
  { action := "create", sourceRef := some "30_topics/b/n.md", content := some "C",
    record := some { scopeType := some "topic", scopeId := some "b", type := some "note",
                     title := some "X | Y", summary := some "S5",
                     tags := some ["domain/memory"], sourceType := some "candidate" } }

def createC5wIntent : Intent :=
  { action := "create", sourceRef := some "30_topics/b/n.md", content := some "C",
    record := some { scopeType := some "topic", scopeId := some "b", type := some "note",
                     title := some "Clean title", summary := some "S5",
                     tags := some ["domain/memory"], sourceType := some "candidate" } }

def recC6 : Record :=
  { recordId := "rec_topic_a_20260101_0002", scopeType := "topic", scopeId := "a",
    type := "note", title := "T6", summary := "S6", tags := ["color/blue"],
    sourceType := "candidate", sourceRef := "", status := "active",
    replacedBy := none, deprecationReason := none,
    updatedAt := "2026-01-01T00:00:00.000Z", contentHash := "sha256:deadbeef" }

/-- A valid committed store whose single record carries a foreign-axis tag. -/
def storeC6 : Store :=
  { files := [("99_policy/brainPolicy.md", .text "p"),
              (recordsPath, .recs [recC6]),
              (manifestPath, .manifest { version := "1.0", updatedAt := "t0",
                                         summary := computeSummary [], files := [] }),
              (digestPath, .text (digestContent [recC6])),
              (tagsPath, .tagsJson ["domain", "intent"]),
              ("90_index/folderRegistry.json", .text "fr")],
    dirs := ["90_index", "99_policy"] }

def recC7 : Record :=
  { recordId := "rec_topic_a_20260101_0003", scopeType := "topic", scopeId := "a",
    type := "note", title := "", summary := "", tags := [],
    sourceType := "candidate", sourceRef := "", status := "active",
    replacedBy := none, deprecationReason := none,
    updatedAt := "2026-01-01T00:00:00.000Z", contentHash := "" }

def optC7 : DeleteGateOptions :=
  { userConfirmed := false, currentSessionStart := "2026-02-02T00:00:00.000Z" }

def recC7w : Record :=
  { recC7 with status := "deprecated", replacedBy := some "obsolete" }

def optC7w : DeleteGateOptions :=
  { userConfirmed := true, currentSessionStart := "2026-02-02T00:00:00.000Z" }

def entC8 : DigestEntry :=
  { recordId := "rec_topic_a_20260101_0001", title := "t", summary := "s",
    tags := ["xa", "by"], status := "active" }

/-! ### Generic lemmas -/

theorem foldl_weight_count (p : String → Bool) (w : Nat) (l : List String) (a : Nat) :
    l.foldl (fun sc t => if p t then sc + w else sc) a = a + w * l.countP p := by
  induction l generalizing a with
  | nil => simp
  | cons x xs ih =>
    simp only [List.foldl_cons, List.countP_cons]
    by_cases h : p x
    · simp only [h, if_true, ih]
      ring
    · simp only [h, if_false, ih, Bool.false_eq_true]
      ring

theorem addDir_contains (fs : Store) (d : String) :
    (addDir fs d).dirs.contains d = true := by
  unfold addDir
  split
  next h => exact h
  next h => simp

theorem addDir_files (fs : Store) (d : String) :
    (addDir fs d).files = fs.files := by
  unfold addDir
  split <;> rfl

theorem mk_toList (s : String) : String.mk s.toList = s := rfl

theorem toList_append (a b : String) : (a ++ b).toList = a.toList ++ b.toList := rfl

/-! ### Split/join round-trip lemmas (for claim C5) -/

theorem splitGoF_fuel_irrel (s0 : Char) (srest : List Char) :
    ∀ (fuel₁ : Nat) (l cur : List Char) (fuel₂ : Nat),
      l.length ≤ fuel₁ → l.length ≤ fuel₂ →
      splitGoF s0 srest fuel₁ l cur = splitGoF s0 srest fuel₂ l cur := by
  intro fuel₁
  induction fuel₁ with
  | zero =>
    intro l cur fuel₂ h1 _
    have hl : l = [] := List.eq_nil_of_length_eq_zero (Nat.le_zero.mp h1)
    subst hl
    cases fuel₂ <;> rfl
  | succ f ih =>
    intro l cur fuel₂ h1 h2
    cases l with
    | nil => cases fuel₂ <;> rfl
    | cons c rest =>
      cases fuel₂ with
      | zero => simp at h2
      | succ g =>
        simp only [splitGoF]
        by_cases hp : (s0 :: srest).isPrefixOf (c :: rest) = true
        · simp only [hp, if_true]
          have hlen : (rest.drop srest.length).length ≤ f := by
            have := List.length_drop srest.length rest
            simp only [List.length_cons] at h1
            omega
          have hlen2 : (rest.drop srest.length).length ≤ g := by
            have := List.length_drop srest.length rest
            simp only [List.length_cons] at h2
            omega
          rw [ih (rest.drop srest.length) [] g hlen hlen2]
        · simp only [hp, if_false]
          have hlen : rest.length ≤ f := by
            simp only [List.length_cons] at h1
            omega
          have hlen2 : rest.length ≤ g := by
            simp only [List.length_cons] at h2
            omega
          exact ih rest (c :: cur) g hlen hlen2

/-- Scanning a block that contains no separator occurrence just moves it
into the accumulator. -/
theorem splitGoF_scan (s0 : Char) (srest : List Char) :
    ∀ (x tailL cur : List Char) (fuel : Nat),
      (∀ x1 x2, x = x1 ++ x2 → x2 ≠ [] → ¬ (s0 :: srest).isPrefixOf (x2 ++ tailL) = true) →
      (x ++ tailL).length ≤ fuel →
      splitGoF s0 srest fuel (x ++ tailL) cur =
        splitGoF s0 srest (fuel - x.length) tailL (x.reverse ++ cur) := by
  intro x
  induction x with
  | nil =>
    intro tailL cur fuel _ _
    simp
  | cons a x' ih =>
    intro tailL cur fuel hnm hf
    cases fuel with
    | zero => simp at hf
    | succ f =>
      have hp : ¬ (s0 :: srest).isPrefixOf (a :: (x' ++ tailL)) = true := by
        have := hnm [] (a :: x') rfl (by simp)
        simpa using this
      simp only [List.cons_append, splitGoF, List.append_eq, hp, if_false]
      have hnm' : ∀ x1 x2, x' = x1 ++ x2 → x2 ≠ [] →
          ¬ (s0 :: srest).isPrefixOf (x2 ++ tailL) = true := by
        intro x1 x2 hx hx2
        exact hnm (a :: x1) x2 (by simp [hx]) hx2
      have hf' : (x' ++ tailL).length ≤ f := by
        simp only [List.cons_append, List.length_cons] at hf
        simpa using Nat.le_of_succ_le_succ hf
      rw [ih tailL (a :: cur) f hnm' hf']
      have h1 : f + 1 - (a :: x').length = f - x'.length := by
        simp only [List.length_cons]
        omega
      have h2 : (a :: x').reverse ++ cur = x'.reverse ++ (a :: cur) := by simp
      rw [h1, h2]
      simp

/-- Hitting the separator emits the accumulated part. -/
theorem splitGoF_emit (s0 : Char) (srest tailL cur : List Char) (fuel : Nat)
    (hf : ((s0 :: srest) ++ tailL).length ≤ fuel) :
    splitGoF s0 srest fuel ((s0 :: srest) ++ tailL) cur =
      cur.reverse :: splitGoF s0 srest tailL.length tailL [] := by
  cases fuel with
  | zero => simp at hf
  | succ f =>
    have hp : (s0 :: srest).isPrefixOf (s0 :: (srest ++ tailL)) = true := by
      rw [List.isPrefixOf_iff_prefix]
      exact ⟨tailL, by simp⟩
    simp only [List.cons_append, splitGoF, List.append_eq, hp, if_true]
    congr 1
    rw [List.drop_left]
    apply splitGoF_fuel_irrel
    · simp only [List.cons_append, List.length_cons, List.length_append] at hf
      omega
    · exact le_rfl

/-- A final block with no separator occurrence is returned whole. -/
theorem splitGoF_last (s0 : Char) (srest : List Char) (x cur : List Char) (fuel : Nat)
    (hnm : ∀ x1 x2, x = x1 ++ x2 → x2 ≠ [] → ¬ (s0 :: srest).isPrefixOf x2 = true)
    (hf : x.length ≤ fuel) :
    splitGoF s0 srest fuel x cur = [cur.reverse ++ x] := by
  have := splitGoF_scan s0 srest x [] cur fuel
    (by
      intro x1 x2 hx hx2
      simpa using hnm x1 x2 hx hx2)
    (by simpa using hf)
  rw [List.append_nil] at this
  rw [this]
  cases fuel - x.length <;> simp [splitGoF]

/-- No-occurrence condition for a single-character separator. -/
theorem nomatch_single (c : Char) (x tailL : List Char) (h : c ∉ x) :
    ∀ x1 x2, x = x1 ++ x2 → x2 ≠ [] → ¬ [c].isPrefixOf (x2 ++ tailL) = true := by
  intro x1 x2 hx hx2 hp
  cases x2 with
  | nil => exact hx2 rfl
  | cons a rest =>
    rw [List.isPrefixOf_iff_prefix] at hp
    have ha : a = c := by
      rcases hp with ⟨t, ht⟩
      simp only [List.cons_append, List.singleton_append, List.cons.injEq] at ht
      exact ht.1.symm
    apply h
    rw [hx, ha]
    simp

/-- No-occurrence condition for the `" | "` separator: the block is
pipe-free and the continuation is empty or starts with a space. -/
theorem nomatch_pipe (x tailL : List Char) (h : '|' ∉ x)
    (ht : tailL = [] ∨ ∃ t', tailL = ' ' :: t') :
    ∀ x1 x2, x = x1 ++ x2 → x2 ≠ [] →
      ¬ [' ', '|', ' '].isPrefixOf (x2 ++ tailL) = true := by
  intro x1 x2 hx hx2 hp
  rw [List.isPrefixOf_iff_prefix] at hp
  rcases hp with ⟨t, htt⟩
  cases x2 with
  | nil => exact hx2 rfl
  | cons a rest =>
    cases rest with
    | nil =>
      rcases ht with h0 | ⟨t', h1⟩
      · subst h0
        have := congrArg List.length htt
        simp at this
      · subst h1
        simp only [List.cons_append, List.nil_append, List.cons.injEq] at htt
        exact absurd htt.2.1 (by decide)
    | cons b rest' =>
      simp only [List.cons_append, List.cons.injEq] at htt
      apply h
      rw [hx, htt.2.1]
      simp

theorem split_join_single (c : Char) :
    ∀ (parts : List (List Char)), parts ≠ [] → (∀ p ∈ parts, c ∉ p) →
      splitGoF c [] (intercalateL [c] parts).length (intercalateL [c] parts) [] = parts := by
  intro parts
  induction parts with
  | nil => intro h; exact absurd rfl h
  | cons x rest ih =>
    intro _ hmem
    cases rest with
    | nil =>
      simp only [intercalateL]
      rw [splitGoF_last c [] x [] x.length
        (by
          have hx : c ∉ x := hmem x (by simp)
          intro x1 x2 hxx hx2 hp
          have := nomatch_single c x [] hx x1 x2 hxx hx2
          simp only [List.append_nil] at this
          exact this hp)
        le_rfl]
      simp
    | cons y rest' =>
      simp only [intercalateL]
      have hx : c ∉ x := hmem x (by simp)
      rw [List.append_assoc]
      have hscan := splitGoF_scan c [] x ([c] ++ intercalateL [c] (y :: rest'))
        [] (x ++ ([c] ++ intercalateL [c] (y :: rest'))).length
        (nomatch_single c x ([c] ++ intercalateL [c] (y :: rest')) hx)
        le_rfl
      rw [hscan]
      have hemit := splitGoF_emit c [] (intercalateL [c] (y :: rest')) (x.reverse ++ [])
        ((x ++ ([c] ++ intercalateL [c] (y :: rest'))).length - x.length)
        (by
          simp only [List.length_append, List.singleton_append, List.length_cons]
          omega)
      rw [hemit]
      simp only [List.append_nil, List.reverse_reverse]
      congr 1
      exact ih (by simp) (fun p hp => hmem p (by simp [hp]))

theorem split_join_pipe :
    ∀ (parts : List (List Char)), parts ≠ [] → (∀ p ∈ parts, '|' ∉ p) →
      splitGoF ' ' ['|', ' '] (intercalateL [' ', '|', ' '] parts).length
        (intercalateL [' ', '|', ' '] parts) [] = parts := by
  intro parts
  induction parts with
  | nil => intro h; exact absurd rfl h
  | cons x rest ih =>
    intro _ hmem
    cases rest with
    | nil =>
      simp only [intercalateL]
      rw [splitGoF_last ' ' ['|', ' '] x [] x.length
        (by
          have hx : '|' ∉ x := hmem x (by simp)
          intro x1 x2 hxx hx2 hp
          have := nomatch_pipe x [] hx (Or.inl rfl) x1 x2 hxx hx2
          simp only [List.append_nil] at this
          exact this hp)
        le_rfl]
      simp
    | cons y rest' =>
      simp only [intercalateL]
      have hx : '|' ∉ x := hmem x (by simp)
      rw [List.append_assoc]
      have hscan := splitGoF_scan ' ' ['|', ' '] x
        ([' ', '|', ' '] ++ intercalateL [' ', '|', ' '] (y :: rest'))
        [] (x ++ ([' ', '|', ' '] ++ intercalateL [' ', '|', ' '] (y :: rest'))).length
        (nomatch_pipe x ([' ', '|', ' '] ++ intercalateL [' ', '|', ' '] (y :: rest')) hx
          (Or.inr ⟨'|' :: ' ' :: intercalateL [' ', '|', ' '] (y :: rest'), rfl⟩))
        le_rfl
      rw [hscan]
      have hemit := splitGoF_emit ' ' ['|', ' ']
        (intercalateL [' ', '|', ' '] (y :: rest')) (x.reverse ++ [])
        ((x ++ ([' ', '|', ' '] ++ intercalateL [' ', '|', ' '] (y :: rest'))).length - x.length)
        (by
          simp only [List.length_append, List.length_cons]
          omega)
      rw [hemit]
      simp only [List.append_nil, List.reverse_reverse]
      congr 1
      exact ih (by simp) (fun p hp => hmem p (by simp [hp]))

/-! ### Trim lemmas (for claim C5) -/

theorem trimStr_mk (l : List Char) :
    trimStr (String.mk l) = String.mk (((l.dropWhile isWs).reverse.dropWhile isWs).reverse) :=
  rfl

theorem trimL_length_le (l : List Char) :
    (((l.dropWhile isWs).reverse.dropWhile isWs).reverse).length ≤ l.length := by
  calc (((l.dropWhile isWs).reverse.dropWhile isWs).reverse).length
      = ((l.dropWhile isWs).reverse.dropWhile isWs).length := List.length_reverse _
    _ ≤ (l.dropWhile isWs).reverse.length := (List.dropWhile_suffix isWs).length_le
    _ = (l.dropWhile isWs).length := List.length_reverse _
    _ ≤ l.length := (List.dropWhile_suffix isWs).length_le

/-- A trim-stable nonempty string starts with a non-whitespace character. -/
theorem trimStable_head (s : String) (h : trimStable s = true) (a : Char) (rest : List Char)
    (hs : s.toList = a :: rest) : isWs a = false := by
  by_contra hws
  have hws' : isWs a = true := by
    cases hA : isWs a
    · exact absurd hA hws
    · rfl
  have heq : trimStr s = s := by
    simpa [trimStable] using h
  have heqL : (((s.toList.dropWhile isWs).reverse.dropWhile isWs).reverse) = s.toList := by
    have := congrArg String.toList heq
    rw [show trimStr s = String.mk (((s.toList.dropWhile isWs).reverse.dropWhile isWs).reverse) from rfl] at this
    simpa using this
  have hdrop : s.toList.dropWhile isWs = rest.dropWhile isWs := by
    rw [hs, List.dropWhile_cons, hws']
    simp
  have hlen := congrArg List.length heqL
  have h1 : (((s.toList.dropWhile isWs).reverse.dropWhile isWs).reverse).length ≤
      rest.length := by
    rw [hdrop]
    calc (((rest.dropWhile isWs).reverse.dropWhile isWs).reverse).length
        ≤ (rest.dropWhile isWs).length := by
          have := trimL_length_le (rest.dropWhile isWs)
          calc (((rest.dropWhile isWs).reverse.dropWhile isWs).reverse).length
              = ((rest.dropWhile isWs).reverse.dropWhile isWs).length :=
                List.length_reverse _
            _ ≤ (rest.dropWhile isWs).reverse.length :=
                (List.dropWhile_suffix isWs).length_le
            _ = (rest.dropWhile isWs).length := List.length_reverse _
      _ ≤ rest.length := (List.dropWhile_suffix isWs).length_le
  rw [hlen, hs] at h1
  simp only [List.length_cons] at h1
  omega

/-- A trim-stable string ends with a non-whitespace character. -/
theorem trimStable_last (s : String) (h : trimStable s = true) (init : List Char) (d : Char)
    (hs : s.toList = init ++ [d]) : isWs d = false := by
  by_contra hws
  have hws' : isWs d = true := by
    cases hA : isWs d
    · exact absurd hA hws
    · rfl
  have heq : trimStr s = s := by
    simpa [trimStable] using h
  have heqL : (((s.toList.dropWhile isWs).reverse.dropWhile isWs).reverse) = s.toList := by
    have := congrArg String.toList heq
    rw [show trimStr s = String.mk (((s.toList.dropWhile isWs).reverse.dropWhile isWs).reverse) from rfl] at this
    simpa using this
  have hlen := congrArg List.length heqL
  set D := s.toList.dropWhile isWs with hD
  rcases hDnil : D with _ | ⟨c, Dr⟩
  · rw [hDnil] at hlen
    simp only [List.dropWhile_nil, List.reverse_nil, List.length_nil] at hlen
    rw [hs] at hlen
    simp at hlen
  · have hDsuffix : D <:+ s.toList := List.dropWhile_suffix isWs
    have hDne : D ≠ [] := by rw [hDnil]; simp
    have hDlast? : D.getLast? = some d := by
      rcases hDsuffix with ⟨pre, hpre⟩
      have h2 : pre ++ D = init ++ [d] := by rw [hpre, hs]
      have h3 : (pre ++ D).getLast? = D.getLast? :=
        List.getLast?_append_of_ne_nil pre hDne
      rw [h2] at h3
      rw [← h3]
      exact List.getLast?_concat init
    have hsplit : D.dropLast ++ [d] = D :=
      List.dropLast_append_getLast? d hDlast?
    have hrev : D.reverse = d :: D.dropLast.reverse := by
      conv_lhs => rw [← hsplit]
      simp
    have hshort : ((D.reverse.dropWhile isWs).reverse).length ≤ D.dropLast.length := by
      rw [hrev, List.dropWhile_cons, hws']
      simp only [if_true]
      calc ((D.dropLast.reverse.dropWhile isWs).reverse).length
          = (D.dropLast.reverse.dropWhile isWs).length := List.length_reverse _
        _ ≤ D.dropLast.reverse.length := (List.dropWhile_suffix isWs).length_le
        _ = D.dropLast.length := List.length_reverse _
    have hDlen : D.length ≤ s.toList.length := hDsuffix.length_le
    have hdl : D.dropLast.length = D.length - 1 := List.length_dropLast D
    have hslen : s.toList.length = init.length + 1 := by
      rw [hs]
      simp
    have hDpos : 0 < D.length := by rw [hDnil]; simp
    omega

/-- Trimming fixes a list whose first and last characters are
non-whitespace. -/
theorem trimL_protected (a b : Char) (mid : List Char)
    (ha : isWs a = false) (hb : isWs b = false) :
    ((((a :: (mid ++ [b])).dropWhile isWs).reverse.dropWhile isWs).reverse) =
      a :: (mid ++ [b]) := by
  rw [List.dropWhile_cons, ha]
  simp only [Bool.false_eq_true, if_false]
  have hrev : (a :: (mid ++ [b])).reverse = b :: (mid.reverse ++ [a]) := by
    simp
  rw [hrev, List.dropWhile_cons, hb]
  simp

theorem trimStr_eq_self_protected (s : String) (a b : Char) (mid : List Char)
    (hs : s.toList = a :: (mid ++ [b])) (ha : isWs a = false) (hb : isWs b = false) :
    trimStr s = s := by
  have : trimStr s = String.mk (((s.toList.dropWhile isWs).reverse.dropWhile isWs).reverse) :=
    rfl
  rw [this, hs, trimL_protected a b mid ha hb, ← hs, mk_toList]

theorem notMem_intercalateL (c : Char) (sep : List Char) (hc : c ∉ sep) :
    ∀ (parts : List (List Char)), (∀ p ∈ parts, c ∉ p) →
      c ∉ intercalateL sep parts := by
  intro parts
  induction parts with
  | nil =>
    intro _
    simp [intercalateL]
  | cons x rest ih =>
    intro h
    cases rest with
    | nil =>
      simpa [intercalateL] using h x (by simp)
    | cons y rest' =>
      simp only [intercalateL, List.mem_append, not_or]
      refine ⟨⟨h x (by simp), hc⟩, ?_⟩
      exact ih (fun p hp => h p (by simp [hp]))

/-! ### Digest line and content lemmas (for claim C5) -/

theorem toList_inj {a b : String} (h : a.toList = b.toList) : a = b := by
  have := congrArg String.mk h
  rwa [mk_toList, mk_toList] at this

theorem joinStr_toList (sep : String) (parts : List String) :
    (joinStr sep parts).toList = intercalateL sep.toList (parts.map String.toList) := rfl

theorem generateDigestLine_toList (r : Record) :
    (generateDigestLine r).toList =
      intercalateL [' ', '|', ' ']
        [r.recordId.toList, r.title.toList, r.summary.toList,
         (joinStr "," r.tags).toList, r.status.toList] := by
  have hsep : (" | " : String).toList = [' ', '|', ' '] := rfl
  simp only [generateDigestLine, toList_append, intercalateL, hsep, List.append_assoc]

theorem noPipe_not_mem {s : String} (h : noPipe s = true) : '|' ∉ s.toList := by
  simpa [noPipe] using h

theorem noNl_not_mem {s : String} (h : noNl s = true) : '\n' ∉ s.toList := by
  simpa [noNl] using h

theorem trimStable_eq {s : String} (h : trimStable s = true) : trimStr s = s := by
  simpa [trimStable] using h

theorem neStr_toList {s : String} (h : (s != "") = true) : s.toList ≠ [] := by
  intro hl
  have : s = "" := by
    have := congrArg String.mk hl
    rwa [mk_toList] at this
  simp [this] at h

/-- The split of a digest-safe record's line gives back its five fields. -/
theorem splitOnStr_digestLine (r : Record) (h : digestSafe r = true) :
    splitOnStr " | " (generateDigestLine r) =
      [r.recordId, r.title, r.summary, joinStr "," r.tags, r.status] := by
  simp only [digestSafe, Bool.and_eq_true] at h
  obtain ⟨hP1, hP2, hP3, hP4, hN1, hN2, hN3, hN4, hT1, hT2, hT3, hT4, hTJ,
    hE1, hE2, hHash, hTags⟩ := h
  have hTagsPipe : '|' ∉ (joinStr "," r.tags).toList := by
    rw [joinStr_toList]
    apply notMem_intercalateL '|' _ (by decide)
    intro p hp
    rcases List.mem_map.mp hp with ⟨t, ht, rfl⟩
    have := hTags
    rw [List.all_eq_true] at this
    have h4 := this t ht
    simp only [Bool.and_eq_true] at h4
    exact noPipe_not_mem h4.2.1
  have hstep : splitOnStr " | " (generateDigestLine r) =
      (splitGoF ' ' ['|', ' '] (generateDigestLine r).toList.length
        (generateDigestLine r).toList []).map String.mk := rfl
  rw [hstep, generateDigestLine_toList]
  rw [split_join_pipe
    [r.recordId.toList, r.title.toList, r.summary.toList,
     (joinStr "," r.tags).toList, r.status.toList] (by simp) ?_]
  · simp [mk_toList]
  · intro p hp
    simp only [List.mem_cons, List.not_mem_nil, or_false] at hp
    rcases hp with rfl | rfl | rfl | rfl | rfl
    · exact noPipe_not_mem hP1
    · exact noPipe_not_mem hP2
    · exact noPipe_not_mem hP3
    · exact hTagsPipe
    · exact noPipe_not_mem hP4

/-- The parsed tags field of a digest-safe record round-trips. -/
theorem tagsField_roundtrip (r : Record) (h : digestSafe r = true) :
    (if trimStr (joinStr "," r.tags) != "" then
      splitOnStr "," (trimStr (joinStr "," r.tags)) else []) = r.tags := by
  simp only [digestSafe, Bool.and_eq_true] at h
  obtain ⟨hP1, hP2, hP3, hP4, hN1, hN2, hN3, hN4, hT1, hT2, hT3, hT4, hTJ,
    hE1, hE2, hHash, hTags⟩ := h
  rw [trimStable_eq hTJ]
  cases hts : r.tags with
  | nil => decide
  | cons t ts =>
    rw [List.all_eq_true] at hTags
    have htmem : t ∈ r.tags := by rw [hts]; simp
    have htne : t.toList ≠ [] := by
      have h4 := hTags t htmem
      simp only [Bool.and_eq_true] at h4
      exact neStr_toList h4.2.2.2
    have hne : (joinStr "," (t :: ts) != "") = true := by
      simp only [bne_iff_ne, ne_eq]
      intro he
      have := congrArg String.toList he
      rw [joinStr_toList] at this
      cases ts with
      | nil =>
        simp only [List.map_cons, List.map_nil, intercalateL] at this
        exact htne (by simpa using this)
      | cons t2 ts2 =>
        simp only [List.map_cons, intercalateL] at this
        cases ht2 : t.toList with
        | nil => exact htne ht2
        | cons a rest =>
          rw [ht2] at this
          simp at this
    rw [hne, if_pos rfl]
    have hstep : splitOnStr "," (joinStr "," (t :: ts)) =
      (splitGoF ',' [] (joinStr "," (t :: ts)).toList.length
        (joinStr "," (t :: ts)).toList []).map String.mk := rfl
    rw [hstep, joinStr_toList]
    have hsep : ("," : String).toList = [','] := rfl
    rw [hsep]
    rw [split_join_single ',' ((t :: ts).map String.toList) (by simp) ?_]
    · rw [List.map_map]
      have : (t :: ts).map (String.mk ∘ String.toList) = (t :: ts).map id := by
        apply List.map_congr_left
        intro p _
        exact mk_toList p
      rw [this, List.map_id]
    · intro p hp
      rcases List.mem_map.mp hp with ⟨q, hq, rfl⟩
      have h4 := hTags q (by rw [hts]; exact hq)
      simp only [Bool.and_eq_true] at h4
      have hcf := h4.1
      intro hmem
      have : q.toList.contains ',' = true := List.elem_iff.mpr hmem
      rw [this] at hcf
      exact absurd hcf (by simp)

/-- One data line of a digest-safe record appends exactly its projection. -/
theorem digestLineStep_data (r : Record) (h : digestSafe r = true)
    (acc : List DigestEntry) :
    digestLineStep acc (generateDigestLine r) = acc ++ [projDigest r] := by
  have h' := h
  simp only [digestSafe, Bool.and_eq_true] at h'
  obtain ⟨hP1, hP2, hP3, hP4, hN1, hN2, hN3, hN4, hT1, hT2, hT3, hT4, hTJ,
    hE1, hE2, hHash, hTags⟩ := h'
  have hidne : r.recordId.toList ≠ [] := neStr_toList hE1
  have hstne : r.status.toList ≠ [] := neStr_toList hE2
  obtain ⟨a, idRest, hid⟩ : ∃ a rest, r.recordId.toList = a :: rest := by
    cases hl : r.recordId.toList with
    | nil => exact absurd hl hidne
    | cons a rest => exact ⟨a, rest, rfl⟩
  have hst : r.status.toList = r.status.toList.dropLast ++
      [r.status.toList.getLast hstne] :=
    (List.dropLast_append_getLast hstne).symm
  have ha : isWs a = false := trimStable_head r.recordId hT1 a idRest hid
  have hd : isWs (r.status.toList.getLast hstne) = false :=
    trimStable_last r.status hT4 r.status.toList.dropLast _ hst
  have hline : (generateDigestLine r).toList =
      a :: ((idRest ++ ([' ', '|', ' '] ++ (r.title.toList ++ ([' ', '|', ' '] ++
        (r.summary.toList ++ ([' ', '|', ' '] ++ ((joinStr "," r.tags).toList ++
        ([' ', '|', ' '] ++ r.status.toList.dropLast)))))))) ++
        [r.status.toList.getLast hstne]) := by
    rw [generateDigestLine_toList]
    simp only [intercalateL]
    rw [hid]
    conv_lhs => rw [hst]
    simp [List.append_assoc]
  have htr : trimStr (generateDigestLine r) = generateDigestLine r :=
    trimStr_eq_self_protected _ a (r.status.toList.getLast hstne) _ hline ha hd
  have hlne : (trimStr (generateDigestLine r) == "") = false := by
    rw [htr]
    simp only [beq_eq_false_iff_ne, ne_eq]
    intro he
    have := congrArg String.toList he
    rw [hline] at this
    simp at this
  have hanum : ('#' == a) = false := by
    have : startsWithStr r.recordId "#" = false := by
      simpa using hHash
    rw [startsWithStr, hid] at this
    have hsep : ("#" : String).toList = ['#'] := rfl
    rw [hsep] at this
    simpa [List.isPrefixOf] using this
  have hsw : startsWithStr (trimStr (generateDigestLine r)) "#" = false := by
    rw [htr, startsWithStr, hline]
    have hsep : ("#" : String).toList = ['#'] := rfl
    rw [hsep]
    simp [List.isPrefixOf, hanum]
  unfold digestLineStep
  rw [hlne, hsw]
  simp only [Bool.or_self, Bool.false_eq_true, if_false]
  rw [splitOnStr_digestLine r h]
  simp only []
  rw [trimStable_eq hT1, trimStable_eq hT2, trimStable_eq hT3, trimStable_eq hT4,
    tagsField_roundtrip r h]
  rfl

theorem intercalateL_append (sep : List Char) (A B : List (List Char))
    (hA : A ≠ []) (hB : B ≠ []) :
    intercalateL sep (A ++ B) = intercalateL sep A ++ sep ++ intercalateL sep B := by
  induction A with
  | nil => exact absurd rfl hA
  | cons x A' ih =>
    cases A' with
    | nil =>
      cases B with
      | nil => exact absurd rfl hB
      | cons y B' => simp [intercalateL]
    | cons z A'' =>
      simp only [List.cons_append, intercalateL, List.append_eq]
      rw [← List.cons_append z A'' B, ih (by simp)]
      simp [List.append_assoc]

theorem digestContent_eq (records : List Record) :
    digestContent records =
      joinStr "\n" (headerLines ++ records.map generateDigestLine ++ [""]) := by
  cases hrec : records.map generateDigestLine with
  | nil =>
    unfold digestContent
    rw [hrec]
    decide
  | cons l ls =>
    unfold digestContent
    rw [hrec]
    apply toList_inj
    simp only [toList_append, joinStr_toList]
    have hnl : ("\n" : String).toList = ['\n'] := rfl
    rw [hnl]
    rw [List.map_append, List.map_append]
    rw [intercalateL_append ['\n']
      (List.map String.toList headerLines ++ List.map String.toList (l :: ls))
      (List.map String.toList [""]) (by simp) (by simp)]
    rw [intercalateL_append ['\n'] (List.map String.toList headerLines)
      (List.map String.toList (l :: ls)) (by decide) (by simp)]
    have hhd : digestHeader.toList =
        intercalateL ['\n'] (headerLines.map String.toList) ++ ['\n'] := by decide
    rw [hhd]
    have hone : (if (l :: ls).length > 0 then ("\n" : String) else "").toList = ['\n'] := by
      simp
    rw [hone]
    simp [intercalateL, List.append_assoc]

theorem noNl_digestLine (r : Record) (h : digestSafe r = true) :
    '\n' ∉ (generateDigestLine r).toList := by
  simp only [digestSafe, Bool.and_eq_true] at h
  obtain ⟨hP1, hP2, hP3, hP4, hN1, hN2, hN3, hN4, hT1, hT2, hT3, hT4, hTJ,
    hE1, hE2, hHash, hTags⟩ := h
  rw [generateDigestLine_toList]
  apply notMem_intercalateL '\n' _ (by decide)
  intro p hp
  simp only [List.mem_cons, List.not_mem_nil, or_false] at hp
  rcases hp with rfl | rfl | rfl | rfl | rfl
  · exact noNl_not_mem hN1
  · exact noNl_not_mem hN2
  · exact noNl_not_mem hN3
  · rw [joinStr_toList]
    apply notMem_intercalateL '\n' _ (by decide)
    intro p hp
    rcases List.mem_map.mp hp with ⟨t, ht, rfl⟩
    rw [List.all_eq_true] at hTags
    have h4 := hTags t ht
    simp only [Bool.and_eq_true] at h4
    exact noNl_not_mem h4.2.2.1
  · exact noNl_not_mem hN4

theorem splitOnStr_nl (parts : List String) (hne : parts ≠ [])
    (h : ∀ p ∈ parts, '\n' ∉ p.toList) :
    splitOnStr "\n" (joinStr "\n" parts) = parts := by
  have hstep : splitOnStr "\n" (joinStr "\n" parts) =
      (splitGoF '\n' [] (joinStr "\n" parts).toList.length
        (joinStr "\n" parts).toList []).map String.mk := rfl
  rw [hstep, joinStr_toList]
  have hnl : ("\n" : String).toList = ['\n'] := rfl
  rw [hnl]
  rw [split_join_single '\n' (parts.map String.toList)
    (by simpa using hne)
    (by
      intro p hp
      rcases List.mem_map.mp hp with ⟨q, hq, rfl⟩
      exact h q hq)]
  rw [List.map_map]
  have : parts.map (String.mk ∘ String.toList) = parts.map id := by
    apply List.map_congr_left
    intro p _
    exact mk_toList p
  rw [this, List.map_id]

theorem foldl_digest_data (records : List Record)
    (h : ∀ r ∈ records, digestSafe r = true) :
    ∀ acc, List.foldl digestLineStep acc (records.map generateDigestLine) =
      acc ++ records.map projDigest := by
  induction records with
  | nil =>
    intro acc
    simp
  | cons r rest ih =>
    intro acc
    simp only [List.map_cons, List.foldl_cons]
    rw [digestLineStep_data r (h r (by simp)) acc]
    rw [ih (fun q hq => h q (by simp [hq])) (acc ++ [projDigest r])]
    simp

/-- Core round-trip: reparsing the generated digest of digest-safe records
yields exactly their projection, in order. -/
theorem digest_reparse (records : List Record)
    (h : ∀ r ∈ records, digestSafe r = true) :
    loadDigestContent (digestContent records) = records.map projDigest := by
  rw [digestContent_eq]
  unfold loadDigestContent
  rw [splitOnStr_nl (headerLines ++ records.map generateDigestLine ++ [""])
    (by simp)
    (by
      intro p hp
      simp only [List.append_assoc, List.mem_append] at hp
      rcases hp with hp | hp | hp
      · fin_cases hp <;> decide
      · rcases List.mem_map.mp hp with ⟨r, hr, rfl⟩
        exact noNl_digestLine r (h r hr)
      · simp only [List.mem_singleton] at hp
        subst hp
        simp)]
  rw [List.append_assoc, List.foldl_append, List.foldl_append]
  have hH : List.foldl digestLineStep [] headerLines = [] := rfl
  rw [hH]
  rw [foldl_digest_data records h []]
  simp only [List.nil_append]
  rfl

/-! ### Store lookup lemmas -/

theorem find?_filter_ne (l : List (String × FileData)) (p q : String) (hne : q ≠ p) :
    (l.filter (fun e => e.1 != p)).find? (fun e => e.1 == q) =
      l.find? (fun e => e.1 == q) := by
  induction l with
  | nil => rfl
  | cons e t ih =>
    by_cases hp : e.1 = p
    · have h1 : (e.1 != p) = false := by simp [hp]
      have h2 : (e.1 == q) = false := by simp [hp, Ne.symm hne]
      simp only [List.filter_cons, h1, Bool.false_eq_true, if_false, List.find?_cons, h2]
      exact ih
    · have h1 : (e.1 != p) = true := by simp [hp]
      simp only [List.filter_cons, h1, if_true, List.find?_cons]
      by_cases h2 : (e.1 == q) = true
      · simp [h2]
      · have h2' : (e.1 == q) = false := by
          cases hc : (e.1 == q)
          · rfl
          · exact absurd hc h2
        simp only [h2']
        exact ih

theorem find?_none_of_all_ne (l : List (String × FileData)) (p : String)
    (h : ∀ e ∈ l, e.1 ≠ p) :
    l.find? (fun e => e.1 == p) = none := by
  induction l with
  | nil => rfl
  | cons e t ih =>
    have h1 : (e.1 == p) = false := by simp [h e (by simp)]
    simp only [List.find?_cons, h1]
    exact ih (fun e' he' => h e' (by simp [he']))

theorem lookupF_setFile (fs : Store) (p : String) (d : FileData) (q : String) :
    lookupF (setFile fs p d) q = if q = p then some d else lookupF fs q := by
  unfold lookupF setFile
  simp only []
  by_cases hq : q = p
  · subst hq
    rw [List.find?_append]
    have h1 : (fs.files.filter (fun e => e.1 != q)).find? (fun e => e.1 == q) = none := by
      apply find?_none_of_all_ne
      intro e he
      have := List.of_mem_filter he
      simpa using this
    rw [h1]
    simp
  · rw [List.find?_append, find?_filter_ne fs.files p q hq]
    cases hf : fs.files.find? (fun e => e.1 == q) with
    | some e => simp [hq]
    | none =>
      have h2 : ([(p, d)].find? (fun e => e.1 == q)) = none := by
        apply find?_none_of_all_ne
        intro e he
        simp only [List.mem_singleton] at he
        subst he
        exact fun hc => hq (by simp [hc.symm])
      simp [h2, hq]

theorem lookupF_eraseFile (fs : Store) (p q : String) :
    lookupF (eraseFile fs p) q = if q = p then none else lookupF fs q := by
  unfold lookupF eraseFile
  simp only []
  by_cases hq : q = p
  · subst hq
    have h1 : (fs.files.filter (fun e => e.1 != q)).find? (fun e => e.1 == q) = none := by
      apply find?_none_of_all_ne
      intro e he
      have := List.of_mem_filter he
      simpa using this
    simp [h1]
  · rw [find?_filter_ne fs.files p q hq]
    simp [hq]

theorem lookupF_addDir (fs : Store) (d : String) (q : String) :
    lookupF (addDir fs d) q = lookupF fs q := by
  unfold lookupF
  rw [addDir_files]

theorem lookupF_unlinkTmps (tmps : List String) :
    ∀ (fs : Store) (q : String),
      lookupF (unlinkTmps fs tmps) q =
        if q ∈ tmps then none else lookupF fs q := by
  induction tmps with
  | nil =>
    intro fs q
    simp [unlinkTmps]
  | cons t ts ih =>
    intro fs q
    show lookupF (unlinkTmps (eraseFile fs t) ts) q = _
    rw [ih (eraseFile fs t) q, lookupF_eraseFile]
    by_cases h1 : q ∈ ts <;> by_cases h2 : q = t <;> simp [h1, h2]

/-! ### Suffix and prefix disambiguation lemmas -/

theorem endsWith_append (x suf : String) : endsWithStr (x ++ suf) suf = true := by
  unfold endsWithStr
  rw [toList_append]
  exact List.isSuffixOf_iff_suffix.mpr ⟨x.toList, rfl⟩

theorem ne_of_endsWith (a b suf : String)
    (ha : endsWithStr a suf = true) (hb : endsWithStr b suf = false) : a ≠ b := by
  intro h
  rw [h] at ha
  rw [ha] at hb
  simp at hb

theorem ne_of_startsWith (a b pre : String)
    (ha : startsWithStr a pre = true) (hb : startsWithStr b pre = false) : a ≠ b := by
  intro h
  rw [h] at ha
  rw [ha] at hb
  simp at hb

theorem append_inj_str (a b s1 s2 : String)
    (hl : s1.toList.length = s2.toList.length) (h : a ++ s1 = b ++ s2) :
    a = b ∧ s1 = s2 := by
  have h2 := congrArg String.toList h
  rw [toList_append, toList_append] at h2
  obtain ⟨h3, h4⟩ := List.append_inj' h2 hl
  exact ⟨toList_inj h3, toList_inj h4⟩

theorem append_suffix_inj (a b suf : String) (h : a ++ suf = b ++ suf) : a = b :=
  (append_inj_str a b suf suf rfl h).1

theorem append_ne_of_suffix_ne (a b s1 s2 : String)
    (hl : s1.toList.length = s2.toList.length) (hne : s1 ≠ s2) : a ++ s1 ≠ b ++ s2 :=
  fun h => hne (append_inj_str a b s1 s2 hl h).2

theorem ne_getLast {a b : String} (h : a.toList.getLast? ≠ b.toList.getLast?) : a ≠ b :=
  fun he => h (by rw [he])

theorem getLast_bak (x : String) : (x ++ ".bak").toList.getLast? = some 'k' := by
  rw [toList_append,
    List.getLast?_append_of_ne_nil x.toList (by decide : String.toList ".bak" ≠ [])]
  decide

theorem getLast_tmp (x : String) : (x ++ ".tmp").toList.getLast? = some 'p' := by
  rw [toList_append,
    List.getLast?_append_of_ne_nil x.toList (by decide : String.toList ".tmp" ≠ [])]
  decide

theorem bak_ne_tmp (x y : String) : x ++ ".bak" ≠ y ++ ".tmp" := by
  apply ne_getLast
  rw [getLast_bak, getLast_tmp]
  decide

theorem append_suffix_ne_self (a suf : String) (hs : suf ≠ "") : a ≠ a ++ suf := by
  intro h
  have h2 := congrArg String.toList h
  rw [toList_append] at h2
  have hlen := congrArg List.length h2
  rw [List.length_append] at hlen
  have h3 : suf.toList = [] := List.eq_nil_of_length_eq_zero (by omega)
  exact hs (toList_inj h3)

theorem stripTmp_append (x : String) : stripTmp (x ++ ".tmp") = x := by
  unfold stripTmp
  rw [endsWith_append, if_pos rfl, toList_append]
  have h1 : (String.toList ".tmp").length = 4 := by decide
  rw [List.length_append, h1, Nat.add_sub_cancel, List.take_left, mk_toList]

/-! ### Backup-restore machinery -/

/-- Master restore lemma: folding `restoreBak` over backup pairs whose bak
paths are intact (or already consumed with the origin holding the right
value) restores every origin to its committed content `m` and leaves every
unrelated path untouched. -/
theorem restore_spec (baks : List (String × String)) :
    ∀ (s : Store) (m : String → Option FileData),
      (∀ pr ∈ baks, pr.2 = pr.1 ++ ".bak") →
      (∀ pr ∈ baks, ∀ pr' ∈ baks, pr.1 ≠ pr'.2) →
      (∀ pr ∈ baks, lookupF s pr.2 = m pr.1 ∨
        (lookupF s pr.2 = none ∧ lookupF s pr.1 = m pr.1)) →
      (∀ pr ∈ baks, m pr.1 ≠ none) →
      (∀ pr ∈ baks, lookupF (baks.foldl restoreBak s) pr.1 = m pr.1) ∧
      (∀ q, (∀ pr ∈ baks, q ≠ pr.1 ∧ q ≠ pr.2) →
        lookupF (baks.foldl restoreBak s) q = lookupF s q) := by
  induction baks with
  | nil =>
    intro s m _ _ _ _
    exact ⟨by simp, fun q _ => rfl⟩
  | cons pr0 rest ih =>
    intro s m h1 h5 hinv hm
    obtain ⟨o, b⟩ := pr0
    have hmem0 : (o, b) ∈ (o, b) :: rest := List.mem_cons_self _ _
    have hb : b = o ++ ".bak" := h1 (o, b) hmem0
    have hmo : m o ≠ none := hm (o, b) hmem0
    have hob : o ≠ b := h5 (o, b) hmem0 (o, b) hmem0
    have hF : lookupF (restoreBak s (o, b)) o = m o ∧
        lookupF (restoreBak s (o, b)) b = none ∧
        (∀ q, q ≠ o → q ≠ b → lookupF (restoreBak s (o, b)) q = lookupF s q) := by
      cases hsb : lookupF s b with
      | none =>
        have hs' : restoreBak s (o, b) = s := by
          unfold restoreBak
          rw [hsb]
        have ho : lookupF s o = m o := by
          rcases hinv (o, b) hmem0 with hL | ⟨_, hO⟩
          · rw [hsb] at hL
            exact absurd hL.symm hmo
          · exact hO
        rw [hs']
        exact ⟨ho, hsb, fun q _ _ => rfl⟩
      | some d =>
        have hd : m o = some d := by
          rcases hinv (o, b) hmem0 with hL | ⟨hN, _⟩
          · rw [hsb] at hL
            exact hL.symm
          · rw [hsb] at hN
            exact Option.noConfusion hN
        have hs' : restoreBak s (o, b) = eraseFile (setFile s o d) b := by
          unfold restoreBak
          rw [hsb]
        rw [hs']
        refine ⟨?_, ?_, ?_⟩
        · rw [lookupF_eraseFile, if_neg hob, lookupF_setFile, if_pos rfl]
          exact hd.symm
        · rw [lookupF_eraseFile, if_pos rfl]
        · intro q hqo hqb
          rw [lookupF_eraseFile, if_neg hqb, lookupF_setFile, if_neg hqo]
    obtain ⟨hFo, hFb, hFr⟩ := hF
    have h1' : ∀ pr ∈ rest, pr.2 = pr.1 ++ ".bak" :=
      fun pr hpr => h1 pr (List.mem_cons_of_mem _ hpr)
    have h5' : ∀ pr ∈ rest, ∀ pr' ∈ rest, pr.1 ≠ pr'.2 :=
      fun pr hpr pr' hpr' =>
        h5 pr (List.mem_cons_of_mem _ hpr) pr' (List.mem_cons_of_mem _ hpr')
    have hm' : ∀ pr ∈ rest, m pr.1 ≠ none :=
      fun pr hpr => hm pr (List.mem_cons_of_mem _ hpr)
    have hinv' : ∀ pr ∈ rest, lookupF (restoreBak s (o, b)) pr.2 = m pr.1 ∨
        (lookupF (restoreBak s (o, b)) pr.2 = none ∧
         lookupF (restoreBak s (o, b)) pr.1 = m pr.1) := by
      intro pr hpr
      by_cases hpb : pr.2 = b
      · have hpr1 : pr.1 = o := by
          have e1 : pr.2 = pr.1 ++ ".bak" := h1' pr hpr
          have e2 : pr.1 ++ ".bak" = o ++ ".bak" := by
            rw [← e1, hpb, hb]
          exact append_suffix_inj _ _ _ e2
        right
        constructor
        · rw [hpb]
          exact hFb
        · rw [hpr1]
          exact hFo
      · have hpo : pr.2 ≠ o :=
          Ne.symm (h5 (o, b) hmem0 pr (List.mem_cons_of_mem _ hpr))
        have hpb2 : lookupF (restoreBak s (o, b)) pr.2 = lookupF s pr.2 :=
          hFr pr.2 hpo hpb
        rcases hinv pr (List.mem_cons_of_mem _ hpr) with hL | ⟨hN, hO⟩
        · left
          rw [hpb2]
          exact hL
        · right
          refine ⟨by rw [hpb2]; exact hN, ?_⟩
          by_cases hp1 : pr.1 = o
          · rw [hp1]
            exact hFo
          · have hp1b : pr.1 ≠ b := h5 pr (List.mem_cons_of_mem _ hpr) (o, b) hmem0
            rw [hFr pr.1 hp1 hp1b]
            exact hO
    obtain ⟨ihA, ihB⟩ := ih (restoreBak s (o, b)) m h1' h5' hinv' hm'
    constructor
    · intro pr hpr
      rcases List.mem_cons.mp hpr with heq | hmem
      · subst heq
        show lookupF (((o, b) :: rest).foldl restoreBak s) o = m o
        rw [List.foldl_cons]
        by_cases hoin : ∃ pr' ∈ rest, pr'.1 = o
        · obtain ⟨pr', hpr', hpr'1⟩ := hoin
          have hres := ihA pr' hpr'
          rw [hpr'1] at hres
          exact hres
        · push_neg at hoin
          have hfr : ∀ pr' ∈ rest, o ≠ pr'.1 ∧ o ≠ pr'.2 := by
            intro pr' hpr'
            exact ⟨Ne.symm (hoin pr' hpr'),
                   h5 (o, b) hmem0 pr' (List.mem_cons_of_mem _ hpr')⟩
          rw [ihB o hfr]
          exact hFo
      · rw [List.foldl_cons]
        exact ihA pr hmem
    · intro q hq
      rw [List.foldl_cons]
      have hq0 := hq (o, b) hmem0
      rw [ihB q (fun pr' hpr' => hq pr' (List.mem_cons_of_mem _ hpr'))]
      exact hFr q hq0.1 hq0.2

/-! ### Backup-creation and step-frame lemmas -/

theorem getAffectedFiles_shape (fs : Store) (parsed : Intent) :
    ∀ p ∈ getAffectedFiles fs parsed,
      p = recordsPath ∨ p = manifestPath ∨ p = digestPath ∨
        truthyStrOpt parsed.sourceRef = some p := by
  intro p hp
  cases hts : truthyStrOpt parsed.sourceRef with
  | none =>
    simp only [getAffectedFiles, hts, List.mem_cons, List.not_mem_nil, or_false] at hp
    rcases hp with h | h | h
    · exact Or.inl h
    · exact Or.inr (Or.inl h)
    · exact Or.inr (Or.inr (Or.inl h))
  | some s =>
    simp only [getAffectedFiles, hts] at hp
    by_cases hc : ((parsed.action == "update" || parsed.action == "delete") &&
        existsF fs s) = true
    · rw [if_pos hc] at hp
      simp only [List.mem_append, List.mem_cons, List.not_mem_nil, or_false] at hp
      rcases hp with (h | h | h) | h
      · exact Or.inl h
      · exact Or.inr (Or.inl h)
      · exact Or.inr (Or.inr (Or.inl h))
      · subst h
        exact Or.inr (Or.inr (Or.inr rfl))
    · rw [if_neg hc] at hp
      simp only [List.mem_cons, List.not_mem_nil, or_false] at hp
      rcases hp with h | h | h
      · exact Or.inl h
      · exact Or.inr (Or.inl h)
      · exact Or.inr (Or.inr (Or.inl h))

theorem backups_go (A : List String) (fs : Store)
    (hdisj : ∀ p ∈ A, ∀ p' ∈ A, p ≠ p' ++ ".bak") :
    ∀ (l : List String) (cur : Store) (acc : List (String × String)),
      (∀ p ∈ l, p ∈ A) →
      (∀ q, (∀ p ∈ A, q ≠ p ++ ".bak") → lookupF cur q = lookupF fs q) →
      (∀ pr ∈ acc, pr.2 = pr.1 ++ ".bak" ∧ pr.1 ∈ A ∧ lookupF fs pr.1 ≠ none ∧
        lookupF cur pr.2 = lookupF fs pr.1) →
      (∀ q, (∀ p ∈ A, q ≠ p ++ ".bak") →
        lookupF (l.foldl bakStep (cur, acc)).1 q = lookupF fs q) ∧
      (∀ pr ∈ (l.foldl bakStep (cur, acc)).2,
        pr.2 = pr.1 ++ ".bak" ∧ pr.1 ∈ A ∧ lookupF fs pr.1 ≠ none ∧
        lookupF (l.foldl bakStep (cur, acc)).1 pr.2 = lookupF fs pr.1) ∧
      (∀ p ∈ l, lookupF fs p ≠ none → (p, p ++ ".bak") ∈ (l.foldl bakStep (cur, acc)).2) ∧
      (∀ pr ∈ acc, pr ∈ (l.foldl bakStep (cur, acc)).2) := by
  intro l
  induction l with
  | nil =>
    intro cur acc _ hI1 hI2
    exact ⟨hI1, hI2, by simp, fun pr hpr => hpr⟩
  | cons p t ih =>
    intro cur acc hsub hI1 hI2
    have hpA : p ∈ A := hsub p (List.mem_cons_self _ _)
    have hpfs : lookupF cur p = lookupF fs p :=
      hI1 p (fun p' hp' => hdisj p hpA p' hp')
    have hsub' : ∀ x ∈ t, x ∈ A := fun x hx => hsub x (List.mem_cons_of_mem _ hx)
    rw [List.foldl_cons]
    cases hl : lookupF cur p with
    | none =>
      have hstep : bakStep (cur, acc) p = (cur, acc) := by
        unfold bakStep
        rw [hl]
      rw [hstep]
      obtain ⟨c1, c2, c3, c4⟩ := ih cur acc hsub' hI1 hI2
      refine ⟨c1, c2, ?_, c4⟩
      intro x hx hxs
      rcases List.mem_cons.mp hx with hxe | hxm
      · subst hxe
        rw [hpfs] at hl
        exact absurd hl hxs
      · exact c3 x hxm hxs
    | some d =>
      have hstep : bakStep (cur, acc) p =
          (setFile cur (p ++ ".bak") d, acc ++ [(p, p ++ ".bak")]) := by
        unfold bakStep
        rw [hl]
      rw [hstep]
      have hfsp : lookupF fs p = some d := by
        rw [← hpfs]
        exact hl
      have hI1' : ∀ q, (∀ p' ∈ A, q ≠ p' ++ ".bak") →
          lookupF (setFile cur (p ++ ".bak") d) q = lookupF fs q := by
        intro q hq
        rw [lookupF_setFile, if_neg (hq p hpA)]
        exact hI1 q hq
      have hI2' : ∀ pr ∈ acc ++ [(p, p ++ ".bak")],
          pr.2 = pr.1 ++ ".bak" ∧ pr.1 ∈ A ∧ lookupF fs pr.1 ≠ none ∧
          lookupF (setFile cur (p ++ ".bak") d) pr.2 = lookupF fs pr.1 := by
        intro pr hpr
        rcases List.mem_append.mp hpr with hold | hnew
        · obtain ⟨e1, e2, e3, e4⟩ := hI2 pr hold
          refine ⟨e1, e2, e3, ?_⟩
          rw [lookupF_setFile]
          by_cases hpb : pr.2 = p ++ ".bak"
          · have hp1 : pr.1 = p := append_suffix_inj _ _ _ (by rw [← e1, hpb])
            rw [if_pos hpb, hp1, hfsp]
          · rw [if_neg hpb]
            exact e4
        · simp only [List.mem_singleton] at hnew
          subst hnew
          refine ⟨rfl, hpA, by rw [hfsp]; exact fun hc => Option.noConfusion hc, ?_⟩
          rw [lookupF_setFile, if_pos rfl, hfsp]
      obtain ⟨c1, c2, c3, c4⟩ :=
        ih (setFile cur (p ++ ".bak") d) (acc ++ [(p, p ++ ".bak")]) hsub' hI1' hI2'
      refine ⟨c1, c2, ?_, fun pr hpr => c4 pr (List.mem_append_left _ hpr)⟩
      intro x hx hxs
      rcases List.mem_cons.mp hx with hxe | hxm
      · subst hxe
        exact c4 (x, x ++ ".bak") (List.mem_append_right _ (List.mem_singleton.mpr rfl))
      · exact c3 x hxm hxs

/-- The three facts about `createBackups` used by the rollback and commit
arguments: every tracked pair is an affected origin with its `.bak` path,
every existing affected file is tracked, and lookups away from the bak
paths are untouched. -/
theorem createBackups_spec (fs : Store) (parsed : Intent)
    (hdisj : ∀ p ∈ getAffectedFiles fs parsed, ∀ p' ∈ getAffectedFiles fs parsed,
      p ≠ p' ++ ".bak") :
    (∀ q, (∀ p ∈ getAffectedFiles fs parsed, q ≠ p ++ ".bak") →
      lookupF (createBackups fs parsed).1 q = lookupF fs q) ∧
    (∀ pr ∈ (createBackups fs parsed).2,
      pr.2 = pr.1 ++ ".bak" ∧ pr.1 ∈ getAffectedFiles fs parsed ∧
      lookupF fs pr.1 ≠ none ∧
      lookupF (createBackups fs parsed).1 pr.2 = lookupF fs pr.1) ∧
    (∀ p ∈ getAffectedFiles fs parsed, lookupF fs p ≠ none →
      (p, p ++ ".bak") ∈ (createBackups fs parsed).2) := by
  obtain ⟨c1, c2, c3, _⟩ :=
    backups_go (getAffectedFiles fs parsed) fs hdisj (getAffectedFiles fs parsed) fs []
      (fun p hp => hp) (fun q _ => rfl) (by simp)
  exact ⟨c1, c2, c3⟩

theorem lookupF_files_eq (fs gs : Store) (h : fs.files = gs.files) (q : String) :
    lookupF fs q = lookupF gs q := by
  unfold lookupF
  rw [h]

theorem ensureFolders_files (fs : Store) (parsed : Intent) :
    (ensureFoldersStep fs parsed).files = fs.files := by
  unfold ensureFoldersStep
  by_cases ha : (parsed.action == "create") = true
  · rw [if_pos ha]
    cases truthyStrOpt parsed.sourceRef with
    | none => rfl
    | some s => exact addDir_files fs (dirname s)
  · rw [if_neg ha]

theorem writeDocumentTmp_shape (fs : Store) (parsed : Intent) :
    writeDocumentTmp fs parsed = (fs, []) ∨
    ∃ c s, parsed.content = some c ∧ truthyStrOpt parsed.sourceRef = some s ∧
      writeDocumentTmp fs parsed =
        (setFile fs (s ++ ".tmp") (.text c), [s ++ ".tmp"]) := by
  unfold writeDocumentTmp
  by_cases ha : (parsed.action == "create" || parsed.action == "update") = true
  · rw [if_pos ha]
    cases hc : parsed.content with
    | none => exact Or.inl rfl
    | some c =>
      cases hs : truthyStrOpt parsed.sourceRef with
      | none => exact Or.inl rfl
      | some s => exact Or.inr ⟨c, s, rfl, rfl, rfl⟩
  · rw [if_neg ha]
    exact Or.inl rfl

theorem updateRecordsTmp_ok_shape (fs : Store) (parsed : Intent) (now : String)
    (out : Store × String) (h : updateRecordsTmp fs parsed now = .ok out) :
    ∃ rs, out = (setFile fs (recordsPath ++ ".tmp") (.recs rs),
                 recordsPath ++ ".tmp") := by
  unfold updateRecordsTmp at h
  cases hr : readJsonlE fs recordsPath with
  | error e =>
    rw [hr] at h
    exact Except.noConfusion h
  | ok records =>
    rw [hr] at h
    simp only [] at h
    split at h
    · exact Except.noConfusion h
    · rename_i rs heq
      injection h with h2
      exact ⟨rs, h2.symm⟩

theorem updateManifestTmp_shape (fs : Store) (parsed : Intent) (now : String) :
    ∃ M, updateManifestTmp fs parsed now =
      (setFile fs (manifestPath ++ ".tmp") (.manifest M), manifestPath ++ ".tmp") :=
  ⟨_, rfl⟩

theorem updateDigestTmp_of_recs (fs : Store) (rs : List Record)
    (h : lookupF fs (recordsPath ++ ".tmp") = some (.recs rs)) :
    updateDigestTmp fs =
      .ok (setFile fs (digestPath ++ ".tmp") (.text (digestContent rs)),
           digestPath ++ ".tmp") := by
  have h1 : readJsonlE fs (recordsPath ++ ".tmp") = .ok rs := by
    unfold readJsonlE
    rw [h]
  unfold updateDigestTmp
  rw [h1]

theorem eraseBaks_frame (baks : List (String × String)) :
    ∀ (fs : Store) (q : String), (∀ pr ∈ baks, q ≠ pr.2) →
      lookupF (baks.foldl (fun f pr => eraseFile f pr.2) fs) q = lookupF fs q := by
  induction baks with
  | nil =>
    intro fs q _
    rfl
  | cons pr rest ih =>
    intro fs q hq
    rw [List.foldl_cons, ih _ q (fun pr' h' => hq pr' (List.mem_cons_of_mem _ h')),
        lookupF_eraseFile, if_neg (hq pr (List.mem_cons_self _ _))]

theorem commitGo_ok (tmps : List String) :
    ∀ (fs : Store) (committed : List (String × String)),
      tmps.Nodup → (∀ t ∈ tmps, lookupF fs t ≠ none) →
      ∃ fsC, commitGo fs committed tmps = .ok fsC := by
  induction tmps with
  | nil =>
    intro fs c _ _
    exact ⟨fs, rfl⟩
  | cons t rest ih =>
    intro fs c hnd hpres
    have hp := hpres t (List.mem_cons_self _ _)
    cases hl : lookupF fs t with
    | none => exact absurd hl hp
    | some dc =>
      have hren : renameF fs t (stripTmp t) =
          .ok (setFile (eraseFile fs t) (stripTmp t) dc) := by
        unfold renameF
        rw [hl]
      unfold commitGo
      rw [hren]
      apply ih
      · exact (List.nodup_cons.mp hnd).2
      · intro t' ht'
        have hne : t' ≠ t := fun hc => (List.nodup_cons.mp hnd).1 (hc ▸ ht')
        rw [lookupF_setFile]
        by_cases hst : t' = stripTmp t
        · rw [if_pos hst]
          exact fun hc => Option.noConfusion hc
        · rw [if_neg hst, lookupF_eraseFile, if_neg hne]
          exact hpres t' (List.mem_cons_of_mem _ ht')

/-- The master rollback lemma: a failing transaction's rollback restores
the lookup at `q` to its pre-transaction value, provided the backup files
are intact in the handed-over store and `q` is either a backed-up affected
path, an unlinked tracked tmp, or a path the transaction never touched. -/
theorem rollback_master (fs fsX : Store) (parsed : Intent) (tmps : List String) (q : String)
    (hdisj : ∀ p ∈ getAffectedFiles fs parsed, ∀ p' ∈ getAffectedFiles fs parsed,
      p ≠ p' ++ ".bak")
    (htmp : ∀ t ∈ tmps, ∃ x, t = x ++ ".tmp")
    (hB : ∀ pr ∈ (createBackups fs parsed).2, lookupF fsX pr.2 = lookupF fs pr.1)
    (h2 : ∀ p ∈ getAffectedFiles fs parsed, q ≠ p ++ ".bak")
    (h34 : (q ∈ getAffectedFiles fs parsed ∧ lookupF fs q ≠ none) ∨
           (q ∈ tmps ∧ lookupF fs q = none) ∨
           (q ∉ tmps ∧ lookupF fsX q = lookupF fs q)) :
    lookupF (rollbackFn fsX (createBackups fs parsed).2 tmps) q = lookupF fs q := by
  obtain ⟨_, hB2, hB3⟩ := createBackups_spec fs parsed hdisj
  have hbaknotmp : ∀ pr ∈ (createBackups fs parsed).2, pr.2 ∉ tmps := by
    intro pr hpr hmem
    obtain ⟨x, hx⟩ := htmp pr.2 hmem
    have he1 : pr.2 = pr.1 ++ ".bak" := (hB2 pr hpr).1
    exact bak_ne_tmp pr.1 x (he1 ▸ hx)
  have hu : ∀ pr ∈ (createBackups fs parsed).2,
      lookupF (unlinkTmps fsX tmps) pr.2 = lookupF fs pr.1 := by
    intro pr hpr
    rw [lookupF_unlinkTmps, if_neg (hbaknotmp pr hpr)]
    exact hB pr hpr
  obtain ⟨rA, rB⟩ := restore_spec (createBackups fs parsed).2 (unlinkTmps fsX tmps)
    (fun x => lookupF fs x)
    (fun pr hpr => (hB2 pr hpr).1)
    (fun pr hpr pr' hpr' hc =>
      hdisj pr.1 (hB2 pr hpr).2.1 pr'.1 (hB2 pr' hpr').2.1
        (hc.trans (hB2 pr' hpr').1))
    (fun pr hpr => Or.inl (hu pr hpr))
    (fun pr hpr => (hB2 pr hpr).2.2.1)
  unfold rollbackFn
  rcases h34 with ⟨hqa, hqe⟩ | ⟨hqt, hqn⟩ | ⟨hqnt, hqf⟩
  · exact rA (q, q ++ ".bak") (hB3 q hqa hqe)
  · have hfr : ∀ pr ∈ (createBackups fs parsed).2, q ≠ pr.1 ∧ q ≠ pr.2 := by
      intro pr hpr
      constructor
      · intro hc
        exact (hB2 pr hpr).2.2.1 (hc ▸ hqn)
      · intro hc
        exact h2 pr.1 (hB2 pr hpr).2.1 (hc.trans (hB2 pr hpr).1)
    rw [rB q hfr, lookupF_unlinkTmps, if_pos hqt, hqn]
  · by_cases hqo : ∃ pr ∈ (createBackups fs parsed).2, pr.1 = q
    · obtain ⟨pr, hpr, hpr1⟩ := hqo
      have := rA pr hpr
      rw [hpr1] at this
      exact this
    · push_neg at hqo
      have hfr : ∀ pr ∈ (createBackups fs parsed).2, q ≠ pr.1 ∧ q ≠ pr.2 := by
        intro pr hpr
        constructor
        · exact fun hc => hqo pr hpr hc.symm
        · intro hc
          exact h2 pr.1 (hB2 pr hpr).2.1 (hc.trans (hB2 pr hpr).1)
      rw [rB q hfr, lookupF_unlinkTmps, if_neg hqnt, hqf]

/-! ### Branch-analysis helpers for `execute` -/

theorem residual_false_lookup (fs : Store) (h : checkResidualTmp fs = false)
    (p : String) (hp : isIndexChild p = true) (he : endsWithStr p ".tmp" = true) :
    lookupF fs p = none := by
  cases hl : lookupF fs p with
  | none => rfl
  | some d =>
    exfalso
    unfold lookupF at hl
    cases hf : fs.files.find? (fun e => e.1 == p) with
    | none =>
      rw [hf] at hl
      exact Option.noConfusion hl
    | some e =>
      have hmem := List.mem_of_find?_eq_some hf
      have hpe : e.1 = p := by
        have := List.find?_some hf
        simpa using this
      unfold checkResidualTmp at h
      have hmm : e.1 ∈ fs.files.map (fun e => e.1) := List.mem_map_of_mem _ hmem
      have hcontra := List.any_eq_false.mp h e.1 hmm
      rw [hpe] at hcontra
      simp [hp, he] at hcontra

theorem parseIntentE_ok_fields (fs : Store) (today : String) (i parsed : Intent)
    (h : parseIntentE fs today i = .ok parsed) :
    parsed.action = i.action ∧ parsed.sourceRef = i.sourceRef ∧
    parsed.content = i.content ∧ parsed.record = i.record := by
  unfold parseIntentE at h
  split at h
  · exact Except.noConfusion h
  · split at h
    · split at h
      · exact Except.noConfusion h
      · split at h
        · split at h
          · exact Except.noConfusion h
          · injection h with h2
            subst h2
            exact ⟨rfl, rfl, rfl, rfl⟩
        · exact Except.noConfusion h
    · injection h with h2
      subst h2
      exact ⟨rfl, rfl, rfl, rfl⟩

/-- A path that is one of the three index artifacts, or the intent's truthy
sourceRef away from the artifact backup paths, never coincides with the
backup path of an affected file. -/
theorem nobak_of (fs : Store) (parsed : Intent)
    (hcol : ∀ s, truthyStrOpt parsed.sourceRef = some s → ¬ s ∈ artifactBakPaths)
    (q : String)
    (hq : q = recordsPath ∨ q = manifestPath ∨ q = digestPath ∨
          truthyStrOpt parsed.sourceRef = some q) :
    ∀ p ∈ getAffectedFiles fs parsed, q ≠ p ++ ".bak" := by
  intro p hp
  have hend : endsWithStr q ".bak" = false → q ≠ p ++ ".bak" :=
    fun hb => Ne.symm (ne_of_endsWith (p ++ ".bak") q ".bak" (endsWith_append p ".bak") hb)
  rcases hq with h | h | h | h
  · subst h
    exact hend (by decide)
  · subst h
    exact hend (by decide)
  · subst h
    exact hend (by decide)
  · have hnotin := hcol q h
    simp only [artifactBakPaths, List.mem_cons, List.not_mem_nil, or_false] at hnotin
    push_neg at hnotin
    rcases getAffectedFiles_shape fs parsed p hp with h' | h' | h' | h'
    · subst h'
      exact hnotin.1
    · subst h'
      exact hnotin.2.1
    · subst h'
      exact hnotin.2.2
    · have hqp : q = p := Option.some.inj (h.symm.trans h')
      subst hqp
      exact append_suffix_ne_self q ".bak" (by decide)

theorem hdisj_of_col (fs : Store) (parsed : Intent)
    (hcol : ∀ s, truthyStrOpt parsed.sourceRef = some s → ¬ s ∈ artifactBakPaths) :
    ∀ p ∈ getAffectedFiles fs parsed, ∀ p' ∈ getAffectedFiles fs parsed,
      p ≠ p' ++ ".bak" := by
  intro p hp
  have hshape := getAffectedFiles_shape fs parsed p hp
  exact nobak_of fs parsed hcol p hshape

/-- Backups are intact in any store whose lookups agree with the
post-backup store on every `.bak`-suffixed path. -/
theorem hB_of_frame (fs fsX : Store) (parsed : Intent)
    (hdisj : ∀ p ∈ getAffectedFiles fs parsed, ∀ p' ∈ getAffectedFiles fs parsed,
      p ≠ p' ++ ".bak")
    (hfr : ∀ x : String,
      lookupF fsX (x ++ ".bak") = lookupF (createBackups fs parsed).1 (x ++ ".bak")) :
    ∀ pr ∈ (createBackups fs parsed).2, lookupF fsX pr.2 = lookupF fs pr.1 := by
  intro pr hpr
  obtain ⟨e1, e2, _, e4⟩ := (createBackups_spec fs parsed hdisj).2.1 pr hpr
  rw [e1]
  rw [e1] at e4
  rw [hfr pr.1, e4]

theorem mem_affected_base (fs : Store) (parsed : Intent) :
    recordsPath ∈ getAffectedFiles fs parsed ∧
    manifestPath ∈ getAffectedFiles fs parsed ∧
    digestPath ∈ getAffectedFiles fs parsed := by
  unfold getAffectedFiles
  cases truthyStrOpt parsed.sourceRef with
  | none => exact ⟨by simp, by simp, by simp⟩
  | some s => refine ⟨?_, ?_, ?_⟩ <;> (split <;> (try split) <;> simp_all)

/-- When the staged document tmp coincides with one of the three index
artifact tmps, the commit rename loop hits a missing source on the second
occurrence, reverses the committed renames, and hands the partially
unwound store to rollback; every artifact lookup in that store is either
gone (restored later from its backup) or untouched. -/
theorem commit_dup_error (base : Store) (c : String) (rs : List Record) (M : Manifest)
    (baks : List (String × String)) (X : String)
    (hX : X = recordsPath ∨ X = manifestPath ∨ X = digestPath) :
    ∃ fsE, commitFn (setFile (setFile (setFile (setFile base (X ++ ".tmp") (FileData.text c))
        (recordsPath ++ ".tmp") (FileData.recs rs))
        (manifestPath ++ ".tmp") (FileData.manifest M))
        (digestPath ++ ".tmp") (FileData.text (digestContent rs))) baks
        [X ++ ".tmp", recordsPath ++ ".tmp", manifestPath ++ ".tmp", digestPath ++ ".tmp"]
        = .error fsE ∧
      (∀ q, q ≠ recordsPath ++ ".tmp" → q ≠ manifestPath ++ ".tmp" →
        q ≠ digestPath ++ ".tmp" → q ≠ recordsPath → q ≠ manifestPath → q ≠ digestPath →
        lookupF fsE q =
          lookupF (setFile (setFile (setFile (setFile base (X ++ ".tmp") (FileData.text c))
            (recordsPath ++ ".tmp") (FileData.recs rs))
            (manifestPath ++ ".tmp") (FileData.manifest M))
            (digestPath ++ ".tmp") (FileData.text (digestContent rs))) q) ∧
      (lookupF fsE recordsPath = none ∨
        lookupF fsE recordsPath =
          lookupF (setFile (setFile (setFile (setFile base (X ++ ".tmp") (FileData.text c))
            (recordsPath ++ ".tmp") (FileData.recs rs))
            (manifestPath ++ ".tmp") (FileData.manifest M))
            (digestPath ++ ".tmp") (FileData.text (digestContent rs))) recordsPath) ∧
      (lookupF fsE manifestPath = none ∨
        lookupF fsE manifestPath =
          lookupF (setFile (setFile (setFile (setFile base (X ++ ".tmp") (FileData.text c))
            (recordsPath ++ ".tmp") (FileData.recs rs))
            (manifestPath ++ ".tmp") (FileData.manifest M))
            (digestPath ++ ".tmp") (FileData.text (digestContent rs))) manifestPath) ∧
      (lookupF fsE digestPath = none ∨
        lookupF fsE digestPath =
          lookupF (setFile (setFile (setFile (setFile base (X ++ ".tmp") (FileData.text c))
            (recordsPath ++ ".tmp") (FileData.recs rs))
            (manifestPath ++ ".tmp") (FileData.manifest M))
            (digestPath ++ ".tmp") (FileData.text (digestContent rs))) digestPath) := by
  rcases hX with hX | hX | hX
  all_goals subst hX
  · -- the document tmp collides with records.jsonl.tmp
    set FS6 := setFile (setFile (setFile
      (setFile base (recordsPath ++ ".tmp") (FileData.text c))
      (recordsPath ++ ".tmp") (FileData.recs rs))
      (manifestPath ++ ".tmp") (FileData.manifest M))
      (digestPath ++ ".tmp") (FileData.text (digestContent rs)) with hFS6
    have hl1 : lookupF FS6 (recordsPath ++ ".tmp") = some (FileData.recs rs) := by
      rw [hFS6, lookupF_setFile, if_neg (by decide), lookupF_setFile, if_neg (by decide),
          lookupF_setFile, if_pos rfl]
    set F1 := setFile (eraseFile FS6 (recordsPath ++ ".tmp")) recordsPath
      (FileData.recs rs) with hF1
    have hr1 : renameF FS6 (recordsPath ++ ".tmp") recordsPath = .ok F1 := by
      unfold renameF
      rw [hl1, hF1]
    have hl2 : lookupF F1 (recordsPath ++ ".tmp") = none := by
      rw [hF1, lookupF_setFile, if_neg (by decide), lookupF_eraseFile, if_pos rfl]
    have hr2 : renameF F1 (recordsPath ++ ".tmp") recordsPath = .error () := by
      unfold renameF
      rw [hl2]
    have hl3 : lookupF F1 recordsPath = some (FileData.recs rs) := by
      rw [hF1, lookupF_setFile, if_pos rfl]
    set F2 := setFile (eraseFile F1 recordsPath) (recordsPath ++ ".tmp")
      (FileData.recs rs) with hF2
    have hr3 : renameF F1 recordsPath (recordsPath ++ ".tmp") = .ok F2 := by
      unfold renameF
      rw [hl3, hF2]
    refine ⟨F2, ?_, ?_, ?_, ?_, ?_⟩
    · unfold commitFn
      have hcg : commitGo FS6 [] [recordsPath ++ ".tmp", recordsPath ++ ".tmp",
          manifestPath ++ ".tmp", digestPath ++ ".tmp"] = .error F2 := by
        simp only [commitGo, stripTmp_append, hr1, hr2, hr3, unrename, List.reverse_cons,
          List.reverse_nil, List.nil_append, List.cons_append, List.append_nil]
      rw [hcg]
    · intro q h1 h2 h3 h4 h5 h6
      rw [hF2, lookupF_setFile, if_neg h1, lookupF_eraseFile, if_neg h4,
          hF1, lookupF_setFile, if_neg h4, lookupF_eraseFile, if_neg h1]
    · left
      rw [hF2, lookupF_setFile, if_neg (by decide), lookupF_eraseFile, if_pos rfl]
    · right
      rw [hF2, lookupF_setFile, if_neg (by decide), lookupF_eraseFile, if_neg (by decide),
          hF1, lookupF_setFile, if_neg (by decide), lookupF_eraseFile, if_neg (by decide)]
    · right
      rw [hF2, lookupF_setFile, if_neg (by decide), lookupF_eraseFile, if_neg (by decide),
          hF1, lookupF_setFile, if_neg (by decide), lookupF_eraseFile, if_neg (by decide)]
  · -- the document tmp collides with manifest.json.tmp
    set FS6 := setFile (setFile (setFile
      (setFile base (manifestPath ++ ".tmp") (FileData.text c))
      (recordsPath ++ ".tmp") (FileData.recs rs))
      (manifestPath ++ ".tmp") (FileData.manifest M))
      (digestPath ++ ".tmp") (FileData.text (digestContent rs)) with hFS6
    have hl1 : lookupF FS6 (manifestPath ++ ".tmp") = some (FileData.manifest M) := by
      rw [hFS6, lookupF_setFile, if_neg (by decide), lookupF_setFile, if_pos rfl]
    set F1 := setFile (eraseFile FS6 (manifestPath ++ ".tmp")) manifestPath
      (FileData.manifest M) with hF1
    have hr1 : renameF FS6 (manifestPath ++ ".tmp") manifestPath = .ok F1 := by
      unfold renameF
      rw [hl1, hF1]
    have hl2 : lookupF F1 (recordsPath ++ ".tmp") = some (FileData.recs rs) := by
      rw [hF1, lookupF_setFile, if_neg (by decide), lookupF_eraseFile, if_neg (by decide),
          hFS6, lookupF_setFile, if_neg (by decide), lookupF_setFile, if_neg (by decide),
          lookupF_setFile, if_pos rfl]
    set F2 := setFile (eraseFile F1 (recordsPath ++ ".tmp")) recordsPath
      (FileData.recs rs) with hF2
    have hr2 : renameF F1 (recordsPath ++ ".tmp") recordsPath = .ok F2 := by
      unfold renameF
      rw [hl2, hF2]
    have hl3 : lookupF F2 (manifestPath ++ ".tmp") = none := by
      rw [hF2, lookupF_setFile, if_neg (by decide), lookupF_eraseFile, if_neg (by decide),
          hF1, lookupF_setFile, if_neg (by decide), lookupF_eraseFile, if_pos rfl]
    have hr3 : renameF F2 (manifestPath ++ ".tmp") manifestPath = .error () := by
      unfold renameF
      rw [hl3]
    have hl4 : lookupF F2 recordsPath = some (FileData.recs rs) := by
      rw [hF2, lookupF_setFile, if_pos rfl]
    set F3 := setFile (eraseFile F2 recordsPath) (recordsPath ++ ".tmp")
      (FileData.recs rs) with hF3
    have hr4 : renameF F2 recordsPath (recordsPath ++ ".tmp") = .ok F3 := by
      unfold renameF
      rw [hl4, hF3]
    have hl5 : lookupF F3 manifestPath = some (FileData.manifest M) := by
      rw [hF3, lookupF_setFile, if_neg (by decide), lookupF_eraseFile, if_neg (by decide),
          hF2, lookupF_setFile, if_neg (by decide), lookupF_eraseFile, if_neg (by decide),
          hF1, lookupF_setFile, if_pos rfl]
    set F4 := setFile (eraseFile F3 manifestPath) (manifestPath ++ ".tmp")
      (FileData.manifest M) with hF4
    have hr5 : renameF F3 manifestPath (manifestPath ++ ".tmp") = .ok F4 := by
      unfold renameF
      rw [hl5, hF4]
    refine ⟨F4, ?_, ?_, ?_, ?_, ?_⟩
    · unfold commitFn
      have hcg : commitGo FS6 [] [manifestPath ++ ".tmp", recordsPath ++ ".tmp",
          manifestPath ++ ".tmp", digestPath ++ ".tmp"] = .error F4 := by
        simp only [commitGo, stripTmp_append, hr1, hr2, hr3, hr4, hr5, unrename,
          List.reverse_cons, List.reverse_nil, List.nil_append, List.cons_append,
          List.append_nil]
      rw [hcg]
    · intro q h1 h2 h3 h4 h5 h6
      rw [hF4, lookupF_setFile, if_neg h2, lookupF_eraseFile, if_neg h5,
          hF3, lookupF_setFile, if_neg h1, lookupF_eraseFile, if_neg h4,
          hF2, lookupF_setFile, if_neg h4, lookupF_eraseFile, if_neg h1,
          hF1, lookupF_setFile, if_neg h5, lookupF_eraseFile, if_neg h2]
    · left
      rw [hF4, lookupF_setFile, if_neg (by decide), lookupF_eraseFile, if_neg (by decide),
          hF3, lookupF_setFile, if_neg (by decide), lookupF_eraseFile, if_pos rfl]
    · left
      rw [hF4, lookupF_setFile, if_neg (by decide), lookupF_eraseFile, if_pos rfl]
    · right
      rw [hF4, lookupF_setFile, if_neg (by decide), lookupF_eraseFile, if_neg (by decide),
          hF3, lookupF_setFile, if_neg (by decide), lookupF_eraseFile, if_neg (by decide),
          hF2, lookupF_setFile, if_neg (by decide), lookupF_eraseFile, if_neg (by decide),
          hF1, lookupF_setFile, if_neg (by decide), lookupF_eraseFile, if_neg (by decide)]
  · -- the document tmp collides with records_digest.txt.tmp
    set FS6 := setFile (setFile (setFile
      (setFile base (digestPath ++ ".tmp") (FileData.text c))
      (recordsPath ++ ".tmp") (FileData.recs rs))
      (manifestPath ++ ".tmp") (FileData.manifest M))
      (digestPath ++ ".tmp") (FileData.text (digestContent rs)) with hFS6
    have hl1 : lookupF FS6 (digestPath ++ ".tmp") =
        some (FileData.text (digestContent rs)) := by
      rw [hFS6, lookupF_setFile, if_pos rfl]
    set F1 := setFile (eraseFile FS6 (digestPath ++ ".tmp")) digestPath
      (FileData.text (digestContent rs)) with hF1
    have hr1 : renameF FS6 (digestPath ++ ".tmp") digestPath = .ok F1 := by
      unfold renameF
      rw [hl1, hF1]
    have hl2 : lookupF F1 (recordsPath ++ ".tmp") = some (FileData.recs rs) := by
      rw [hF1, lookupF_setFile, if_neg (by decide), lookupF_eraseFile, if_neg (by decide),
          hFS6, lookupF_setFile, if_neg (by decide), lookupF_setFile, if_neg (by decide),
          lookupF_setFile, if_pos rfl]
    set F2 := setFile (eraseFile F1 (recordsPath ++ ".tmp")) recordsPath
      (FileData.recs rs) with hF2
    have hr2 : renameF F1 (recordsPath ++ ".tmp") recordsPath = .ok F2 := by
      unfold renameF
      rw [hl2, hF2]
    have hl3 : lookupF F2 (manifestPath ++ ".tmp") = some (FileData.manifest M) := by
      rw [hF2, lookupF_setFile, if_neg (by decide), lookupF_eraseFile, if_neg (by decide),
          hF1, lookupF_setFile, if_neg (by decide), lookupF_eraseFile, if_neg (by decide),
          hFS6, lookupF_setFile, if_neg (by decide), lookupF_setFile, if_pos rfl]
    set F3 := setFile (eraseFile F2 (manifestPath ++ ".tmp")) manifestPath
      (FileData.manifest M) with hF3
    have hr3 : renameF F2 (manifestPath ++ ".tmp") manifestPath = .ok F3 := by
      unfold renameF
      rw [hl3, hF3]
    have hl4 : lookupF F3 (digestPath ++ ".tmp") = none := by
      rw [hF3, lookupF_setFile, if_neg (by decide), lookupF_eraseFile, if_neg (by decide),
          hF2, lookupF_setFile, if_neg (by decide), lookupF_eraseFile, if_neg (by decide),
          hF1, lookupF_setFile, if_neg (by decide), lookupF_eraseFile, if_pos rfl]
    have hr4 : renameF F3 (digestPath ++ ".tmp") digestPath = .error () := by
      unfold renameF
      rw [hl4]
    have hl5 : lookupF F3 manifestPath = some (FileData.manifest M) := by
      rw [hF3, lookupF_setFile, if_pos rfl]
    set F4 := setFile (eraseFile F3 manifestPath) (manifestPath ++ ".tmp")
      (FileData.manifest M) with hF4
    have hr5 : renameF F3 manifestPath (manifestPath ++ ".tmp") = .ok F4 := by
      unfold renameF
      rw [hl5, hF4]
    have hl6 : lookupF F4 recordsPath = some (FileData.recs rs) := by
      rw [hF4, lookupF_setFile, if_neg (by decide), lookupF_eraseFile, if_neg (by decide),
          hF3, lookupF_setFile, if_neg (by decide), lookupF_eraseFile, if_neg (by decide),
          hF2, lookupF_setFile, if_pos rfl]
    set F5 := setFile (eraseFile F4 recordsPath) (recordsPath ++ ".tmp")
      (FileData.recs rs) with hF5
    have hr6 : renameF F4 recordsPath (recordsPath ++ ".tmp") = .ok F5 := by
      unfold renameF
      rw [hl6, hF5]
    have hl7 : lookupF F5 digestPath = some (FileData.text (digestContent rs)) := by
      rw [hF5, lookupF_setFile, if_neg (by decide), lookupF_eraseFile, if_neg (by decide),
          hF4, lookupF_setFile, if_neg (by decide), lookupF_eraseFile, if_neg (by decide),
          hF3, lookupF_setFile, if_neg (by decide), lookupF_eraseFile, if_neg (by decide),
          hF2, lookupF_setFile, if_neg (by decide), lookupF_eraseFile, if_neg (by decide),
          hF1, lookupF_setFile, if_pos rfl]
    set F6 := setFile (eraseFile F5 digestPath) (digestPath ++ ".tmp")
      (FileData.text (digestContent rs)) with hF6
    have hr7 : renameF F5 digestPath (digestPath ++ ".tmp") = .ok F6 := by
      unfold renameF
      rw [hl7, hF6]
    refine ⟨F6, ?_, ?_, ?_, ?_, ?_⟩
    · unfold commitFn
      have hcg : commitGo FS6 [] [digestPath ++ ".tmp", recordsPath ++ ".tmp",
          manifestPath ++ ".tmp", digestPath ++ ".tmp"] = .error F6 := by
        simp only [commitGo, stripTmp_append, hr1, hr2, hr3, hr4, hr5, hr6, hr7, unrename,
          List.reverse_cons, List.reverse_nil, List.nil_append, List.cons_append,
          List.append_nil]
      rw [hcg]
    · intro q h1 h2 h3 h4 h5 h6
      rw [hF6, lookupF_setFile, if_neg h3, lookupF_eraseFile, if_neg h6,
          hF5, lookupF_setFile, if_neg h1, lookupF_eraseFile, if_neg h4,
          hF4, lookupF_setFile, if_neg h2, lookupF_eraseFile, if_neg h5,
          hF3, lookupF_setFile, if_neg h5, lookupF_eraseFile, if_neg h2,
          hF2, lookupF_setFile, if_neg h4, lookupF_eraseFile, if_neg h1,
          hF1, lookupF_setFile, if_neg h6, lookupF_eraseFile, if_neg h3]
    · left
      rw [hF6, lookupF_setFile, if_neg (by decide), lookupF_eraseFile, if_neg (by decide),
          hF5, lookupF_setFile, if_neg (by decide), lookupF_eraseFile, if_pos rfl]
    · left
      rw [hF6, lookupF_setFile, if_neg (by decide), lookupF_eraseFile, if_neg (by decide),
          hF5, lookupF_setFile, if_neg (by decide), lookupF_eraseFile, if_neg (by decide),
          hF4, lookupF_setFile, if_neg (by decide), lookupF_eraseFile, if_pos rfl]
    · left
      rw [hF6, lookupF_setFile, if_neg (by decide), lookupF_eraseFile, if_pos rfl]

/-! ### Success-path helpers for `execute` -/

theorem parseIntentE_ok_noncreate (fs : Store) (today : String) (i parsed : Intent)
    (ha : (i.action == "create") = false)
    (h : parseIntentE fs today i = .ok parsed) : parsed = i := by
  unfold parseIntentE at h
  split at h
  · exact Except.noConfusion h
  · rw [ha] at h
    simp only [Bool.false_eq_true, if_false] at h
    injection h with h2
    exact h2.symm

theorem writeDocumentTmp_none (fs : Store) (parsed : Intent)
    (ha : ((parsed.action == "create") || (parsed.action == "update")) = false) :
    writeDocumentTmp fs parsed = (fs, []) := by
  unfold writeDocumentTmp
  rw [ha]
  simp

theorem writeDocumentTmp_some (fs : Store) (parsed : Intent)
    (ha : ((parsed.action == "create") || (parsed.action == "update")) = true)
    (c s : String) (hc : parsed.content = some c)
    (hs : truthyStrOpt parsed.sourceRef = some s) :
    writeDocumentTmp fs parsed =
      (setFile fs (s ++ ".tmp") (FileData.text c), [s ++ ".tmp"]) := by
  unfold writeDocumentTmp
  rw [if_pos ha, hc, hs]

theorem updateRecordsTmp_update_eq (fs : Store) (parsed : Intent) (now : String)
    (records : List Record) (idx : Nat) (r0 : Record)
    (ha : parsed.action = "update")
    (hr : lookupF fs recordsPath = some (.recs records))
    (hidx : records.findIdx? (fun r => r.recordId == parsed.recordId.getD "") = some idx)
    (hget : records[idx]? = some r0) :
    updateRecordsTmp fs parsed now = .ok
      (setFile fs (recordsPath ++ ".tmp")
        (.recs (records.set idx (applyUpdateMutation r0 parsed.record parsed.content now))),
       recordsPath ++ ".tmp") := by
  have hjs : readJsonlE fs recordsPath = .ok records := by
    unfold readJsonlE
    rw [hr]
  have ha1 : (parsed.action == "create") = false := by
    rw [ha]
    rfl
  have ha2 : (parsed.action == "update") = true := by
    rw [ha]
    rfl
  unfold updateRecordsTmp
  rw [hjs]
  simp only [ha1, ha2, Bool.false_eq_true, if_false, eq_self_iff_true, if_true,
    hidx, hget]

theorem updateRecordsTmp_delete_eq (fs : Store) (parsed : Intent) (now : String)
    (records : List Record) (idx : Nat)
    (ha : parsed.action = "delete")
    (hr : lookupF fs recordsPath = some (.recs records))
    (hidx : records.findIdx? (fun r => r.recordId == parsed.recordId.getD "") = some idx) :
    updateRecordsTmp fs parsed now = .ok
      (setFile fs (recordsPath ++ ".tmp") (.recs (records.eraseIdx idx)),
       recordsPath ++ ".tmp") := by
  have hjs : readJsonlE fs recordsPath = .ok records := by
    unfold readJsonlE
    rw [hr]
  have ha1 : (parsed.action == "create") = false := by
    rw [ha]
    rfl
  have ha2 : (parsed.action == "update") = false := by
    rw [ha]
    rfl
  have ha3 : (parsed.action == "deprecate") = false := by
    rw [ha]
    rfl
  have ha4 : (parsed.action == "delete") = true := by
    rw [ha]
    rfl
  unfold updateRecordsTmp
  rw [hjs]
  simp only [ha1, ha2, ha3, ha4, Bool.false_eq_true, if_false, eq_self_iff_true, if_true,
    hidx]

theorem safeReadManifest_congr (fs gs : Store) (p : String)
    (h : lookupF fs p = lookupF gs p) :
    safeReadManifest fs p = safeReadManifest gs p := by
  unfold safeReadManifest
  rw [h]

theorem updateManifestTmp_nosrc (fs : Store) (parsed : Intent) (now : String)
    (hs : truthyStrOpt parsed.sourceRef = none) :
    updateManifestTmp fs parsed now =
      (setFile fs (manifestPath ++ ".tmp") (FileData.manifest
        { version := ((safeReadManifest fs manifestPath).getD
            { version := "1.0", files := [] }).version,
          updatedAt := now,
          summary := computeSummary ((safeReadManifest fs manifestPath).getD
            { version := "1.0", files := [] }).files,
          files := ((safeReadManifest fs manifestPath).getD
            { version := "1.0", files := [] }).files }),
       manifestPath ++ ".tmp") := by
  unfold updateManifestTmp
  rw [hs]

theorem updateManifestTmp_update_eq (fs : Store) (parsed : Intent) (now s : String)
    (ha : parsed.action = "update")
    (hs : truthyStrOpt parsed.sourceRef = some s) :
    updateManifestTmp fs parsed now =
      (setFile fs (manifestPath ++ ".tmp") (FileData.manifest
        { version := ((safeReadManifest fs manifestPath).getD
            { version := "1.0", files := [] }).version,
          updatedAt := now,
          summary := computeSummary (updateManifestEntry fs s now
            ((safeReadManifest fs manifestPath).getD
              { version := "1.0", files := [] }).files),
          files := updateManifestEntry fs s now
            ((safeReadManifest fs manifestPath).getD
              { version := "1.0", files := [] }).files }),
       manifestPath ++ ".tmp") := by
  have ha1 : (parsed.action == "create") = false := by
    rw [ha]
    rfl
  have ha2 : (parsed.action == "update") = true := by
    rw [ha]
    rfl
  unfold updateManifestTmp
  rw [hs]
  simp only [ha1, ha2, Bool.false_eq_true, if_false, eq_self_iff_true, if_true]

theorem updateManifestEntry_find (fs : Store) (s now : String)
    (hex : existsF fs (s ++ ".tmp") = true) :
    ∀ (files : List ManifestEntry) (e0 : ManifestEntry),
      files.find? (fun e => e.path == s) = some e0 →
      (updateManifestEntry fs s now files).find? (fun e => e.path == s) =
        some { e0 with hash := calculateHash fs (s ++ ".tmp"),
                       size := fileSize fs (s ++ ".tmp"), updatedAt := now } := by
  intro files
  induction files with
  | nil =>
    intro e0 h
    exact Option.noConfusion h
  | cons e rest ih =>
    intro e0 h
    rw [List.find?_cons] at h
    unfold updateManifestEntry
    cases hp : (e.path == s) with
    | true =>
      rw [hp] at h
      have h0 : e0 = e := (Option.some.inj h).symm
      subst h0
      simp only [hex, eq_self_iff_true, if_true, List.find?_cons]
      simp [hp]
    | false =>
      rw [hp] at h
      simp only [Bool.false_eq_true, if_false] at h ⊢
      simp only [List.find?_cons, hp]
      exact ih e0 h

theorem applyUpdateMutation_none (r : Record) (c now : String) (hc : c ≠ "") :
    applyUpdateMutation r none (some c) now =
      { r with contentHash := sha256str c, updatedAt := now } := by
  unfold applyUpdateMutation
  have hb : (c != "") = true := by
    simp [hc]
  simp [hb]

/-- Explicit success commit of the three index tmps (no document tmp). -/
theorem commit_three (base : Store) (rs : List Record) (M : Manifest)
    (baks : List (String × String)) :
    ∃ fsC, commitFn (setFile (setFile (setFile base
        (recordsPath ++ ".tmp") (FileData.recs rs))
        (manifestPath ++ ".tmp") (FileData.manifest M))
        (digestPath ++ ".tmp") (FileData.text (digestContent rs))) baks
        [recordsPath ++ ".tmp", manifestPath ++ ".tmp", digestPath ++ ".tmp"] =
        .ok (baks.foldl (fun f pr => eraseFile f pr.2) fsC) ∧
      lookupF fsC recordsPath = some (FileData.recs rs) ∧
      lookupF fsC manifestPath = some (FileData.manifest M) ∧
      lookupF fsC digestPath = some (FileData.text (digestContent rs)) ∧
      (∀ q, q ≠ recordsPath → q ≠ manifestPath → q ≠ digestPath →
        q ≠ recordsPath ++ ".tmp" → q ≠ manifestPath ++ ".tmp" →
        q ≠ digestPath ++ ".tmp" → lookupF fsC q = lookupF base q) := by
  set FS6 := setFile (setFile (setFile base
    (recordsPath ++ ".tmp") (FileData.recs rs))
    (manifestPath ++ ".tmp") (FileData.manifest M))
    (digestPath ++ ".tmp") (FileData.text (digestContent rs)) with hFS6
  have hl1 : lookupF FS6 (recordsPath ++ ".tmp") = some (FileData.recs rs) := by
    rw [hFS6, lookupF_setFile, if_neg (by decide), lookupF_setFile, if_neg (by decide),
        lookupF_setFile, if_pos rfl]
  set F1 := setFile (eraseFile FS6 (recordsPath ++ ".tmp")) recordsPath
    (FileData.recs rs) with hF1
  have hr1 : renameF FS6 (recordsPath ++ ".tmp") recordsPath = .ok F1 := by
    unfold renameF
    rw [hl1, hF1]
  have hl2 : lookupF F1 (manifestPath ++ ".tmp") = some (FileData.manifest M) := by
    rw [hF1, lookupF_setFile, if_neg (by decide), lookupF_eraseFile, if_neg (by decide),
        hFS6, lookupF_setFile, if_neg (by decide), lookupF_setFile, if_pos rfl]
  set F2 := setFile (eraseFile F1 (manifestPath ++ ".tmp")) manifestPath
    (FileData.manifest M) with hF2
  have hr2 : renameF F1 (manifestPath ++ ".tmp") manifestPath = .ok F2 := by
    unfold renameF
    rw [hl2, hF2]
  have hl3 : lookupF F2 (digestPath ++ ".tmp") = some (FileData.text (digestContent rs)) := by
    rw [hF2, lookupF_setFile, if_neg (by decide), lookupF_eraseFile, if_neg (by decide),
        hF1, lookupF_setFile, if_neg (by decide), lookupF_eraseFile, if_neg (by decide),
        hFS6, lookupF_setFile, if_pos rfl]
  set F3 := setFile (eraseFile F2 (digestPath ++ ".tmp")) digestPath
    (FileData.text (digestContent rs)) with hF3
  have hr3 : renameF F2 (digestPath ++ ".tmp") digestPath = .ok F3 := by
    unfold renameF
    rw [hl3, hF3]
  refine ⟨F3, ?_, ?_, ?_, ?_, ?_⟩
  · unfold commitFn
    have hcg : commitGo FS6 [] [recordsPath ++ ".tmp", manifestPath ++ ".tmp",
        digestPath ++ ".tmp"] = .ok F3 := by
      simp only [commitGo, stripTmp_append, hr1, hr2, hr3]
    rw [hcg]
  · rw [hF3, lookupF_setFile, if_neg (by decide), lookupF_eraseFile, if_neg (by decide),
        hF2, lookupF_setFile, if_neg (by decide), lookupF_eraseFile, if_neg (by decide),
        hF1, lookupF_setFile, if_pos rfl]
  · rw [hF3, lookupF_setFile, if_neg (by decide), lookupF_eraseFile, if_neg (by decide),
        hF2, lookupF_setFile, if_pos rfl]
  · rw [hF3, lookupF_setFile, if_pos rfl]
  · intro q h1 h2 h3 h4 h5 h6
    rw [hF3, lookupF_setFile, if_neg h3, lookupF_eraseFile, if_neg h6,
        hF2, lookupF_setFile, if_neg h2, lookupF_eraseFile, if_neg h5,
        hF1, lookupF_setFile, if_neg h1, lookupF_eraseFile, if_neg h4,
        hFS6, lookupF_setFile, if_neg h6, lookupF_setFile, if_neg h5,
        lookupF_setFile, if_neg h4]

/-- Explicit success commit of the document tmp plus the three index tmps;
requires the sourceRef to avoid the four rename targets and sources. -/
theorem commit_four (base : Store) (c s : String) (rs : List Record) (M : Manifest)
    (baks : List (String × String))
    (hsr : s ≠ recordsPath) (hsm : s ≠ manifestPath) (hsd : s ≠ digestPath)
    (ht1 : s ≠ recordsPath ++ ".tmp") (ht2 : s ≠ manifestPath ++ ".tmp")
    (ht3 : s ≠ digestPath ++ ".tmp") :
    ∃ fsC, commitFn (setFile (setFile (setFile (setFile base
        (s ++ ".tmp") (FileData.text c))
        (recordsPath ++ ".tmp") (FileData.recs rs))
        (manifestPath ++ ".tmp") (FileData.manifest M))
        (digestPath ++ ".tmp") (FileData.text (digestContent rs))) baks
        [s ++ ".tmp", recordsPath ++ ".tmp", manifestPath ++ ".tmp",
         digestPath ++ ".tmp"] =
        .ok (baks.foldl (fun f pr => eraseFile f pr.2) fsC) ∧
      lookupF fsC s = some (FileData.text c) ∧
      lookupF fsC recordsPath = some (FileData.recs rs) ∧
      lookupF fsC manifestPath = some (FileData.manifest M) ∧
      lookupF fsC digestPath = some (FileData.text (digestContent rs)) ∧
      (∀ q, q ≠ s → q ≠ recordsPath → q ≠ manifestPath → q ≠ digestPath →
        q ≠ s ++ ".tmp" → q ≠ recordsPath ++ ".tmp" → q ≠ manifestPath ++ ".tmp" →
        q ≠ digestPath ++ ".tmp" → lookupF fsC q = lookupF base q) := by
  have hst1 : s ++ ".tmp" ≠ recordsPath ++ ".tmp" :=
    fun h => hsr (append_suffix_inj _ _ _ h)
  have hst2 : s ++ ".tmp" ≠ manifestPath ++ ".tmp" :=
    fun h => hsm (append_suffix_inj _ _ _ h)
  have hst3 : s ++ ".tmp" ≠ digestPath ++ ".tmp" :=
    fun h => hsd (append_suffix_inj _ _ _ h)
  have hsts : s ≠ s ++ ".tmp" := append_suffix_ne_self s ".tmp" (by decide)
  set FS6 := setFile (setFile (setFile (setFile base
    (s ++ ".tmp") (FileData.text c))
    (recordsPath ++ ".tmp") (FileData.recs rs))
    (manifestPath ++ ".tmp") (FileData.manifest M))
    (digestPath ++ ".tmp") (FileData.text (digestContent rs)) with hFS6
  have hl1 : lookupF FS6 (s ++ ".tmp") = some (FileData.text c) := by
    rw [hFS6, lookupF_setFile, if_neg hst3, lookupF_setFile, if_neg hst2,
        lookupF_setFile, if_neg hst1, lookupF_setFile, if_pos rfl]
  set F1 := setFile (eraseFile FS6 (s ++ ".tmp")) s (FileData.text c) with hF1
  have hr1 : renameF FS6 (s ++ ".tmp") s = .ok F1 := by
    unfold renameF
    rw [hl1, hF1]
  have hl2 : lookupF F1 (recordsPath ++ ".tmp") = some (FileData.recs rs) := by
    rw [hF1, lookupF_setFile, if_neg (Ne.symm ht1), lookupF_eraseFile,
        if_neg (Ne.symm hst1),
        hFS6, lookupF_setFile, if_neg (by decide), lookupF_setFile, if_neg (by decide),
        lookupF_setFile, if_pos rfl]
  set F2 := setFile (eraseFile F1 (recordsPath ++ ".tmp")) recordsPath
    (FileData.recs rs) with hF2
  have hr2 : renameF F1 (recordsPath ++ ".tmp") recordsPath = .ok F2 := by
    unfold renameF
    rw [hl2, hF2]
  have hl3 : lookupF F2 (manifestPath ++ ".tmp") = some (FileData.manifest M) := by
    rw [hF2, lookupF_setFile, if_neg (by decide), lookupF_eraseFile, if_neg (by decide),
        hF1, lookupF_setFile, if_neg (Ne.symm ht2), lookupF_eraseFile,
        if_neg (Ne.symm hst2),
        hFS6, lookupF_setFile, if_neg (by decide), lookupF_setFile, if_pos rfl]
  set F3 := setFile (eraseFile F2 (manifestPath ++ ".tmp")) manifestPath
    (FileData.manifest M) with hF3
  have hr3 : renameF F2 (manifestPath ++ ".tmp") manifestPath = .ok F3 := by
    unfold renameF
    rw [hl3, hF3]
  have hl4 : lookupF F3 (digestPath ++ ".tmp") =
      some (FileData.text (digestContent rs)) := by
    rw [hF3, lookupF_setFile, if_neg (by decide), lookupF_eraseFile, if_neg (by decide),
        hF2, lookupF_setFile, if_neg (by decide), lookupF_eraseFile, if_neg (by decide),
        hF1, lookupF_setFile, if_neg (Ne.symm ht3), lookupF_eraseFile,
        if_neg (Ne.symm hst3),
        hFS6, lookupF_setFile, if_pos rfl]
  set F4 := setFile (eraseFile F3 (digestPath ++ ".tmp")) digestPath
    (FileData.text (digestContent rs)) with hF4
  have hr4 : renameF F3 (digestPath ++ ".tmp") digestPath = .ok F4 := by
    unfold renameF
    rw [hl4, hF4]
  refine ⟨F4, ?_, ?_, ?_, ?_, ?_, ?_⟩
  · unfold commitFn
    have hcg : commitGo FS6 [] [s ++ ".tmp", recordsPath ++ ".tmp",
        manifestPath ++ ".tmp", digestPath ++ ".tmp"] = .ok F4 := by
      simp only [commitGo, stripTmp_append, hr1, hr2, hr3, hr4]
    rw [hcg]
  · rw [hF4, lookupF_setFile, if_neg hsd, lookupF_eraseFile, if_neg ht3,
        hF3, lookupF_setFile, if_neg hsm, lookupF_eraseFile, if_neg ht2,
        hF2, lookupF_setFile, if_neg hsr, lookupF_eraseFile, if_neg ht1,
        hF1, lookupF_setFile, if_pos rfl]
  · rw [hF4, lookupF_setFile, if_neg (by decide), lookupF_eraseFile, if_neg (by decide),
        hF3, lookupF_setFile, if_neg (by decide), lookupF_eraseFile, if_neg (by decide),
        hF2, lookupF_setFile, if_pos rfl]
  · rw [hF4, lookupF_setFile, if_neg (by decide), lookupF_eraseFile, if_neg (by decide),
        hF3, lookupF_setFile, if_pos rfl]
  · rw [hF4, lookupF_setFile, if_pos rfl]
  · intro q h0 h1 h2 h3 ht0 hq1 hq2 hq3
    rw [hF4, lookupF_setFile, if_neg h3, lookupF_eraseFile, if_neg hq3,
        hF3, lookupF_setFile, if_neg h2, lookupF_eraseFile, if_neg hq2,
        hF2, lookupF_setFile, if_neg h1, lookupF_eraseFile, if_neg hq1,
        hF1, lookupF_setFile, if_neg h0, lookupF_eraseFile, if_neg ht0,
        hFS6, lookupF_setFile, if_neg hq3, lookupF_setFile, if_neg hq2,
        lookupF_setFile, if_neg hq1, lookupF_setFile, if_neg ht0]

/-! ### Claim C1 -/

/-- C1 (amended): for every intent whose BWT execution returns
`success = false`, provided the intent's truthy sourceRef is not one of the
three artifact backup paths, the rollback leaves the committed lookups of
records.jsonl, manifest.json, records_digest.txt and the target document
identical to their pre-transaction values. -/
theorem c1_failure_preserves_store (fs : Store) (today now : String) (i : Intent)
    (hf : (execute fs today now i).1.success = false)
    (hcol : ∀ s, truthyStrOpt i.sourceRef = some s → ¬ s ∈ artifactBakPaths) :
    lookupF (execute fs today now i).2 recordsPath = lookupF fs recordsPath ∧
    lookupF (execute fs today now i).2 manifestPath = lookupF fs manifestPath ∧
    lookupF (execute fs today now i).2 digestPath = lookupF fs digestPath ∧
    ∀ s, truthyStrOpt i.sourceRef = some s →
      lookupF (execute fs today now i).2 s = lookupF fs s := by
  rcases Bool.eq_false_or_eq_true (checkResidualTmp fs) with hres | hres
  case inl =>
    have he : execute fs today now i = (⟨false, none, some 0⟩, rollbackFn fs [] []) := by
      unfold execute
      rw [if_pos hres]
    rw [he]
    exact ⟨rfl, rfl, rfl, fun s _ => rfl⟩
  cases hpar : parseIntentE fs today i with
  | error st =>
    have he : execute fs today now i = (⟨false, none, some st⟩, rollbackFn fs [] []) := by
      simp only [execute, hres, Bool.false_eq_true, if_false, hpar]
    rw [he]
    exact ⟨rfl, rfl, rfl, fun s _ => rfl⟩
  | ok parsed =>
    obtain ⟨hpA, hpS, hpC, hpR⟩ := parseIntentE_ok_fields fs today i parsed hpar
    have hcol' : ∀ s, truthyStrOpt parsed.sourceRef = some s → ¬ s ∈ artifactBakPaths := by
      rw [hpS]
      exact hcol
    have hdisj := hdisj_of_col fs parsed hcol'
    obtain ⟨hB1, hB2, hB3⟩ := createBackups_spec fs parsed hdisj
    have hfs2 : ∀ q, lookupF (ensureFoldersStep (createBackups fs parsed).1 parsed) q =
        lookupF (createBackups fs parsed).1 q :=
      fun q => lookupF_files_eq _ _ (ensureFolders_files _ _) q
    rcases writeDocumentTmp_shape (ensureFoldersStep (createBackups fs parsed).1 parsed)
        parsed with hwd | ⟨c, s, hc, hs, hwd⟩
    · -- no staged document tmp
      cases hur : updateRecordsTmp (ensureFoldersStep (createBackups fs parsed).1 parsed)
          parsed now with
      | error st =>
        have he : execute fs today now i = (⟨false, none, some st⟩,
            rollbackFn (ensureFoldersStep (createBackups fs parsed).1 parsed)
              (createBackups fs parsed).2 []) := by
          simp only [execute, hres, Bool.false_eq_true, if_false, hpar, hwd, hur]
        rw [he]
        have hget : ∀ q, (q = recordsPath ∨ q = manifestPath ∨ q = digestPath ∨
            truthyStrOpt parsed.sourceRef = some q) →
            lookupF (rollbackFn (ensureFoldersStep (createBackups fs parsed).1 parsed)
              (createBackups fs parsed).2 []) q = lookupF fs q := by
          intro q hq
          have h2 := nobak_of fs parsed hcol' q hq
          exact rollback_master fs _ parsed [] q hdisj (by simp)
            (hB_of_frame fs _ parsed hdisj (fun x => hfs2 (x ++ ".bak")))
            h2
            (Or.inr (Or.inr ⟨List.not_mem_nil q, by rw [hfs2]; exact hB1 q h2⟩))
        refine ⟨hget recordsPath (Or.inl rfl), hget manifestPath (Or.inr (Or.inl rfl)),
               hget digestPath (Or.inr (Or.inr (Or.inl rfl))), ?_⟩
        intro s hsi
        exact hget s (Or.inr (Or.inr (Or.inr (by rw [hpS]; exact hsi))))
      | ok out =>
        obtain ⟨rs, hout⟩ := updateRecordsTmp_ok_shape _ parsed now out hur
        subst hout
        obtain ⟨M, hM⟩ := updateManifestTmp_shape
          (setFile (ensureFoldersStep (createBackups fs parsed).1 parsed)
            (recordsPath ++ ".tmp") (FileData.recs rs)) parsed now
        have hdig := updateDigestTmp_of_recs
          (setFile (setFile (ensureFoldersStep (createBackups fs parsed).1 parsed)
              (recordsPath ++ ".tmp") (FileData.recs rs))
            (manifestPath ++ ".tmp") (FileData.manifest M)) rs
          (by rw [lookupF_setFile, if_neg (by decide), lookupF_setFile, if_pos rfl])
        rcases Or.symm (Bool.eq_false_or_eq_true
            (validate (setFile (setFile (setFile
              (ensureFoldersStep (createBackups fs parsed).1 parsed)
              (recordsPath ++ ".tmp") (FileData.recs rs))
              (manifestPath ++ ".tmp") (FileData.manifest M))
              (digestPath ++ ".tmp")
              (FileData.text (digestContent rs))) true false).passed) with hval | hval
        · -- validation failed: step-8 rollback
          have he : execute fs today now i = (⟨false, none, some 8⟩,
              rollbackFn (setFile (setFile (setFile
                (ensureFoldersStep (createBackups fs parsed).1 parsed)
                (recordsPath ++ ".tmp") (FileData.recs rs))
                (manifestPath ++ ".tmp") (FileData.manifest M))
                (digestPath ++ ".tmp") (FileData.text (digestContent rs)))
                (createBackups fs parsed).2
                [recordsPath ++ ".tmp", manifestPath ++ ".tmp", digestPath ++ ".tmp"]) := by
            simp only [execute, hres, Bool.false_eq_true, if_false, hpar, hwd, hur, hM,
              hdig, hval, Bool.not_false, eq_self_iff_true, if_true,
              List.nil_append, List.cons_append]
          rw [he]
          have hget : ∀ q, (q = recordsPath ∨ q = manifestPath ∨ q = digestPath ∨
              truthyStrOpt parsed.sourceRef = some q) →
              lookupF (rollbackFn (setFile (setFile (setFile
                (ensureFoldersStep (createBackups fs parsed).1 parsed)
                (recordsPath ++ ".tmp") (FileData.recs rs))
                (manifestPath ++ ".tmp") (FileData.manifest M))
                (digestPath ++ ".tmp") (FileData.text (digestContent rs)))
                (createBackups fs parsed).2
                [recordsPath ++ ".tmp", manifestPath ++ ".tmp", digestPath ++ ".tmp"]) q
                = lookupF fs q := by
            intro q hq
            have h2 := nobak_of fs parsed hcol' q hq
            apply rollback_master fs _ parsed _ q hdisj
            · intro t ht
              simp only [List.mem_cons, List.not_mem_nil, or_false] at ht
              rcases ht with h | h | h
              · exact ⟨recordsPath, h⟩
              · exact ⟨manifestPath, h⟩
              · exact ⟨digestPath, h⟩
            · apply hB_of_frame fs _ parsed hdisj
              intro x
              rw [lookupF_setFile, if_neg (bak_ne_tmp x digestPath),
                  lookupF_setFile, if_neg (bak_ne_tmp x manifestPath),
                  lookupF_setFile, if_neg (bak_ne_tmp x recordsPath),
                  hfs2]
            · exact h2
            · -- the three artifacts and the document are untouched or unlinked
              rcases hq with h | h | h | h
              · subst h
                refine Or.inr (Or.inr ⟨?_, ?_⟩)
                · simp only [List.mem_cons, List.not_mem_nil, or_false]
                  push_neg
                  exact ⟨by decide, by decide, by decide⟩
                · rw [lookupF_setFile, if_neg (by decide),
                      lookupF_setFile, if_neg (by decide),
                      lookupF_setFile, if_neg (by decide), hfs2]
                  exact hB1 _ h2
              · subst h
                refine Or.inr (Or.inr ⟨?_, ?_⟩)
                · simp only [List.mem_cons, List.not_mem_nil, or_false]
                  push_neg
                  exact ⟨by decide, by decide, by decide⟩
                · rw [lookupF_setFile, if_neg (by decide),
                      lookupF_setFile, if_neg (by decide),
                      lookupF_setFile, if_neg (by decide), hfs2]
                  exact hB1 _ h2
              · subst h
                refine Or.inr (Or.inr ⟨?_, ?_⟩)
                · simp only [List.mem_cons, List.not_mem_nil, or_false]
                  push_neg
                  exact ⟨by decide, by decide, by decide⟩
                · rw [lookupF_setFile, if_neg (by decide),
                      lookupF_setFile, if_neg (by decide),
                      lookupF_setFile, if_neg (by decide), hfs2]
                  exact hB1 _ h2
              · -- q is the truthy sourceRef
                by_cases hq1 : q = recordsPath ++ ".tmp"
                · subst hq1
                  exact Or.inr (Or.inl ⟨by simp,
                    residual_false_lookup fs hres _ (by decide) (by decide)⟩)
                · by_cases hq2 : q = manifestPath ++ ".tmp"
                  · subst hq2
                    exact Or.inr (Or.inl ⟨by simp,
                      residual_false_lookup fs hres _ (by decide) (by decide)⟩)
                  · by_cases hq3 : q = digestPath ++ ".tmp"
                    · subst hq3
                      exact Or.inr (Or.inl ⟨by simp,
                        residual_false_lookup fs hres _ (by decide) (by decide)⟩)
                    · refine Or.inr (Or.inr ⟨?_, ?_⟩)
                      · simp only [List.mem_cons, List.not_mem_nil, or_false]
                        push_neg
                        exact ⟨hq1, hq2, hq3⟩
                      · rw [lookupF_setFile, if_neg hq3, lookupF_setFile, if_neg hq2,
                            lookupF_setFile, if_neg hq1, hfs2]
                        exact hB1 _ h2
          refine ⟨hget recordsPath (Or.inl rfl), hget manifestPath (Or.inr (Or.inl rfl)),
                 hget digestPath (Or.inr (Or.inr (Or.inl rfl))), ?_⟩
          intro s hsi
          exact hget s (Or.inr (Or.inr (Or.inr (by rw [hpS]; exact hsi))))
        · -- validation passed: the three distinct tmps always commit
          obtain ⟨fsC, hC⟩ := commitGo_ok
            [recordsPath ++ ".tmp", manifestPath ++ ".tmp", digestPath ++ ".tmp"]
            (setFile (setFile (setFile
              (ensureFoldersStep (createBackups fs parsed).1 parsed)
              (recordsPath ++ ".tmp") (FileData.recs rs))
              (manifestPath ++ ".tmp") (FileData.manifest M))
              (digestPath ++ ".tmp") (FileData.text (digestContent rs))) []
            (by decide)
            (by
              intro t ht
              simp only [List.mem_cons, List.not_mem_nil, or_false] at ht
              rcases ht with h | h | h <;> subst h
              · rw [lookupF_setFile, if_neg (by decide), lookupF_setFile,
                    if_neg (by decide), lookupF_setFile, if_pos rfl]
                exact fun hcon => Option.noConfusion hcon
              · rw [lookupF_setFile, if_neg (by decide), lookupF_setFile, if_pos rfl]
                exact fun hcon => Option.noConfusion hcon
              · rw [lookupF_setFile, if_pos rfl]
                exact fun hcon => Option.noConfusion hcon)
          have hcommit : commitFn (setFile (setFile (setFile
              (ensureFoldersStep (createBackups fs parsed).1 parsed)
              (recordsPath ++ ".tmp") (FileData.recs rs))
              (manifestPath ++ ".tmp") (FileData.manifest M))
              (digestPath ++ ".tmp") (FileData.text (digestContent rs)))
              (createBackups fs parsed).2
              [recordsPath ++ ".tmp", manifestPath ++ ".tmp", digestPath ++ ".tmp"] =
              .ok ((createBackups fs parsed).2.foldl (fun f pr => eraseFile f pr.2) fsC) := by
            unfold commitFn
            rw [hC]
          have he : (execute fs today now i).1.success = true := by
            simp only [execute, hres, Bool.false_eq_true, if_false, hpar, hwd, hur, hM,
              hdig, hval, Bool.not_true, eq_self_iff_true, if_true, if_false,
              List.nil_append, List.cons_append, hcommit]
          rw [he] at hf
          exact absurd hf (by decide)
    · -- a document tmp was staged at s ++ ".tmp"
      cases hur : updateRecordsTmp (setFile (ensureFoldersStep (createBackups fs parsed).1
          parsed) (s ++ ".tmp") (FileData.text c)) parsed now with
      | error st =>
        have he : execute fs today now i = (⟨false, none, some st⟩,
            rollbackFn (setFile (ensureFoldersStep (createBackups fs parsed).1 parsed)
              (s ++ ".tmp") (FileData.text c))
              (createBackups fs parsed).2 [s ++ ".tmp"]) := by
          simp only [execute, hres, Bool.false_eq_true, if_false, hpar, hwd, hur]
        rw [he]
        have hget : ∀ q, (q = recordsPath ∨ q = manifestPath ∨ q = digestPath ∨
            truthyStrOpt parsed.sourceRef = some q) →
            lookupF (rollbackFn (setFile (ensureFoldersStep (createBackups fs parsed).1
              parsed) (s ++ ".tmp") (FileData.text c))
              (createBackups fs parsed).2 [s ++ ".tmp"]) q = lookupF fs q := by
          intro q hq
          have h2 := nobak_of fs parsed hcol' q hq
          have hqst : q ≠ s ++ ".tmp" := by
            rcases hq with h | h | h | h
            · subst h
              exact ne_getLast (by rw [getLast_tmp]; decide)
            · subst h
              exact ne_getLast (by rw [getLast_tmp]; decide)
            · subst h
              exact ne_getLast (by rw [getLast_tmp]; decide)
            · have hqs : q = s := Option.some.inj (h.symm.trans hs)
              rw [hqs]
              exact append_suffix_ne_self s ".tmp" (by decide)
          apply rollback_master fs _ parsed _ q hdisj
          · intro t ht
            simp only [List.mem_singleton] at ht
            exact ⟨s, ht⟩
          · apply hB_of_frame fs _ parsed hdisj
            intro x
            rw [lookupF_setFile, if_neg (bak_ne_tmp x s), hfs2]
          · exact h2
          · refine Or.inr (Or.inr ⟨?_, ?_⟩)
            · simp only [List.mem_singleton]
              exact hqst
            · rw [lookupF_setFile, if_neg hqst, hfs2]
              exact hB1 q h2
        refine ⟨hget recordsPath (Or.inl rfl), hget manifestPath (Or.inr (Or.inl rfl)),
               hget digestPath (Or.inr (Or.inr (Or.inl rfl))), ?_⟩
        intro s' hsi
        exact hget s' (Or.inr (Or.inr (Or.inr (by rw [hpS]; exact hsi))))
      | ok out =>
        obtain ⟨rs, hout⟩ := updateRecordsTmp_ok_shape _ parsed now out hur
        subst hout
        obtain ⟨M, hM⟩ := updateManifestTmp_shape
          (setFile (setFile (ensureFoldersStep (createBackups fs parsed).1 parsed)
            (s ++ ".tmp") (FileData.text c))
            (recordsPath ++ ".tmp") (FileData.recs rs)) parsed now
        have hdig := updateDigestTmp_of_recs
          (setFile (setFile (setFile (ensureFoldersStep (createBackups fs parsed).1 parsed)
              (s ++ ".tmp") (FileData.text c))
              (recordsPath ++ ".tmp") (FileData.recs rs))
            (manifestPath ++ ".tmp") (FileData.manifest M)) rs
          (by rw [lookupF_setFile, if_neg (by decide), lookupF_setFile, if_pos rfl])
        rcases Or.symm (Bool.eq_false_or_eq_true
            (validate (setFile (setFile (setFile (setFile
              (ensureFoldersStep (createBackups fs parsed).1 parsed)
              (s ++ ".tmp") (FileData.text c))
              (recordsPath ++ ".tmp") (FileData.recs rs))
              (manifestPath ++ ".tmp") (FileData.manifest M))
              (digestPath ++ ".tmp")
              (FileData.text (digestContent rs))) true false).passed) with hval | hval
        · -- validation failed: step-8 rollback
          have he : execute fs today now i = (⟨false, none, some 8⟩,
              rollbackFn (setFile (setFile (setFile (setFile
                (ensureFoldersStep (createBackups fs parsed).1 parsed)
                (s ++ ".tmp") (FileData.text c))
                (recordsPath ++ ".tmp") (FileData.recs rs))
                (manifestPath ++ ".tmp") (FileData.manifest M))
                (digestPath ++ ".tmp") (FileData.text (digestContent rs)))
                (createBackups fs parsed).2
                [s ++ ".tmp", recordsPath ++ ".tmp", manifestPath ++ ".tmp",
                 digestPath ++ ".tmp"]) := by
            simp only [execute, hres, Bool.false_eq_true, if_false, hpar, hwd, hur, hM,
              hdig, hval, Bool.not_false, eq_self_iff_true, if_true,
              List.nil_append, List.cons_append]
          rw [he]
          have hget : ∀ q, (q = recordsPath ∨ q = manifestPath ∨ q = digestPath ∨
              truthyStrOpt parsed.sourceRef = some q) →
              lookupF (rollbackFn (setFile (setFile (setFile (setFile
                (ensureFoldersStep (createBackups fs parsed).1 parsed)
                (s ++ ".tmp") (FileData.text c))
                (recordsPath ++ ".tmp") (FileData.recs rs))
                (manifestPath ++ ".tmp") (FileData.manifest M))
                (digestPath ++ ".tmp") (FileData.text (digestContent rs)))
                (createBackups fs parsed).2
                [s ++ ".tmp", recordsPath ++ ".tmp", manifestPath ++ ".tmp",
                 digestPath ++ ".tmp"]) q = lookupF fs q := by
            intro q hq
            have h2 := nobak_of fs parsed hcol' q hq
            apply rollback_master fs _ parsed _ q hdisj
            · intro t ht
              simp only [List.mem_cons, List.not_mem_nil, or_false] at ht
              rcases ht with h | h | h | h
              · exact ⟨s, h⟩
              · exact ⟨recordsPath, h⟩
              · exact ⟨manifestPath, h⟩
              · exact ⟨digestPath, h⟩
            · apply hB_of_frame fs _ parsed hdisj
              intro x
              rw [lookupF_setFile, if_neg (bak_ne_tmp x digestPath),
                  lookupF_setFile, if_neg (bak_ne_tmp x manifestPath),
                  lookupF_setFile, if_neg (bak_ne_tmp x recordsPath),
                  lookupF_setFile, if_neg (bak_ne_tmp x s), hfs2]
            · exact h2
            · rcases hq with h | h | h | h
              · subst h
                refine Or.inr (Or.inr ⟨?_, ?_⟩)
                · simp only [List.mem_cons, List.not_mem_nil, or_false]
                  push_neg
                  exact ⟨ne_getLast (by rw [getLast_tmp]; decide), by decide, by decide,
                         by decide⟩
                · rw [lookupF_setFile, if_neg (by decide), lookupF_setFile,
                      if_neg (by decide), lookupF_setFile, if_neg (by decide),
                      lookupF_setFile, if_neg (ne_getLast (by rw [getLast_tmp]; decide)),
                      hfs2]
                  exact hB1 _ h2
              · subst h
                refine Or.inr (Or.inr ⟨?_, ?_⟩)
                · simp only [List.mem_cons, List.not_mem_nil, or_false]
                  push_neg
                  exact ⟨ne_getLast (by rw [getLast_tmp]; decide), by decide, by decide,
                         by decide⟩
                · rw [lookupF_setFile, if_neg (by decide), lookupF_setFile,
                      if_neg (by decide), lookupF_setFile, if_neg (by decide),
                      lookupF_setFile, if_neg (ne_getLast (by rw [getLast_tmp]; decide)),
                      hfs2]
                  exact hB1 _ h2
              · subst h
                refine Or.inr (Or.inr ⟨?_, ?_⟩)
                · simp only [List.mem_cons, List.not_mem_nil, or_false]
                  push_neg
                  exact ⟨ne_getLast (by rw [getLast_tmp]; decide), by decide, by decide,
                         by decide⟩
                · rw [lookupF_setFile, if_neg (by decide), lookupF_setFile,
                      if_neg (by decide), lookupF_setFile, if_neg (by decide),
                      lookupF_setFile, if_neg (ne_getLast (by rw [getLast_tmp]; decide)),
                      hfs2]
                  exact hB1 _ h2
              · have hqs : q = s := Option.some.inj (h.symm.trans hs)
                subst hqs
                by_cases hq1 : q = recordsPath ++ ".tmp"
                · subst hq1
                  exact Or.inr (Or.inl ⟨by simp,
                    residual_false_lookup fs hres _ (by decide) (by decide)⟩)
                · by_cases hq2 : q = manifestPath ++ ".tmp"
                  · subst hq2
                    exact Or.inr (Or.inl ⟨by simp,
                      residual_false_lookup fs hres _ (by decide) (by decide)⟩)
                  · by_cases hq3 : q = digestPath ++ ".tmp"
                    · subst hq3
                      exact Or.inr (Or.inl ⟨by simp,
                        residual_false_lookup fs hres _ (by decide) (by decide)⟩)
                    · refine Or.inr (Or.inr ⟨?_, ?_⟩)
                      · simp only [List.mem_cons, List.not_mem_nil, or_false]
                        push_neg
                        exact ⟨append_suffix_ne_self q ".tmp" (by decide), hq1, hq2, hq3⟩
                      · rw [lookupF_setFile, if_neg hq3, lookupF_setFile, if_neg hq2,
                            lookupF_setFile, if_neg hq1, lookupF_setFile,
                            if_neg (append_suffix_ne_self q ".tmp" (by decide)), hfs2]
                        exact hB1 _ h2
          refine ⟨hget recordsPath (Or.inl rfl), hget manifestPath (Or.inr (Or.inl rfl)),
                 hget digestPath (Or.inr (Or.inr (Or.inl rfl))), ?_⟩
          intro s' hsi
          exact hget s' (Or.inr (Or.inr (Or.inr (by rw [hpS]; exact hsi))))
        · -- validation passed: the commit hits the duplicate tmp or succeeds
          by_cases hsr : s = recordsPath
          · subst hsr
            obtain ⟨fsE, hcom, hfr, hRr, hRm, hRd⟩ := commit_dup_error
              (ensureFoldersStep (createBackups fs parsed).1 parsed) c rs M
              (createBackups fs parsed).2 recordsPath (Or.inl rfl)
            have he : execute fs today now i = (⟨false, none, some 9⟩,
                rollbackFn fsE (createBackups fs parsed).2
                  [recordsPath ++ ".tmp", recordsPath ++ ".tmp", manifestPath ++ ".tmp",
                   digestPath ++ ".tmp"]) := by
              simp only [execute, hres, Bool.false_eq_true, if_false, hpar, hwd, hur, hM,
                hdig, hval, Bool.not_true, eq_self_iff_true, if_true, if_false,
                List.nil_append, List.cons_append, hcom]
            rw [he]
            have hart : ∀ q, q = recordsPath ∨ q = manifestPath ∨ q = digestPath →
                lookupF (rollbackFn fsE (createBackups fs parsed).2
                  [recordsPath ++ ".tmp", recordsPath ++ ".tmp", manifestPath ++ ".tmp",
                   digestPath ++ ".tmp"]) q = lookupF fs q := by
              intro q hq3
              have hq4 : q = recordsPath ∨ q = manifestPath ∨ q = digestPath ∨
                  truthyStrOpt parsed.sourceRef = some q := by
                rcases hq3 with h | h | h
                · exact Or.inl h
                · exact Or.inr (Or.inl h)
                · exact Or.inr (Or.inr (Or.inl h))
              have h2 := nobak_of fs parsed hcol' q hq4
              apply rollback_master fs _ parsed _ q hdisj
              · intro t ht
                simp only [List.mem_cons, List.not_mem_nil, or_false] at ht
                rcases ht with h | h | h | h
                · exact ⟨recordsPath, h⟩
                · exact ⟨recordsPath, h⟩
                · exact ⟨manifestPath, h⟩
                · exact ⟨digestPath, h⟩
              · apply hB_of_frame fs _ parsed hdisj
                intro x
                rw [hfr (x ++ ".bak") (bak_ne_tmp x recordsPath) (bak_ne_tmp x manifestPath)
                      (bak_ne_tmp x digestPath)
                      (ne_getLast (by rw [getLast_bak]; decide))
                      (ne_getLast (by rw [getLast_bak]; decide))
                      (ne_getLast (by rw [getLast_bak]; decide)),
                    lookupF_setFile, if_neg (bak_ne_tmp x digestPath),
                    lookupF_setFile, if_neg (bak_ne_tmp x manifestPath),
                    lookupF_setFile, if_neg (bak_ne_tmp x recordsPath),
                    lookupF_setFile, if_neg (bak_ne_tmp x recordsPath), hfs2]
              · exact h2
              · rcases hq3 with h | h | h
                · subst h
                  cases hlq : lookupF fs recordsPath with
                  | some d0 =>
                    refine Or.inl ⟨(mem_affected_base fs parsed).1, ?_⟩
                    exact fun hcontra => Option.noConfusion hcontra
                  | none =>
                    refine Or.inr (Or.inr ⟨?_, ?_⟩)
                    · simp only [List.mem_cons, List.not_mem_nil, or_false]
                      push_neg
                      exact ⟨by decide, by decide, by decide, by decide⟩
                    · rcases hRr with hR | hR
                      · rw [hR]
                      · rw [hR, lookupF_setFile, if_neg (by decide), lookupF_setFile,
                            if_neg (by decide), lookupF_setFile, if_neg (by decide),
                            lookupF_setFile, if_neg (by decide), hfs2, hB1 _ h2, hlq]
                · subst h
                  cases hlq : lookupF fs manifestPath with
                  | some d0 =>
                    refine Or.inl ⟨(mem_affected_base fs parsed).2.1, ?_⟩
                    exact fun hcontra => Option.noConfusion hcontra
                  | none =>
                    refine Or.inr (Or.inr ⟨?_, ?_⟩)
                    · simp only [List.mem_cons, List.not_mem_nil, or_false]
                      push_neg
                      exact ⟨by decide, by decide, by decide, by decide⟩
                    · rcases hRm with hR | hR
                      · rw [hR]
                      · rw [hR, lookupF_setFile, if_neg (by decide), lookupF_setFile,
                            if_neg (by decide), lookupF_setFile, if_neg (by decide),
                            lookupF_setFile, if_neg (by decide), hfs2, hB1 _ h2, hlq]
                · subst h
                  cases hlq : lookupF fs digestPath with
                  | some d0 =>
                    refine Or.inl ⟨(mem_affected_base fs parsed).2.2, ?_⟩
                    exact fun hcontra => Option.noConfusion hcontra
                  | none =>
                    refine Or.inr (Or.inr ⟨?_, ?_⟩)
                    · simp only [List.mem_cons, List.not_mem_nil, or_false]
                      push_neg
                      exact ⟨by decide, by decide, by decide, by decide⟩
                    · rcases hRd with hR | hR
                      · rw [hR]
                      · rw [hR, lookupF_setFile, if_neg (by decide), lookupF_setFile,
                            if_neg (by decide), lookupF_setFile, if_neg (by decide),
                            lookupF_setFile, if_neg (by decide), hfs2, hB1 _ h2, hlq]
            refine ⟨hart recordsPath (Or.inl rfl), hart manifestPath (Or.inr (Or.inl rfl)),
                   hart digestPath (Or.inr (Or.inr rfl)), ?_⟩
            intro s' hsi
            have hsi' : truthyStrOpt parsed.sourceRef = some s' := by
              rw [hpS]
              exact hsi
            have hs' : s' = recordsPath := (Option.some.inj (hs.symm.trans hsi')).symm
            rw [hs']
            exact hart recordsPath (Or.inl rfl)
          · by_cases hsm : s = manifestPath
            · subst hsm
              obtain ⟨fsE, hcom, hfr, hRr, hRm, hRd⟩ := commit_dup_error
                (ensureFoldersStep (createBackups fs parsed).1 parsed) c rs M
                (createBackups fs parsed).2 manifestPath (Or.inr (Or.inl rfl))
              have he : execute fs today now i = (⟨false, none, some 9⟩,
                  rollbackFn fsE (createBackups fs parsed).2
                    [manifestPath ++ ".tmp", recordsPath ++ ".tmp", manifestPath ++ ".tmp",
                     digestPath ++ ".tmp"]) := by
                simp only [execute, hres, Bool.false_eq_true, if_false, hpar, hwd, hur, hM,
                  hdig, hval, Bool.not_true, eq_self_iff_true, if_true, if_false,
                  List.nil_append, List.cons_append, hcom]
              rw [he]
              have hart : ∀ q, q = recordsPath ∨ q = manifestPath ∨ q = digestPath →
                  lookupF (rollbackFn fsE (createBackups fs parsed).2
                    [manifestPath ++ ".tmp", recordsPath ++ ".tmp", manifestPath ++ ".tmp",
                     digestPath ++ ".tmp"]) q = lookupF fs q := by
                intro q hq3
                have hq4 : q = recordsPath ∨ q = manifestPath ∨ q = digestPath ∨
                    truthyStrOpt parsed.sourceRef = some q := by
                  rcases hq3 with h | h | h
                  · exact Or.inl h
                  · exact Or.inr (Or.inl h)
                  · exact Or.inr (Or.inr (Or.inl h))
                have h2 := nobak_of fs parsed hcol' q hq4
                apply rollback_master fs _ parsed _ q hdisj
                · intro t ht
                  simp only [List.mem_cons, List.not_mem_nil, or_false] at ht
                  rcases ht with h | h | h | h
                  · exact ⟨manifestPath, h⟩
                  · exact ⟨recordsPath, h⟩
                  · exact ⟨manifestPath, h⟩
                  · exact ⟨digestPath, h⟩
                · apply hB_of_frame fs _ parsed hdisj
                  intro x
                  rw [hfr (x ++ ".bak") (bak_ne_tmp x recordsPath)
                        (bak_ne_tmp x manifestPath) (bak_ne_tmp x digestPath)
                        (ne_getLast (by rw [getLast_bak]; decide))
                        (ne_getLast (by rw [getLast_bak]; decide))
                        (ne_getLast (by rw [getLast_bak]; decide)),
                      lookupF_setFile, if_neg (bak_ne_tmp x digestPath),
                      lookupF_setFile, if_neg (bak_ne_tmp x manifestPath),
                      lookupF_setFile, if_neg (bak_ne_tmp x recordsPath),
                      lookupF_setFile, if_neg (bak_ne_tmp x manifestPath), hfs2]
                · exact h2
                · rcases hq3 with h | h | h
                  · subst h
                    cases hlq : lookupF fs recordsPath with
                    | some d0 =>
                      refine Or.inl ⟨(mem_affected_base fs parsed).1, ?_⟩
                      exact fun hcontra => Option.noConfusion hcontra
                    | none =>
                      refine Or.inr (Or.inr ⟨?_, ?_⟩)
                      · simp only [List.mem_cons, List.not_mem_nil, or_false]
                        push_neg
                        exact ⟨by decide, by decide, by decide, by decide⟩
                      · rcases hRr with hR | hR
                        · rw [hR]
                        · rw [hR, lookupF_setFile, if_neg (by decide), lookupF_setFile,
                              if_neg (by decide), lookupF_setFile, if_neg (by decide),
                              lookupF_setFile, if_neg (by decide), hfs2, hB1 _ h2, hlq]
                  · subst h
                    cases hlq : lookupF fs manifestPath with
                    | some d0 =>
                      refine Or.inl ⟨(mem_affected_base fs parsed).2.1, ?_⟩
                      exact fun hcontra => Option.noConfusion hcontra
                    | none =>
                      refine Or.inr (Or.inr ⟨?_, ?_⟩)
                      · simp only [List.mem_cons, List.not_mem_nil, or_false]
                        push_neg
                        exact ⟨by decide, by decide, by decide, by decide⟩
                      · rcases hRm with hR | hR
                        · rw [hR]
                        · rw [hR, lookupF_setFile, if_neg (by decide), lookupF_setFile,
                              if_neg (by decide), lookupF_setFile, if_neg (by decide),
                              lookupF_setFile, if_neg (by decide), hfs2, hB1 _ h2, hlq]
                  · subst h
                    cases hlq : lookupF fs digestPath with
                    | some d0 =>
                      refine Or.inl ⟨(mem_affected_base fs parsed).2.2, ?_⟩
                      exact fun hcontra => Option.noConfusion hcontra
                    | none =>
                      refine Or.inr (Or.inr ⟨?_, ?_⟩)
                      · simp only [List.mem_cons, List.not_mem_nil, or_false]
                        push_neg
                        exact ⟨by decide, by decide, by decide, by decide⟩
                      · rcases hRd with hR | hR
                        · rw [hR]
                        · rw [hR, lookupF_setFile, if_neg (by decide), lookupF_setFile,
                              if_neg (by decide), lookupF_setFile, if_neg (by decide),
                              lookupF_setFile, if_neg (by decide), hfs2, hB1 _ h2, hlq]
              refine ⟨hart recordsPath (Or.inl rfl),
                     hart manifestPath (Or.inr (Or.inl rfl)),
                     hart digestPath (Or.inr (Or.inr rfl)), ?_⟩
              intro s' hsi
              have hsi' : truthyStrOpt parsed.sourceRef = some s' := by
                rw [hpS]
                exact hsi
              have hs' : s' = manifestPath := (Option.some.inj (hs.symm.trans hsi')).symm
              rw [hs']
              exact hart manifestPath (Or.inr (Or.inl rfl))
            · by_cases hsd : s = digestPath
              · subst hsd
                obtain ⟨fsE, hcom, hfr, hRr, hRm, hRd⟩ := commit_dup_error
                  (ensureFoldersStep (createBackups fs parsed).1 parsed) c rs M
                  (createBackups fs parsed).2 digestPath (Or.inr (Or.inr rfl))
                have he : execute fs today now i = (⟨false, none, some 9⟩,
                    rollbackFn fsE (createBackups fs parsed).2
                      [digestPath ++ ".tmp", recordsPath ++ ".tmp", manifestPath ++ ".tmp",
                       digestPath ++ ".tmp"]) := by
                  simp only [execute, hres, Bool.false_eq_true, if_false, hpar, hwd, hur,
                    hM, hdig, hval, Bool.not_true, eq_self_iff_true, if_true, if_false,
                    List.nil_append, List.cons_append, hcom]
                rw [he]
                have hart : ∀ q, q = recordsPath ∨ q = manifestPath ∨ q = digestPath →
                    lookupF (rollbackFn fsE (createBackups fs parsed).2
                      [digestPath ++ ".tmp", recordsPath ++ ".tmp", manifestPath ++ ".tmp",
                       digestPath ++ ".tmp"]) q = lookupF fs q := by
                  intro q hq3
                  have hq4 : q = recordsPath ∨ q = manifestPath ∨ q = digestPath ∨
                      truthyStrOpt parsed.sourceRef = some q := by
                    rcases hq3 with h | h | h
                    · exact Or.inl h
                    · exact Or.inr (Or.inl h)
                    · exact Or.inr (Or.inr (Or.inl h))
                  have h2 := nobak_of fs parsed hcol' q hq4
                  apply rollback_master fs _ parsed _ q hdisj
                  · intro t ht
                    simp only [List.mem_cons, List.not_mem_nil, or_false] at ht
                    rcases ht with h | h | h | h
                    · exact ⟨digestPath, h⟩
                    · exact ⟨recordsPath, h⟩
                    · exact ⟨manifestPath, h⟩
                    · exact ⟨digestPath, h⟩
                  · apply hB_of_frame fs _ parsed hdisj
                    intro x
                    rw [hfr (x ++ ".bak") (bak_ne_tmp x recordsPath)
                          (bak_ne_tmp x manifestPath) (bak_ne_tmp x digestPath)
                          (ne_getLast (by rw [getLast_bak]; decide))
                          (ne_getLast (by rw [getLast_bak]; decide))
                          (ne_getLast (by rw [getLast_bak]; decide)),
                        lookupF_setFile, if_neg (bak_ne_tmp x digestPath),
                        lookupF_setFile, if_neg (bak_ne_tmp x manifestPath),
                        lookupF_setFile, if_neg (bak_ne_tmp x recordsPath),
                        lookupF_setFile, if_neg (bak_ne_tmp x digestPath), hfs2]
                  · exact h2
                  · rcases hq3 with h | h | h
                    · subst h
                      cases hlq : lookupF fs recordsPath with
                      | some d0 =>
                        refine Or.inl ⟨(mem_affected_base fs parsed).1, ?_⟩
                        exact fun hcontra => Option.noConfusion hcontra
                      | none =>
                        refine Or.inr (Or.inr ⟨?_, ?_⟩)
                        · simp only [List.mem_cons, List.not_mem_nil, or_false]
                          push_neg
                          exact ⟨by decide, by decide, by decide, by decide⟩
                        · rcases hRr with hR | hR
                          · rw [hR]
                          · rw [hR, lookupF_setFile, if_neg (by decide), lookupF_setFile,
                                if_neg (by decide), lookupF_setFile, if_neg (by decide),
                                lookupF_setFile, if_neg (by decide), hfs2, hB1 _ h2, hlq]
                    · subst h
                      cases hlq : lookupF fs manifestPath with
                      | some d0 =>
                        refine Or.inl ⟨(mem_affected_base fs parsed).2.1, ?_⟩
                        exact fun hcontra => Option.noConfusion hcontra
                      | none =>
                        refine Or.inr (Or.inr ⟨?_, ?_⟩)
                        · simp only [List.mem_cons, List.not_mem_nil, or_false]
                          push_neg
                          exact ⟨by decide, by decide, by decide, by decide⟩
                        · rcases hRm with hR | hR
                          · rw [hR]
                          · rw [hR, lookupF_setFile, if_neg (by decide), lookupF_setFile,
                                if_neg (by decide), lookupF_setFile, if_neg (by decide),
                                lookupF_setFile, if_neg (by decide), hfs2, hB1 _ h2, hlq]
                    · subst h
                      cases hlq : lookupF fs digestPath with
                      | some d0 =>
                        refine Or.inl ⟨(mem_affected_base fs parsed).2.2, ?_⟩
                        exact fun hcontra => Option.noConfusion hcontra
                      | none =>
                        refine Or.inr (Or.inr ⟨?_, ?_⟩)
                        · simp only [List.mem_cons, List.not_mem_nil, or_false]
                          push_neg
                          exact ⟨by decide, by decide, by decide, by decide⟩
                        · rcases hRd with hR | hR
                          · rw [hR]
                          · rw [hR, lookupF_setFile, if_neg (by decide), lookupF_setFile,
                                if_neg (by decide), lookupF_setFile, if_neg (by decide),
                                lookupF_setFile, if_neg (by decide), hfs2, hB1 _ h2, hlq]
                refine ⟨hart recordsPath (Or.inl rfl),
                       hart manifestPath (Or.inr (Or.inl rfl)),
                       hart digestPath (Or.inr (Or.inr rfl)), ?_⟩
                intro s' hsi
                have hsi' : truthyStrOpt parsed.sourceRef = some s' := by
                  rw [hpS]
                  exact hsi
                have hs' : s' = digestPath := (Option.some.inj (hs.symm.trans hsi')).symm
                rw [hs']
                exact hart digestPath (Or.inr (Or.inr rfl))
              · -- the document tmp collides with no artifact tmp: commit succeeds
                obtain ⟨fsC, hC⟩ := commitGo_ok
                  [s ++ ".tmp", recordsPath ++ ".tmp", manifestPath ++ ".tmp",
                   digestPath ++ ".tmp"]
                  (setFile (setFile (setFile (setFile
                    (ensureFoldersStep (createBackups fs parsed).1 parsed)
                    (s ++ ".tmp") (FileData.text c))
                    (recordsPath ++ ".tmp") (FileData.recs rs))
                    (manifestPath ++ ".tmp") (FileData.manifest M))
                    (digestPath ++ ".tmp") (FileData.text (digestContent rs))) []
                  (by
                    rw [List.nodup_cons]
                    refine ⟨?_, by decide⟩
                    intro hmem
                    simp only [List.mem_cons, List.not_mem_nil, or_false] at hmem
                    rcases hmem with h | h | h
                    · exact hsr (append_suffix_inj _ _ _ h)
                    · exact hsm (append_suffix_inj _ _ _ h)
                    · exact hsd (append_suffix_inj _ _ _ h))
                  (by
                    intro t ht
                    simp only [List.mem_cons, List.not_mem_nil, or_false] at ht
                    rcases ht with h | h | h | h <;> subst h
                    · rw [lookupF_setFile,
                          if_neg (fun hh => hsd (append_suffix_inj _ _ _ hh)),
                          lookupF_setFile,
                          if_neg (fun hh => hsm (append_suffix_inj _ _ _ hh)),
                          lookupF_setFile,
                          if_neg (fun hh => hsr (append_suffix_inj _ _ _ hh)),
                          lookupF_setFile, if_pos rfl]
                      exact fun hcon => Option.noConfusion hcon
                    · rw [lookupF_setFile, if_neg (by decide), lookupF_setFile,
                          if_neg (by decide), lookupF_setFile, if_pos rfl]
                      exact fun hcon => Option.noConfusion hcon
                    · rw [lookupF_setFile, if_neg (by decide), lookupF_setFile, if_pos rfl]
                      exact fun hcon => Option.noConfusion hcon
                    · rw [lookupF_setFile, if_pos rfl]
                      exact fun hcon => Option.noConfusion hcon)
                have hcommit : commitFn (setFile (setFile (setFile (setFile
                    (ensureFoldersStep (createBackups fs parsed).1 parsed)
                    (s ++ ".tmp") (FileData.text c))
                    (recordsPath ++ ".tmp") (FileData.recs rs))
                    (manifestPath ++ ".tmp") (FileData.manifest M))
                    (digestPath ++ ".tmp") (FileData.text (digestContent rs)))
                    (createBackups fs parsed).2
                    [s ++ ".tmp", recordsPath ++ ".tmp", manifestPath ++ ".tmp",
                     digestPath ++ ".tmp"] =
                    .ok ((createBackups fs parsed).2.foldl
                      (fun f pr => eraseFile f pr.2) fsC) := by
                  unfold commitFn
                  rw [hC]
                have he : (execute fs today now i).1.success = true := by
                  simp only [execute, hres, Bool.false_eq_true, if_false, hpar, hwd, hur,
                    hM, hdig, hval, Bool.not_true, eq_self_iff_true, if_true, if_false,
                    List.nil_append, List.cons_append, hcommit]
                rw [he] at hf
                exact absurd hf (by decide)

/-- C1 counterexample: a create intent whose sourceRef is the backup path
of records.jsonl.  The transaction fails at step 8, but the backup step has
already overwritten the committed document at that path and rollback then
deletes it: the store is NOT byte-identical to its pre-call state. -/
theorem c1_counterexample :
    createC1Intent.sourceRef = some "90_index/records.jsonl.bak" ∧
    "90_index/records.jsonl.bak" ∈ artifactBakPaths ∧
    lookupF store1 "90_index/records.jsonl.bak" = some (.text "DOC") ∧
    (execute store1 "20260101" "now1" createC1Intent).1.success = false ∧
    lookupF (execute store1 "20260101" "now1" createC1Intent).2
      "90_index/records.jsonl.bak" = none := by decide

/-- C1 witness: a failing update naming an unknown recordId leaves the
three index artifacts (and the absent target document) untouched. -/
theorem c1_witness :
    (execute store0 "20260101" "now1" updBadIntent).1.success = false ∧
    lookupF (execute store0 "20260101" "now1" updBadIntent).2 recordsPath =
      lookupF store0 recordsPath ∧
    lookupF (execute store0 "20260101" "now1" updBadIntent).2 manifestPath =
      lookupF store0 manifestPath ∧
    lookupF (execute store0 "20260101" "now1" updBadIntent).2 digestPath =
      lookupF store0 digestPath ∧
    ∀ s, truthyStrOpt updBadIntent.sourceRef = some s →
      lookupF (execute store0 "20260101" "now1" updBadIntent).2 s =
        lookupF store0 s :=
  have hf : (execute store0 "20260101" "now1" updBadIntent).1.success = false := by
    decide
  have hcol : ∀ s, truthyStrOpt updBadIntent.sourceRef = some s →
      ¬ s ∈ artifactBakPaths := fun s h => by
    simp [updBadIntent, truthyStrOpt] at h
  ⟨hf, c1_failure_preserves_store store0 "20260101" "now1" updBadIntent hf hcol⟩

/-! ### Claim C3 -/

/-- C3 counterexample: a successful delete of a record whose sourceRef
resolves to an existing file removes neither the on-disk document nor its
manifest entry — the delete case never unlinks and the manifest filter runs
on the intent's (absent) sourceRef, not the record's. -/
theorem c3_counterexample :
    (execute store0 "20260101" "now3" deleteIntent).1.success = true ∧
    rec1.sourceRef = "30_topics/a/doc.md" ∧
    existsF store0 "30_topics/a/doc.md" = true ∧
    lookupF (execute store0 "20260101" "now3" deleteIntent).2 "30_topics/a/doc.md" =
      some (.text "D") ∧
    (match lookupF (execute store0 "20260101" "now3" deleteIntent).2 manifestPath with
     | some (.manifest M) =>
       (M.files.find? (fun e => e.path == "30_topics/a/doc.md")).isSome
     | _ => false) = true := by decide

/-- C3 (amended): a successful delete intent removes the record from the
staged records sequence, but touches nothing outside `90_index/`: the
on-disk document survives, and (the intent carrying no sourceRef of its
own) the manifest keeps every entry. -/
theorem c3_delete_semantics (fs : Store) (today now : String) (i : Intent)
    (records : List Record) (idx : Nat)
    (ha : i.action = "delete") (hsrc : i.sourceRef = none)
    (hr : lookupF fs recordsPath = some (.recs records))
    (hidx : records.findIdx? (fun r => r.recordId == i.recordId.getD "") = some idx)
    (hok : (execute fs today now i).1.success = true) :
    lookupF (execute fs today now i).2 recordsPath =
      some (.recs (records.eraseIdx idx)) ∧
    (∀ q, startsWithStr q "90_index/" = false →
      lookupF (execute fs today now i).2 q = lookupF fs q) ∧
    ∃ M : Manifest, lookupF (execute fs today now i).2 manifestPath =
      some (.manifest M) ∧
      M.files = ((safeReadManifest fs manifestPath).getD
        { version := "1.0", files := [] }).files := by
  rcases Bool.eq_false_or_eq_true (checkResidualTmp fs) with hres | hres
  case inl =>
    have he : (execute fs today now i).1.success = false := by
      unfold execute
      rw [if_pos hres]
    rw [he] at hok
    exact Bool.noConfusion hok
  cases hpar : parseIntentE fs today i with
  | error st =>
    have he : (execute fs today now i).1.success = false := by
      simp only [execute, hres, Bool.false_eq_true, if_false, hpar]
    rw [he] at hok
    exact Bool.noConfusion hok
  | ok parsed =>
    have hpi : parsed = i := parseIntentE_ok_noncreate fs today i parsed
      (by rw [ha]; rfl) hpar
    have haP : parsed.action = "delete" := by
      rw [hpi]
      exact ha
    have htsP : truthyStrOpt parsed.sourceRef = none := by
      rw [hpi, hsrc]
      rfl
    have hidxP : records.findIdx? (fun r => r.recordId == parsed.recordId.getD "")
        = some idx := by
      rw [hpi]
      exact hidx
    have hcol' : ∀ s, truthyStrOpt parsed.sourceRef = some s →
        ¬ s ∈ artifactBakPaths := by
      intro s h
      rw [htsP] at h
      exact Option.noConfusion h
    have hdisj := hdisj_of_col fs parsed hcol'
    obtain ⟨hB1, hB2, hB3⟩ := createBackups_spec fs parsed hdisj
    have hfs2 : ∀ q, lookupF (ensureFoldersStep (createBackups fs parsed).1 parsed) q =
        lookupF (createBackups fs parsed).1 q :=
      fun q => lookupF_files_eq _ _ (ensureFolders_files _ _) q
    have hwd : writeDocumentTmp (ensureFoldersStep (createBackups fs parsed).1 parsed)
        parsed = (ensureFoldersStep (createBackups fs parsed).1 parsed, []) :=
      writeDocumentTmp_none _ parsed (by rw [haP]; rfl)
    have hnbr : ∀ p ∈ getAffectedFiles fs parsed, recordsPath ≠ p ++ ".bak" :=
      nobak_of fs parsed hcol' recordsPath (Or.inl rfl)
    have hnbm : ∀ p ∈ getAffectedFiles fs parsed, manifestPath ≠ p ++ ".bak" :=
      nobak_of fs parsed hcol' manifestPath (Or.inr (Or.inl rfl))
    have hnbd : ∀ p ∈ getAffectedFiles fs parsed, digestPath ≠ p ++ ".bak" :=
      nobak_of fs parsed hcol' digestPath (Or.inr (Or.inr (Or.inl rfl)))
    have hrE : lookupF (ensureFoldersStep (createBackups fs parsed).1 parsed) recordsPath
        = some (.recs records) := by
      rw [hfs2, hB1 recordsPath hnbr]
      exact hr
    have hur := updateRecordsTmp_delete_eq
      (ensureFoldersStep (createBackups fs parsed).1 parsed) parsed now records idx
      haP hrE hidxP
    have hmanE : safeReadManifest (setFile (ensureFoldersStep (createBackups fs parsed).1
        parsed) (recordsPath ++ ".tmp") (.recs (records.eraseIdx idx))) manifestPath =
        safeReadManifest fs manifestPath := by
      apply safeReadManifest_congr
      rw [lookupF_setFile, if_neg (by decide), hfs2]
      exact hB1 manifestPath hnbm
    have hM := updateManifestTmp_nosrc (setFile (ensureFoldersStep
      (createBackups fs parsed).1 parsed) (recordsPath ++ ".tmp")
      (.recs (records.eraseIdx idx))) parsed now htsP
    rw [hmanE] at hM
    have hdig := updateDigestTmp_of_recs (setFile (setFile (ensureFoldersStep
        (createBackups fs parsed).1 parsed) (recordsPath ++ ".tmp")
        (.recs (records.eraseIdx idx))) (manifestPath ++ ".tmp")
        (.manifest
          { version := ((safeReadManifest fs manifestPath).getD
              { version := "1.0", files := [] }).version,
            updatedAt := now,
            summary := computeSummary ((safeReadManifest fs manifestPath).getD
              { version := "1.0", files := [] }).files,
            files := ((safeReadManifest fs manifestPath).getD
              { version := "1.0", files := [] }).files }))
      (records.eraseIdx idx)
      (by rw [lookupF_setFile, if_neg (by decide), lookupF_setFile, if_pos rfl])
    rcases Or.symm (Bool.eq_false_or_eq_true
        (validate (setFile (setFile (setFile (ensureFoldersStep
          (createBackups fs parsed).1 parsed) (recordsPath ++ ".tmp")
          (.recs (records.eraseIdx idx))) (manifestPath ++ ".tmp")
          (.manifest
            { version := ((safeReadManifest fs manifestPath).getD
                { version := "1.0", files := [] }).version,
              updatedAt := now,
              summary := computeSummary ((safeReadManifest fs manifestPath).getD
                { version := "1.0", files := [] }).files,
              files := ((safeReadManifest fs manifestPath).getD
                { version := "1.0", files := [] }).files }))
          (digestPath ++ ".tmp") (.text (digestContent (records.eraseIdx idx))))
          true false).passed) with hval | hval
    · have he : (execute fs today now i).1.success = false := by
        simp only [execute, hres, Bool.false_eq_true, if_false, hpar, hwd, hur, hM, hdig,
          hval, Bool.not_false, eq_self_iff_true, if_true, List.nil_append,
          List.cons_append]
      rw [he] at hok
      exact Bool.noConfusion hok
    · obtain ⟨fsC, hcom, hcr, hcm, hcd, hcfr⟩ := commit_three
        (ensureFoldersStep (createBackups fs parsed).1 parsed)
        (records.eraseIdx idx)
        { version := ((safeReadManifest fs manifestPath).getD
            { version := "1.0", files := [] }).version,
          updatedAt := now,
          summary := computeSummary ((safeReadManifest fs manifestPath).getD
            { version := "1.0", files := [] }).files,
          files := ((safeReadManifest fs manifestPath).getD
            { version := "1.0", files := [] }).files }
        (createBackups fs parsed).2
      have he : execute fs today now i = (⟨true, parsed.recordId, none⟩,
          (createBackups fs parsed).2.foldl (fun f pr => eraseFile f pr.2) fsC) := by
        simp only [execute, hres, Bool.false_eq_true, if_false, hpar, hwd, hur, hM, hdig,
          hval, Bool.not_true, eq_self_iff_true, if_true, if_false, List.nil_append,
          List.cons_append, hcom]
      rw [he]
      have hbakset : ∀ q, (∀ p ∈ getAffectedFiles fs parsed, q ≠ p ++ ".bak") →
          lookupF ((createBackups fs parsed).2.foldl (fun f pr => eraseFile f pr.2) fsC) q
            = lookupF fsC q := by
        intro q hq
        apply eraseBaks_frame
        intro pr hpr
        exact fun hc => hq pr.1 (hB2 pr hpr).2.1 (hc.trans (hB2 pr hpr).1)
      refine ⟨?_, ?_, ?_⟩
      · rw [hbakset recordsPath hnbr, hcr]
      · intro q hq
        have hqs : ∀ x : String, startsWithStr x "90_index/" = true → q ≠ x :=
          fun x hx => Ne.symm (ne_of_startsWith x q "90_index/" hx hq)
        have hqbak : ∀ p ∈ getAffectedFiles fs parsed, q ≠ p ++ ".bak" := by
          intro p hp
          rcases getAffectedFiles_shape fs parsed p hp with h | h | h | h
          · subst h
            exact hqs (recordsPath ++ ".bak") (by decide)
          · subst h
            exact hqs (manifestPath ++ ".bak") (by decide)
          · subst h
            exact hqs (digestPath ++ ".bak") (by decide)
          · rw [htsP] at h
            exact absurd h (by simp)
        rw [hbakset q hqbak,
            hcfr q (hqs recordsPath (by decide)) (hqs manifestPath (by decide))
              (hqs digestPath (by decide)) (hqs (recordsPath ++ ".tmp") (by decide))
              (hqs (manifestPath ++ ".tmp") (by decide))
              (hqs (digestPath ++ ".tmp") (by decide)),
            hfs2]
        exact hB1 q hqbak
      · refine ⟨
          { version := ((safeReadManifest fs manifestPath).getD
              { version := "1.0", files := [] }).version,
            updatedAt := now,
            summary := computeSummary ((safeReadManifest fs manifestPath).getD
              { version := "1.0", files := [] }).files,
            files := ((safeReadManifest fs manifestPath).getD
              { version := "1.0", files := [] }).files }, ?_, rfl⟩
        rw [hbakset manifestPath hnbm, hcm]

/-- C3 witness: the exemplary delete on the consistent one-record store. -/
theorem c3_witness :
    (execute store0 "20260101" "now3" deleteIntent).1.success = true ∧
    lookupF (execute store0 "20260101" "now3" deleteIntent).2 recordsPath =
      some (.recs ([rec1].eraseIdx 0)) ∧
    (∀ q, startsWithStr q "90_index/" = false →
      lookupF (execute store0 "20260101" "now3" deleteIntent).2 q = lookupF store0 q) ∧
    ∃ M : Manifest, lookupF (execute store0 "20260101" "now3" deleteIntent).2
        manifestPath = some (.manifest M) ∧
      M.files = ((safeReadManifest store0 manifestPath).getD
        { version := "1.0", files := [] }).files :=
  have hok : (execute store0 "20260101" "now3" deleteIntent).1.success = true := by
    decide
  ⟨hok, c3_delete_semantics store0 "20260101" "now3" deleteIntent [rec1] 0 rfl rfl
    (by decide) (by decide) hok⟩

/-! ### Claim C2 -/

/-- C2 counterexample: a successful update that carries new content but no
sourceRef recomputes the record's contentHash while writing no document, so
afterwards some persisted record with non-empty sourceRef has a document
hash different from its contentHash — the invariant is broken, refuting
"after every successful commit". -/
theorem c2_counterexample :
    (execute store0 "20260101" "now2" updNoSrcIntent).1.success = true ∧
    (match lookupF (execute store0 "20260101" "now2" updNoSrcIntent).2 recordsPath with
     | some (.recs rs) => rs.any (fun r => (r.sourceRef != "") &&
         (calculateHash (execute store0 "20260101" "now2" updNoSrcIntent).2 r.sourceRef
           != r.contentHash))
     | _ => false) = true := by decide

/-- C2 (amended): for an update intent that carries non-empty content
together with the target record's own sourceRef (and no partial record),
a successful execution re-establishes the hash invariant at that record:
the document holds the new content, the staged record's contentHash is the
hash of that content, and the manifest entry for the path carries the same
hash. -/
theorem c2_update_hash_invariant (fs : Store) (today now : String) (i : Intent)
    (s c : String) (records : List Record) (idx : Nat) (r0 : Record)
    (m0 : Manifest) (e0 : ManifestEntry)
    (ha : i.action = "update") (hrec : i.record = none)
    (hsrc : i.sourceRef = some s) (hcont : i.content = some c)
    (hc0 : c ≠ "") (hs0 : s ≠ "")
    (hsafe : startsWithStr s "90_index/" = false)
    (hr : lookupF fs recordsPath = some (.recs records))
    (hidx : records.findIdx? (fun r => r.recordId == i.recordId.getD "") = some idx)
    (hget : records[idx]? = some r0)
    (hman : safeReadManifest fs manifestPath = some m0)
    (hfind : m0.files.find? (fun e => e.path == s) = some e0)
    (hok : (execute fs today now i).1.success = true) :
    lookupF (execute fs today now i).2 s = some (.text c) ∧
    calculateHash (execute fs today now i).2 s = sha256str c ∧
    lookupF (execute fs today now i).2 recordsPath =
      some (.recs (records.set idx
        { r0 with contentHash := sha256str c, updatedAt := now })) ∧
    ∃ M : Manifest, lookupF (execute fs today now i).2 manifestPath =
      some (.manifest M) ∧
      M.files.find? (fun e => e.path == s) =
        some { e0 with hash := sha256str c, size := c.length, updatedAt := now } := by
  rcases Bool.eq_false_or_eq_true (checkResidualTmp fs) with hres | hres
  case inl =>
    have he : (execute fs today now i).1.success = false := by
      unfold execute
      rw [if_pos hres]
    rw [he] at hok
    exact Bool.noConfusion hok
  cases hpar : parseIntentE fs today i with
  | error st =>
    have he : (execute fs today now i).1.success = false := by
      simp only [execute, hres, Bool.false_eq_true, if_false, hpar]
    rw [he] at hok
    exact Bool.noConfusion hok
  | ok parsed =>
    have hpi : parsed = i := parseIntentE_ok_noncreate fs today i parsed
      (by rw [ha]; rfl) hpar
    have haP : parsed.action = "update" := by
      rw [hpi]
      exact ha
    have htsP : truthyStrOpt parsed.sourceRef = some s := by
      rw [hpi, hsrc]
      simp [truthyStrOpt, hs0]
    have hcP : parsed.content = some c := by
      rw [hpi]
      exact hcont
    have hrecP : parsed.record = none := by
      rw [hpi]
      exact hrec
    have hidxP : records.findIdx? (fun r => r.recordId == parsed.recordId.getD "")
        = some idx := by
      rw [hpi]
      exact hidx
    have hner : s ≠ recordsPath :=
      Ne.symm (ne_of_startsWith recordsPath s "90_index/" (by decide) hsafe)
    have hnem : s ≠ manifestPath :=
      Ne.symm (ne_of_startsWith manifestPath s "90_index/" (by decide) hsafe)
    have hned : s ≠ digestPath :=
      Ne.symm (ne_of_startsWith digestPath s "90_index/" (by decide) hsafe)
    have hnert : s ≠ recordsPath ++ ".tmp" :=
      Ne.symm (ne_of_startsWith (recordsPath ++ ".tmp") s "90_index/" (by decide) hsafe)
    have hnemt : s ≠ manifestPath ++ ".tmp" :=
      Ne.symm (ne_of_startsWith (manifestPath ++ ".tmp") s "90_index/" (by decide) hsafe)
    have hnedt : s ≠ digestPath ++ ".tmp" :=
      Ne.symm (ne_of_startsWith (digestPath ++ ".tmp") s "90_index/" (by decide) hsafe)
    have hcol' : ∀ s', truthyStrOpt parsed.sourceRef = some s' →
        ¬ s' ∈ artifactBakPaths := by
      intro s' h
      have hss : s' = s := (Option.some.inj (htsP.symm.trans h)).symm
      rw [hss]
      simp only [artifactBakPaths, List.mem_cons, List.not_mem_nil, or_false]
      push_neg
      exact ⟨Ne.symm (ne_of_startsWith (recordsPath ++ ".bak") s "90_index/"
               (by decide) hsafe),
             Ne.symm (ne_of_startsWith (manifestPath ++ ".bak") s "90_index/"
               (by decide) hsafe),
             Ne.symm (ne_of_startsWith (digestPath ++ ".bak") s "90_index/"
               (by decide) hsafe)⟩
    have hdisj := hdisj_of_col fs parsed hcol'
    obtain ⟨hB1, hB2, hB3⟩ := createBackups_spec fs parsed hdisj
    have hfs2 : ∀ q, lookupF (ensureFoldersStep (createBackups fs parsed).1 parsed) q =
        lookupF (createBackups fs parsed).1 q :=
      fun q => lookupF_files_eq _ _ (ensureFolders_files _ _) q
    have hnbr : ∀ p ∈ getAffectedFiles fs parsed, recordsPath ≠ p ++ ".bak" :=
      nobak_of fs parsed hcol' recordsPath (Or.inl rfl)
    have hnbm : ∀ p ∈ getAffectedFiles fs parsed, manifestPath ≠ p ++ ".bak" :=
      nobak_of fs parsed hcol' manifestPath (Or.inr (Or.inl rfl))
    have hnbs : ∀ p ∈ getAffectedFiles fs parsed, s ≠ p ++ ".bak" :=
      nobak_of fs parsed hcol' s (Or.inr (Or.inr (Or.inr htsP)))
    have hwd : writeDocumentTmp (ensureFoldersStep (createBackups fs parsed).1 parsed)
        parsed = (setFile (ensureFoldersStep (createBackups fs parsed).1 parsed)
          (s ++ ".tmp") (FileData.text c), [s ++ ".tmp"]) :=
      writeDocumentTmp_some _ parsed (by rw [haP]; rfl) c s hcP htsP
    have hrE : lookupF (setFile (ensureFoldersStep (createBackups fs parsed).1 parsed)
        (s ++ ".tmp") (FileData.text c)) recordsPath = some (.recs records) := by
      rw [lookupF_setFile, if_neg (ne_getLast (by rw [getLast_tmp]; decide)), hfs2,
          hB1 recordsPath hnbr]
      exact hr
    have hur := updateRecordsTmp_update_eq
      (setFile (ensureFoldersStep (createBackups fs parsed).1 parsed)
        (s ++ ".tmp") (FileData.text c)) parsed now records idx r0 haP hrE hidxP hget
    have hmut : applyUpdateMutation r0 parsed.record parsed.content now =
        { r0 with contentHash := sha256str c, updatedAt := now } := by
      rw [hrecP, hcP]
      exact applyUpdateMutation_none r0 c now hc0
    rw [hmut] at hur
    have hlst : lookupF (setFile (setFile (ensureFoldersStep
        (createBackups fs parsed).1 parsed) (s ++ ".tmp") (FileData.text c))
        (recordsPath ++ ".tmp")
        (FileData.recs (records.set idx
          { r0 with contentHash := sha256str c, updatedAt := now })))
        (s ++ ".tmp") = some (FileData.text c) := by
      rw [lookupF_setFile, if_neg (fun h => hner (append_suffix_inj _ _ _ h)),
          lookupF_setFile, if_pos rfl]
    have hexS : existsF (setFile (setFile (ensureFoldersStep
        (createBackups fs parsed).1 parsed) (s ++ ".tmp") (FileData.text c))
        (recordsPath ++ ".tmp")
        (FileData.recs (records.set idx
          { r0 with contentHash := sha256str c, updatedAt := now })))
        (s ++ ".tmp") = true := by
      unfold existsF
      rw [hlst]
      rfl
    have hcalc : calculateHash (setFile (setFile (ensureFoldersStep
        (createBackups fs parsed).1 parsed) (s ++ ".tmp") (FileData.text c))
        (recordsPath ++ ".tmp")
        (FileData.recs (records.set idx
          { r0 with contentHash := sha256str c, updatedAt := now })))
        (s ++ ".tmp") = sha256str c := by
      unfold calculateHash
      rw [hlst]
      rfl
    have hsize : fileSize (setFile (setFile (ensureFoldersStep
        (createBackups fs parsed).1 parsed) (s ++ ".tmp") (FileData.text c))
        (recordsPath ++ ".tmp")
        (FileData.recs (records.set idx
          { r0 with contentHash := sha256str c, updatedAt := now })))
        (s ++ ".tmp") = c.length := by
      unfold fileSize
      rw [hlst]
      rfl
    have hmanE4 : safeReadManifest (setFile (setFile (ensureFoldersStep
        (createBackups fs parsed).1 parsed) (s ++ ".tmp") (FileData.text c))
        (recordsPath ++ ".tmp")
        (FileData.recs (records.set idx
          { r0 with contentHash := sha256str c, updatedAt := now })))
        manifestPath = some m0 := by
      rw [safeReadManifest_congr _ fs manifestPath (by
        rw [lookupF_setFile, if_neg (by decide),
            lookupF_setFile, if_neg (ne_getLast (by rw [getLast_tmp]; decide)), hfs2]
        exact hB1 manifestPath hnbm)]
      exact hman
    have hM := updateManifestTmp_update_eq (setFile (setFile (ensureFoldersStep
        (createBackups fs parsed).1 parsed) (s ++ ".tmp") (FileData.text c))
        (recordsPath ++ ".tmp")
        (FileData.recs (records.set idx
          { r0 with contentHash := sha256str c, updatedAt := now })))
      parsed now s haP htsP
    rw [hmanE4] at hM
    simp only [Option.getD_some] at hM
    have hfind2 := updateManifestEntry_find (setFile (setFile (ensureFoldersStep
        (createBackups fs parsed).1 parsed) (s ++ ".tmp") (FileData.text c))
        (recordsPath ++ ".tmp")
        (FileData.recs (records.set idx
          { r0 with contentHash := sha256str c, updatedAt := now })))
      s now hexS m0.files e0 hfind
    rw [hcalc, hsize] at hfind2
    have hdig := updateDigestTmp_of_recs (setFile (setFile (setFile (ensureFoldersStep
        (createBackups fs parsed).1 parsed) (s ++ ".tmp") (FileData.text c))
        (recordsPath ++ ".tmp")
        (FileData.recs (records.set idx
          { r0 with contentHash := sha256str c, updatedAt := now })))
        (manifestPath ++ ".tmp")
        (FileData.manifest
          { version := m0.version,
            updatedAt := now,
            summary := computeSummary (updateManifestEntry (setFile (setFile
              (ensureFoldersStep (createBackups fs parsed).1 parsed)
              (s ++ ".tmp") (FileData.text c)) (recordsPath ++ ".tmp")
              (FileData.recs (records.set idx
                { r0 with contentHash := sha256str c, updatedAt := now })))
              s now m0.files),
            files := updateManifestEntry (setFile (setFile
              (ensureFoldersStep (createBackups fs parsed).1 parsed)
              (s ++ ".tmp") (FileData.text c)) (recordsPath ++ ".tmp")
              (FileData.recs (records.set idx
                { r0 with contentHash := sha256str c, updatedAt := now })))
              s now m0.files }))
      (records.set idx { r0 with contentHash := sha256str c, updatedAt := now })
      (by rw [lookupF_setFile, if_neg (by decide), lookupF_setFile, if_pos rfl])
    rcases Or.symm (Bool.eq_false_or_eq_true
        (validate (setFile (setFile (setFile (setFile (ensureFoldersStep
          (createBackups fs parsed).1 parsed) (s ++ ".tmp") (FileData.text c))
          (recordsPath ++ ".tmp")
          (FileData.recs (records.set idx
            { r0 with contentHash := sha256str c, updatedAt := now })))
          (manifestPath ++ ".tmp")
          (FileData.manifest
            { version := m0.version,
              updatedAt := now,
              summary := computeSummary (updateManifestEntry (setFile (setFile
                (ensureFoldersStep (createBackups fs parsed).1 parsed)
                (s ++ ".tmp") (FileData.text c)) (recordsPath ++ ".tmp")
                (FileData.recs (records.set idx
                  { r0 with contentHash := sha256str c, updatedAt := now })))
                s now m0.files),
              files := updateManifestEntry (setFile (setFile
                (ensureFoldersStep (createBackups fs parsed).1 parsed)
                (s ++ ".tmp") (FileData.text c)) (recordsPath ++ ".tmp")
                (FileData.recs (records.set idx
                  { r0 with contentHash := sha256str c, updatedAt := now })))
                s now m0.files }))
          (digestPath ++ ".tmp")
          (FileData.text (digestContent (records.set idx
            { r0 with contentHash := sha256str c, updatedAt := now }))))
          true false).passed) with hval | hval
    · have he : (execute fs today now i).1.success = false := by
        simp only [execute, hres, Bool.false_eq_true, if_false, hpar, hwd, hur, hM, hdig,
          hval, Bool.not_false, eq_self_iff_true, if_true, List.nil_append,
          List.cons_append]
      rw [he] at hok
      exact Bool.noConfusion hok
    · obtain ⟨fsC, hcom, hcs, hcr, hcm, hcd, hcfr⟩ := commit_four
        (ensureFoldersStep (createBackups fs parsed).1 parsed) c s
        (records.set idx { r0 with contentHash := sha256str c, updatedAt := now })
        { version := m0.version,
          updatedAt := now,
          summary := computeSummary (updateManifestEntry (setFile (setFile
            (ensureFoldersStep (createBackups fs parsed).1 parsed)
            (s ++ ".tmp") (FileData.text c)) (recordsPath ++ ".tmp")
            (FileData.recs (records.set idx
              { r0 with contentHash := sha256str c, updatedAt := now })))
            s now m0.files),
          files := updateManifestEntry (setFile (setFile
            (ensureFoldersStep (createBackups fs parsed).1 parsed)
            (s ++ ".tmp") (FileData.text c)) (recordsPath ++ ".tmp")
            (FileData.recs (records.set idx
              { r0 with contentHash := sha256str c, updatedAt := now })))
            s now m0.files }
        (createBackups fs parsed).2 hner hnem hned hnert hnemt hnedt
      have he : execute fs today now i = (⟨true, parsed.recordId, none⟩,
          (createBackups fs parsed).2.foldl (fun f pr => eraseFile f pr.2) fsC) := by
        simp only [execute, hres, Bool.false_eq_true, if_false, hpar, hwd, hur, hM, hdig,
          hval, Bool.not_true, eq_self_iff_true, if_true, if_false, List.nil_append,
          List.cons_append, hcom]
      rw [he]
      have hbakset : ∀ q, (∀ p ∈ getAffectedFiles fs parsed, q ≠ p ++ ".bak") →
          lookupF ((createBackups fs parsed).2.foldl (fun f pr => eraseFile f pr.2) fsC) q
            = lookupF fsC q := by
        intro q hq
        apply eraseBaks_frame
        intro pr hpr
        exact fun hc => hq pr.1 (hB2 pr hpr).2.1 (hc.trans (hB2 pr hpr).1)
      have hls : lookupF ((createBackups fs parsed).2.foldl
          (fun f pr => eraseFile f pr.2) fsC) s = some (FileData.text c) := by
        rw [hbakset s hnbs, hcs]
      refine ⟨hls, ?_, ?_, ?_⟩
      · unfold calculateHash
        rw [hls]
        rfl
      · rw [hbakset recordsPath hnbr, hcr]
      · refine ⟨
          { version := m0.version,
            updatedAt := now,
            summary := computeSummary (updateManifestEntry (setFile (setFile
              (ensureFoldersStep (createBackups fs parsed).1 parsed)
              (s ++ ".tmp") (FileData.text c)) (recordsPath ++ ".tmp")
              (FileData.recs (records.set idx
                { r0 with contentHash := sha256str c, updatedAt := now })))
              s now m0.files),
            files := updateManifestEntry (setFile (setFile
              (ensureFoldersStep (createBackups fs parsed).1 parsed)
              (s ++ ".tmp") (FileData.text c)) (recordsPath ++ ".tmp")
              (FileData.recs (records.set idx
                { r0 with contentHash := sha256str c, updatedAt := now })))
              s now m0.files }, ?_, ?_⟩
        · rw [hbakset manifestPath hnbm, hcm]
        · exact hfind2

/-- C2 witness: the exemplary content-carrying update on the consistent
one-record store re-establishes all three hash equalities. -/
theorem c2_witness :
    (execute store0 "20260101" "now4" updGoodIntent).1.success = true ∧
    lookupF (execute store0 "20260101" "now4" updGoodIntent).2 "30_topics/a/doc.md" =
      some (.text "NEW2") ∧
    calculateHash (execute store0 "20260101" "now4" updGoodIntent).2
      "30_topics/a/doc.md" = sha256str "NEW2" ∧
    lookupF (execute store0 "20260101" "now4" updGoodIntent).2 recordsPath =
      some (.recs ([rec1].set 0
        { rec1 with contentHash := sha256str "NEW2", updatedAt := "now4" })) ∧
    ∃ M : Manifest, lookupF (execute store0 "20260101" "now4" updGoodIntent).2
        manifestPath = some (.manifest M) ∧
      M.files.find? (fun e => e.path == "30_topics/a/doc.md") =
        some { (⟨"30_topics/a/doc.md", sha256str "D", 1, "t0", "topic"⟩ : ManifestEntry)
          with hash := sha256str "NEW2", size := ("NEW2" : String).length,
               updatedAt := "now4" } :=
  have hok : (execute store0 "20260101" "now4" updGoodIntent).1.success = true := by
    decide
  have hc := c2_update_hash_invariant store0 "20260101" "now4" updGoodIntent
    "30_topics/a/doc.md" "NEW2" [rec1] 0 rec1 man0
    ⟨"30_topics/a/doc.md", sha256str "D", 1, "t0", "topic"⟩
    rfl rfl rfl rfl (by decide) (by decide) (by decide) (by decide) (by decide)
    (by decide) (by decide) (by decide) hok
  ⟨hok, hc.1, hc.2.1, hc.2.2.1, hc.2.2.2⟩

/-! ### Claim C5 -/

set_option maxRecDepth 4000 in
/-- C5 counterexample: a successful create whose title contains the digest
separator " | ".  The committed digest's reparse disagrees with the
projection of the committed records: the forged separator shifts every
field of that line. -/
theorem c5_counterexample :
    (execute store0 "20260101" "now5" createC5Intent).1.success = true ∧
    loadDigest (execute store0 "20260101" "now5" createC5Intent).2 ≠
      (match lookupF (execute store0 "20260101" "now5" createC5Intent).2 recordsPath with
       | some (.recs rs) => rs.map projDigest
       | _ => []) := by decide

/-- C5 (amended): after every successful commit with a sourceRef outside
`90_index/`, the committed digest file is the projection of the committed
records; its reparse equals the `(recordId, title, summary, tags, status)`
projection PROVIDED every staged record is digest-safe (no pipe or newline
in the scalar fields, trim-stable fields, nonempty comma-free tags). -/
theorem c5_digest_roundtrip (fs : Store) (today now : String) (i : Intent)
    (hsafe : ∀ s, truthyStrOpt i.sourceRef = some s →
      startsWithStr s "90_index/" = false)
    (hok : (execute fs today now i).1.success = true) :
    ∃ rs : List Record,
      lookupF (execute fs today now i).2 recordsPath = some (.recs rs) ∧
      lookupF (execute fs today now i).2 digestPath =
        some (.text (digestContent rs)) ∧
      ((∀ r ∈ rs, digestSafe r = true) →
        loadDigestContent (digestContent rs) = rs.map projDigest) := by
  rcases Bool.eq_false_or_eq_true (checkResidualTmp fs) with hres | hres
  case inl =>
    have he : (execute fs today now i).1.success = false := by
      unfold execute
      rw [if_pos hres]
    rw [he] at hok
    exact Bool.noConfusion hok
  cases hpar : parseIntentE fs today i with
  | error st =>
    have he : (execute fs today now i).1.success = false := by
      simp only [execute, hres, Bool.false_eq_true, if_false, hpar]
    rw [he] at hok
    exact Bool.noConfusion hok
  | ok parsed =>
    obtain ⟨hpA, hpS, hpC, hpR⟩ := parseIntentE_ok_fields fs today i parsed hpar
    have hsafeP : ∀ s, truthyStrOpt parsed.sourceRef = some s →
        startsWithStr s "90_index/" = false := by
      rw [hpS]
      exact hsafe
    have hcol' : ∀ s, truthyStrOpt parsed.sourceRef = some s →
        ¬ s ∈ artifactBakPaths := by
      intro s h
      have hsf := hsafeP s h
      simp only [artifactBakPaths, List.mem_cons, List.not_mem_nil, or_false]
      push_neg
      exact ⟨Ne.symm (ne_of_startsWith (recordsPath ++ ".bak") s "90_index/"
               (by decide) hsf),
             Ne.symm (ne_of_startsWith (manifestPath ++ ".bak") s "90_index/"
               (by decide) hsf),
             Ne.symm (ne_of_startsWith (digestPath ++ ".bak") s "90_index/"
               (by decide) hsf)⟩
    have hdisj := hdisj_of_col fs parsed hcol'
    obtain ⟨hB1, hB2, hB3⟩ := createBackups_spec fs parsed hdisj
    have hfs2 : ∀ q, lookupF (ensureFoldersStep (createBackups fs parsed).1 parsed) q =
        lookupF (createBackups fs parsed).1 q :=
      fun q => lookupF_files_eq _ _ (ensureFolders_files _ _) q
    have hnbr : ∀ p ∈ getAffectedFiles fs parsed, recordsPath ≠ p ++ ".bak" :=
      nobak_of fs parsed hcol' recordsPath (Or.inl rfl)
    have hnbm : ∀ p ∈ getAffectedFiles fs parsed, manifestPath ≠ p ++ ".bak" :=
      nobak_of fs parsed hcol' manifestPath (Or.inr (Or.inl rfl))
    have hnbd : ∀ p ∈ getAffectedFiles fs parsed, digestPath ≠ p ++ ".bak" :=
      nobak_of fs parsed hcol' digestPath (Or.inr (Or.inr (Or.inl rfl)))
    have hbakset : ∀ fsC q, (∀ p ∈ getAffectedFiles fs parsed, q ≠ p ++ ".bak") →
        lookupF ((createBackups fs parsed).2.foldl (fun f pr => eraseFile f pr.2) fsC) q
          = lookupF fsC q := by
      intro fsC q hq
      apply eraseBaks_frame
      intro pr hpr
      exact fun hc => hq pr.1 (hB2 pr hpr).2.1 (hc.trans (hB2 pr hpr).1)
    rcases writeDocumentTmp_shape (ensureFoldersStep (createBackups fs parsed).1 parsed)
        parsed with hwd | ⟨c, s, hc, hs, hwd⟩
    · cases hur : updateRecordsTmp (ensureFoldersStep (createBackups fs parsed).1 parsed)
          parsed now with
      | error st =>
        have he : (execute fs today now i).1.success = false := by
          simp only [execute, hres, Bool.false_eq_true, if_false, hpar, hwd, hur]
        rw [he] at hok
        exact Bool.noConfusion hok
      | ok out =>
        obtain ⟨rs, hout⟩ := updateRecordsTmp_ok_shape _ parsed now out hur
        subst hout
        obtain ⟨M, hM⟩ := updateManifestTmp_shape
          (setFile (ensureFoldersStep (createBackups fs parsed).1 parsed)
            (recordsPath ++ ".tmp") (FileData.recs rs)) parsed now
        have hdig := updateDigestTmp_of_recs
          (setFile (setFile (ensureFoldersStep (createBackups fs parsed).1 parsed)
              (recordsPath ++ ".tmp") (FileData.recs rs))
            (manifestPath ++ ".tmp") (FileData.manifest M)) rs
          (by rw [lookupF_setFile, if_neg (by decide), lookupF_setFile, if_pos rfl])
        rcases Or.symm (Bool.eq_false_or_eq_true
            (validate (setFile (setFile (setFile
              (ensureFoldersStep (createBackups fs parsed).1 parsed)
              (recordsPath ++ ".tmp") (FileData.recs rs))
              (manifestPath ++ ".tmp") (FileData.manifest M))
              (digestPath ++ ".tmp")
              (FileData.text (digestContent rs))) true false).passed) with hval | hval
        · have he : (execute fs today now i).1.success = false := by
            simp only [execute, hres, Bool.false_eq_true, if_false, hpar, hwd, hur, hM,
              hdig, hval, Bool.not_false, eq_self_iff_true, if_true,
              List.nil_append, List.cons_append]
          rw [he] at hok
          exact Bool.noConfusion hok
        · obtain ⟨fsC, hcom, hcr, hcm, hcd, hcfr⟩ := commit_three
            (ensureFoldersStep (createBackups fs parsed).1 parsed) rs M
            (createBackups fs parsed).2
          have he : execute fs today now i = (⟨true, parsed.recordId, none⟩,
              (createBackups fs parsed).2.foldl (fun f pr => eraseFile f pr.2) fsC) := by
            simp only [execute, hres, Bool.false_eq_true, if_false, hpar, hwd, hur, hM,
              hdig, hval, Bool.not_true, eq_self_iff_true, if_true, if_false,
              List.nil_append, List.cons_append, hcom]
          rw [he]
          refine ⟨rs, ?_, ?_, fun hall => digest_reparse rs hall⟩
          · rw [hbakset fsC recordsPath hnbr, hcr]
          · rw [hbakset fsC digestPath hnbd, hcd]
    · have hsf := hsafeP s hs
      have hner : s ≠ recordsPath :=
        Ne.symm (ne_of_startsWith recordsPath s "90_index/" (by decide) hsf)
      have hnem : s ≠ manifestPath :=
        Ne.symm (ne_of_startsWith manifestPath s "90_index/" (by decide) hsf)
      have hned : s ≠ digestPath :=
        Ne.symm (ne_of_startsWith digestPath s "90_index/" (by decide) hsf)
      have hnert : s ≠ recordsPath ++ ".tmp" :=
        Ne.symm (ne_of_startsWith (recordsPath ++ ".tmp") s "90_index/" (by decide) hsf)
      have hnemt : s ≠ manifestPath ++ ".tmp" :=
        Ne.symm (ne_of_startsWith (manifestPath ++ ".tmp") s "90_index/" (by decide) hsf)
      have hnedt : s ≠ digestPath ++ ".tmp" :=
        Ne.symm (ne_of_startsWith (digestPath ++ ".tmp") s "90_index/" (by decide) hsf)
      cases hur : updateRecordsTmp (setFile (ensureFoldersStep
          (createBackups fs parsed).1 parsed) (s ++ ".tmp") (FileData.text c))
          parsed now with
      | error st =>
        have he : (execute fs today now i).1.success = false := by
          simp only [execute, hres, Bool.false_eq_true, if_false, hpar, hwd, hur]
        rw [he] at hok
        exact Bool.noConfusion hok
      | ok out =>
        obtain ⟨rs, hout⟩ := updateRecordsTmp_ok_shape _ parsed now out hur
        subst hout
        obtain ⟨M, hM⟩ := updateManifestTmp_shape
          (setFile (setFile (ensureFoldersStep (createBackups fs parsed).1 parsed)
            (s ++ ".tmp") (FileData.text c))
            (recordsPath ++ ".tmp") (FileData.recs rs)) parsed now
        have hdig := updateDigestTmp_of_recs
          (setFile (setFile (setFile (ensureFoldersStep
              (createBackups fs parsed).1 parsed) (s ++ ".tmp") (FileData.text c))
              (recordsPath ++ ".tmp") (FileData.recs rs))
            (manifestPath ++ ".tmp") (FileData.manifest M)) rs
          (by rw [lookupF_setFile, if_neg (by decide), lookupF_setFile, if_pos rfl])
        rcases Or.symm (Bool.eq_false_or_eq_true
            (validate (setFile (setFile (setFile (setFile
              (ensureFoldersStep (createBackups fs parsed).1 parsed)
              (s ++ ".tmp") (FileData.text c))
              (recordsPath ++ ".tmp") (FileData.recs rs))
              (manifestPath ++ ".tmp") (FileData.manifest M))
              (digestPath ++ ".tmp")
              (FileData.text (digestContent rs))) true false).passed) with hval | hval
        · have he : (execute fs today now i).1.success = false := by
            simp only [execute, hres, Bool.false_eq_true, if_false, hpar, hwd, hur, hM,
              hdig, hval, Bool.not_false, eq_self_iff_true, if_true,
              List.nil_append, List.cons_append]
          rw [he] at hok
          exact Bool.noConfusion hok
        · obtain ⟨fsC, hcom, hcs, hcr, hcm, hcd, hcfr⟩ := commit_four
            (ensureFoldersStep (createBackups fs parsed).1 parsed) c s rs M
            (createBackups fs parsed).2 hner hnem hned hnert hnemt hnedt
          have he : execute fs today now i = (⟨true, parsed.recordId, none⟩,
              (createBackups fs parsed).2.foldl (fun f pr => eraseFile f pr.2) fsC) := by
            simp only [execute, hres, Bool.false_eq_true, if_false, hpar, hwd, hur, hM,
              hdig, hval, Bool.not_true, eq_self_iff_true, if_true, if_false,
              List.nil_append, List.cons_append, hcom]
          rw [he]
          refine ⟨rs, ?_, ?_, fun hall => digest_reparse rs hall⟩
          · rw [hbakset fsC recordsPath hnbr, hcr]
          · rw [hbakset fsC digestPath hnbd, hcd]

/-- C5 witness: a clean-titled create commits and its digest reparses to
exactly the projection of the committed records. -/
theorem c5_witness :
    (execute store0 "20260101" "nowW" createC5wIntent).1.success = true ∧
    ∃ rs : List Record,
      lookupF (execute store0 "20260101" "nowW" createC5wIntent).2 recordsPath =
        some (.recs rs) ∧
      lookupF (execute store0 "20260101" "nowW" createC5wIntent).2 digestPath =
        some (.text (digestContent rs)) ∧
      ((∀ r ∈ rs, digestSafe r = true) →
        loadDigestContent (digestContent rs) = rs.map projDigest) :=
  have hok : (execute store0 "20260101" "nowW" createC5wIntent).1.success = true := by
    decide
  have hsafe : ∀ s, truthyStrOpt createC5wIntent.sourceRef = some s →
      startsWithStr s "90_index/" = false := by
    intro s h
    simp only [createC5wIntent, truthyStrOpt] at h
    rw [← Option.some.inj (by simpa using h : some "30_topics/b/n.md" = some s)]
    decide
  ⟨hok, c5_digest_roundtrip store0 "20260101" "nowW" createC5wIntent hsafe hok⟩

/-! ### Claim C10 -/

/-- C10: a query whose `topK` field is 0 (JS falsy) gets the default of 10
substituted — the result is identical to an explicit `topK = 10`, so up to
10 candidates are returned rather than none — and the returned `total` is
the length of the scope/active-filtered candidate list, independent of
`topK`. -/
theorem c10_topk_default (lines : List DigestEntry) (st si g : String) :
    searchLines lines { scopeType := st, scopeId := si, currentGoal := g, topK := 0 } =
      searchLines lines { scopeType := st, scopeId := si, currentGoal := g, topK := 10 } ∧
    (searchLines lines { scopeType := st, scopeId := si, currentGoal := g, topK := 0 }).total =
      (scopeActiveFiltered lines st si).length :=
  ⟨rfl, rfl⟩

/-! ### Claim C8 -/

/-- C8 counterexample: the claim scores tokens against the COMMA-joined
tags, but `_calculateRelevance` joins tags with a space.  For tags
`["xa","by"]` and goal token `a,b` the claim's formula yields 1 while the
source yields 0, so the claim as stated is false. -/
theorem c8_counterexample :
    claimScoreC8 entC8 "a,b" = 1 ∧ calculateRelevance entC8 "a,b" = 0 := by decide

/-- C8 (amended): the relevance score is 3 per goal token occurring in the
lowercased title plus 2 per token in the lowercased summary plus 1 per
token in the SPACE-joined lowercased tags, where tokens are the
whitespace-split pieces of the goal (lowercased by `search`) with pieces of
length ≤ 1 dropped; an empty/absent goal scores 0 (the `tokCount` of an
empty goal is 0, so the formula covers it). -/
theorem c8_relevance_formula (d : DigestEntry) (goal : String) :
    calculateRelevance d goal =
      3 * tokCount (toLowerStr d.title) goal +
      2 * tokCount (toLowerStr d.summary) goal +
      tokCount (toLowerStr (joinStr " " d.tags)) goal := by
  by_cases h : goal = ""
  · subst h
    simp [calculateRelevance, tokCount, splitWs, splitWsL]
  · have hb : (goal == "") = false := by
      simp [h]
    simp only [calculateRelevance, tokCount, hb, Bool.false_eq_true, if_false]
    rw [foldl_weight_count, foldl_weight_count, foldl_weight_count]
    ring

/-! ### Claim C9 -/

/-- C9 counterexample: an update that supplies `content` as the empty
string does NOT recompute `contentHash` (the source tests JS truthiness,
not presence), refuting "recomputed iff content is supplied". -/
theorem c9_counterexample :
    (applyUpdateMutation rec1 none (some "") "now2").contentHash = rec1.contentHash ∧
    rec1.contentHash ≠ sha256str "" := by decide

/-- C9 (amended): the update mutation copies every present key of the
partial record verbatim — including recordId, status, scopeType, sourceRef
and contentHash — then sets `contentHash := hash(content)` only when the
content is supplied AND non-empty (JS truthiness), and finally overwrites
`updatedAt` with the engine clock regardless of any supplied value. -/
theorem c9_update_semantics (r : Record) (p : PartialRecord) (c : Option String)
    (now : String) :
    (applyUpdateMutation r (some p) c now).recordId = p.recordId.getD r.recordId ∧
    (applyUpdateMutation r (some p) c now).scopeType = p.scopeType.getD r.scopeType ∧
    (applyUpdateMutation r (some p) c now).scopeId = p.scopeId.getD r.scopeId ∧
    (applyUpdateMutation r (some p) c now).type = p.type.getD r.type ∧
    (applyUpdateMutation r (some p) c now).title = p.title.getD r.title ∧
    (applyUpdateMutation r (some p) c now).summary = p.summary.getD r.summary ∧
    (applyUpdateMutation r (some p) c now).tags = p.tags.getD r.tags ∧
    (applyUpdateMutation r (some p) c now).sourceType = p.sourceType.getD r.sourceType ∧
    (applyUpdateMutation r (some p) c now).sourceRef = p.sourceRef.getD r.sourceRef ∧
    (applyUpdateMutation r (some p) c now).status = p.status.getD r.status ∧
    (applyUpdateMutation r (some p) c now).replacedBy = p.replacedBy.getD r.replacedBy ∧
    (applyUpdateMutation r (some p) c now).deprecationReason =
      p.deprecationReason.getD r.deprecationReason ∧
    (applyUpdateMutation r (some p) c now).updatedAt = now ∧
    (applyUpdateMutation r (some p) c now).contentHash =
      (match c with
       | some s => if s != "" then sha256str s else p.contentHash.getD r.contentHash
       | none => p.contentHash.getD r.contentHash) := by
  cases c with
  | none => simp [applyUpdateMutation, applyPartial]
  | some s =>
    by_cases hs : s = ""
    · subst hs
      simp [applyUpdateMutation, applyPartial]
    · simp [applyUpdateMutation, applyPartial, hs]

/-! ### Claim C7 -/

/-- C7 counterexample: for a record that is not deprecated, has
`replacedBy = null` and no user confirmation, three of the claim's four
preconditions fail, yet `checkDeleteGate` returns a single unmet entry —
it early-returns on the status check — so the unmet list does not contain
one entry per failing precondition. -/
theorem c7_counterexample :
    (checkDeleteGate recC7 optC7).unmet.length = 1 ∧
    recC7.status ≠ "deprecated" ∧ recC7.replacedBy = none ∧
    optC7.userConfirmed = false := by decide

/-- C7 (amended): with session information supplied, deletion is allowed
iff status=deprecated, `updatedAt` strictly earlier (string order) than
`currentSessionStart`, `replacedBy` JS-truthy (non-null AND non-empty) and
`userConfirmed`; when status is not deprecated the gate returns immediately
with the single status entry, and only when status=deprecated does the
unmet list contain one entry per failing remaining precondition. -/
theorem c7_delete_gate_spec (r : Record) (o : DeleteGateOptions)
    (h2 : r.updatedAt ≠ "") (h3 : o.currentSessionStart ≠ "") :
    ((checkDeleteGate r o).allowed = true ↔
      (r.status = "deprecated" ∧ strLt r.updatedAt o.currentSessionStart = true ∧
       truthyOpt r.replacedBy = true ∧ o.userConfirmed = true)) ∧
    (r.status ≠ "deprecated" →
      (checkDeleteGate r o).unmet = ["record is not deprecated"]) ∧
    (r.status = "deprecated" →
      (checkDeleteGate r o).unmet.length =
        (if strLt r.updatedAt o.currentSessionStart then 0 else 1) +
        (if truthyOpt r.replacedBy then 0 else 1) +
        (if o.userConfirmed then 0 else 1)) := by
  unfold checkDeleteGate
  by_cases hst : r.status = "deprecated"
  · have hb : (r.status != "deprecated") = false := by simp [hst]
    have ht : (truthy o.currentSessionStart && truthy r.updatedAt) = true := by
      simp [truthy, h2, h3]
    simp only [hb, Bool.false_eq_true, if_false, ht, if_true, strGe]
    rcases Bool.eq_false_or_eq_true (strLt r.updatedAt o.currentSessionStart) with hlt | hlt <;>
      rcases Bool.eq_false_or_eq_true (truthyOpt r.replacedBy) with hrb | hrb <;>
        rcases Bool.eq_false_or_eq_true o.userConfirmed with huc | huc <;>
          simp_all [hst]
  · have hb : (r.status != "deprecated") = true := by simp [hst]
    simp only [hb, if_true]
    refine ⟨?_, ?_, ?_⟩
    · simp [hst]
    · intro _
      first
      | rfl
      | trivial
    · intro hc
      exact absurd hc hst

/-- C7 witness: a deprecated record older than the session with a
replacement and user confirmation is allowed through the gate. -/
theorem c7_witness :
    (checkDeleteGate recC7w optC7w).allowed = true ∧ recC7w.updatedAt ≠ "" :=
  ⟨((c7_delete_gate_spec recC7w optC7w (by decide) (by decide)).1).mpr (by decide),
   by decide⟩

/-! ### Claim C6 -/

/-- C6 counterexample: a record carrying the foreign-axis tag `color/blue`
produces no `validateRecord` error, and a committed-mode `validate` over a
store containing it passes with no errors — invariant 6 is not enforced by
the validator. -/
theorem c6_counterexample :
    recC6.tags = ["color/blue"] ∧ validateRecord recC6 = [] ∧
    (validate storeC6 false false).passed = true ∧
    (validate storeC6 false false).errors = [] := by decide

/-- C6 (amended): record validation is entirely independent of the tags
field (the source only checks `Array.isArray(tags)`, vacuous here), so a
tag with an axis other than `domain/` or `intent/` is never reported. -/
theorem c6_validator_ignores_tags (r : Record) (ts : List String) :
    validateRecord { r with tags := ts } = validateRecord r := rfl

/-! ### Claim C4 -/

/-- C4 counterexample: a create intent under `10_projects/` whose parent
folder does not exist succeeds — the transaction does NOT fail — and the
folder is auto-created, contradicting the claim that auto-creation happens
only under `30_topics/`. -/
theorem c4_counterexample :
    (execute store0 "20260101" "now1" createC4Intent).1.success = true ∧
    (execute store0 "20260101" "now1" createC4Intent).2.dirs.contains "10_projects/p" = true ∧
    store0.dirs.contains "10_projects/p" = false ∧
    startsWithStr "10_projects/p/x.md" "30_topics/" = false := by decide

/-- C4 (amended): the lifecycle gate `checkFolderAutoCreate` allows
auto-creation exactly for `30_topics/` paths, but the engine's
directory-preparation step never consults it: for every create intent with
a truthy sourceRef it unconditionally ensures the parent directory (and
never fails), touching no file. -/
theorem c4_folder_step (fs : Store) (parsed : Intent) (s : String)
    (ha : parsed.action = "create") (hs : truthyStrOpt parsed.sourceRef = some s) :
    (checkFolderAutoCreate s).autoAllowed = startsWithStr s "30_topics/" ∧
    (ensureFoldersStep fs parsed).dirs.contains (dirname s) = true ∧
    (ensureFoldersStep fs parsed).files = fs.files := by
  have hstep : ensureFoldersStep fs parsed = addDir fs (dirname s) := by
    unfold ensureFoldersStep
    simp [ha, hs]
  refine ⟨rfl, ?_, ?_⟩
  · rw [hstep]
    exact addDir_contains fs (dirname s)
  · rw [hstep]
    exact addDir_files fs (dirname s)

/-- C4 witness: instance of the amended theorem at the concrete
`10_projects` create intent. -/
theorem c4_witness :
    (checkFolderAutoCreate "10_projects/p/x.md").autoAllowed =
      startsWithStr "10_projects/p/x.md" "30_topics/" ∧
    (ensureFoldersStep store0 createC4Intent).dirs.contains
      (dirname "10_projects/p/x.md") = true ∧
    (ensureFoldersStep store0 createC4Intent).files = store0.files :=
  c4_folder_step store0 createC4Intent "10_projects/p/x.md" rfl rfl

end Brain
